import Mathlib

/-!
Governance plugin (x/plugin/gov_plugin.go)

A shallow embedding of the governance plugin: proposals, votes, tally results, the
voting / end / pre-active ID lists, the tally functions, the block hooks `BeginBlock`
and `EndBlock`, `Submit`, `Vote` and `DeclareVersion`.

Conventions.
* `common.Hash`, `discover.NodeID`, `common.Address` are natural numbers; the zero
  hash is `0`.
* `uint16` counters are naturals reduced modulo `65536` where the source can wrap.
* A Go `error` result is `Except Err`; a Go run-time panic (nil dereference, failed
  type assertion, integer division by zero) is the error `Err.panic`.
* The state is the governance view at the block hash being processed; every call of
  one operation uses the same block hash.
* Operations are state transformers `Gov α`; the state reached is kept also when
  the operation ends in an error.
-/

set_option linter.unusedVariables false

namespace PlatON

abbrev Hash := Nat
abbrev NodeID := Nat
abbrev Address := Nat

/-- The zero hash `common.ZeroHash`. -/
def ZeroHash : Hash := 0

/-- Proposal type tag `gov.ProposalType`. `Invalid` stands for every other byte. -/
inductive ProposalType
  | Text
  | Version
  | Cancel
  | Invalid
  deriving DecidableEq, Repr

/-- Tally status `gov.TallyStatus`. -/
inductive Status
  | Voting
  | Pass
  | Failed
  | PreActive
  | Active
  | Canceled
  deriving DecidableEq, Repr

/-- Vote option `gov.Yes`. -/
def Yes : Nat := 1
/-- Vote option `gov.No`. -/
def No : Nat := 2
/-- Vote option `gov.Abstention`. -/
def Abstention : Nat := 3

structure TextProposal where
  ProposalID : Hash
  ProposalType : ProposalType
  Proposer : NodeID
  SubmitBlock : Nat
  EndVotingBlock : Nat
  deriving DecidableEq, Repr

structure VersionProposal where
  ProposalID : Hash
  ProposalType : ProposalType
  Proposer : NodeID
  SubmitBlock : Nat
  EndVotingBlock : Nat
  NewVersion : Nat
  ActiveBlock : Nat
  deriving DecidableEq, Repr

structure CancelProposal where
  ProposalID : Hash
  ProposalType : ProposalType
  Proposer : NodeID
  SubmitBlock : Nat
  EndVotingBlock : Nat
  TobeCanceled : Hash
  deriving DecidableEq, Repr

/-- The interface `gov.Proposal`: a value of one of the three dynamic types. -/
inductive Proposal
  | text (p : TextProposal)
  | version (p : VersionProposal)
  | cancel (p : CancelProposal)
  deriving DecidableEq, Repr

def Proposal.GetProposalID : Proposal → Hash
  | .text p => p.ProposalID
  | .version p => p.ProposalID
  | .cancel p => p.ProposalID

def Proposal.GetProposalType : Proposal → ProposalType
  | .text p => p.ProposalType
  | .version p => p.ProposalType
  | .cancel p => p.ProposalType

def Proposal.GetEndVotingBlock : Proposal → Nat
  | .text p => p.EndVotingBlock
  | .version p => p.EndVotingBlock
  | .cancel p => p.EndVotingBlock

def Proposal.GetProposer : Proposal → NodeID
  | .text p => p.Proposer
  | .version p => p.Proposer
  | .cancel p => p.Proposer

def Proposal.GetSubmitBlock : Proposal → Nat
  | .text p => p.SubmitBlock
  | .version p => p.SubmitBlock
  | .cancel p => p.SubmitBlock

/-- A vote, the type `gov.Vote`. -/
structure GovVote where
  ProposalID : Hash
  VoteNodeID : NodeID
  VoteOption : Nat
  deriving DecidableEq, Repr

/-- A stored vote value `gov.VoteValue`. -/
structure VoteValue where
  VoteNodeID : NodeID
  VoteOption : Nat
  deriving DecidableEq, Repr

structure TallyResult where
  ProposalID : Hash
  Yeas : Nat
  Nays : Nat
  Abstentions : Nat
  AccuVerifiers : Nat
  Status : Status
  CanceledBy : Hash
  deriving DecidableEq, Repr

structure ActiveVersionValue where
  ActiveVersion : Nat
  ActiveBlock : Nat
  deriving DecidableEq, Repr

/-- A call received by the staking collaborator. -/
inductive StkNote
  | ProposalPassed (blockHash : Hash) (blockNumber : Nat) (activeList : List NodeID) (newVersion : Nat)
  | DeclarePromote (blockHash : Hash) (blockNumber : Nat) (nodeID : NodeID) (version : Nat)
  deriving DecidableEq, Repr

/-- The operations of the State Gateway (`gov.GovDB`) that the plugin calls. -/
inductive GovOp
  | GetPreActiveProposalID
  | GetExistProposal
  | GetProposal
  | SetProposal
  | GetActiveNodeList
  | GetTallyResult
  | SetTallyResult
  | MovePreActiveProposalIDToEnd
  | MoveVotingProposalIDToPreActive
  | MoveVotingProposalIDToEnd
  | ClearActiveNodes
  | AddActiveNode
  | AddActiveVersion
  | ListActiveVersion
  | ListVotingProposal
  | ListEndProposalID
  | AddVotingProposalID
  | AccuVerifiers
  | AccuVerifiersLength
  | ListVoteValue
  | ListVotedVerifier
  | SetVote
  | SetPreActiveVersion
  | FindVotingVersionProposal
  deriving DecidableEq, Repr

/-- The calls to the staking collaborator (`stk`) that can return an error. -/
inductive StkOp
  | ListCurrentValidatorID
  | ListVerifierNodeID
  | GetVerifierList
  | GetCandidateList
  | GetCandidateInfo
  | ProposalPassedNotify
  | DeclarePromoteNotify
  deriving DecidableEq, Repr

inductive Err
  | biz (msg : String)
  | store (op : GovOp)
  | stk (op : StkOp)
  | other (msg : String)
  | panic (msg : String)
  deriving DecidableEq, Repr

/-- Governance state visible at the block hash being processed, together with the
list of calls the staking collaborator has received. -/
structure State where
  Proposals : List Proposal
  Votes : List GovVote
  TallyResults : List TallyResult
  VotingList : List Hash
  EndList : List Hash
  PreActive : Hash
  AccuVerifiers : Hash → List NodeID
  ActiveNodes : Hash → List NodeID
  PreActiveVersion : Nat
  ActiveVersions : List ActiveVersionValue
  Notified : List StkNote

/-- An entry of `stk.GetVerifierList` (`*staking.ValidatorEx`). -/
structure Verifier where
  NodeId : NodeID
  StakingAddress : Address
  deriving DecidableEq, Repr

/-- An entry of `stk.GetCandidateList` / the result of `stk.GetCandidateInfo`. -/
structure Candidate where
  NodeId : NodeID
  StakingAddress : Address
  Status : Nat
  deriving DecidableEq, Repr

/-- Everything the plugin takes from outside `gov_plugin.go`: configuration values of
`xcom` and `xutil`, the staking and crypto collaborators, the proposals' `Verify`, and
which gateway or staking calls fail with an I/O error. The rate thresholds are the exact
values of the configured `float64` numbers. -/
structure Env where
  fails : GovOp → Bool
  stkFails : StkOp → Bool
  ConsensusSize : Nat
  IsSettlementPeriod : Nat → Bool
  TextProposal_VoteRate : ℚ
  TextProposal_SupportRate : ℚ
  CancelProposal_VoteRate : ℚ
  CancelProposal_SupportRate : ℚ
  VersionProposal_SupportRate : ℚ
  ListCurrentValidatorID : Hash → Nat → List NodeID
  ListVerifierNodeID : Hash → Nat → List NodeID
  GetVerifierList : Hash → Nat → List (Option Verifier)
  GetCandidateList : Hash → Nat → List Candidate
  GetCandidateInfo : Hash → Address → Candidate
  NodeId2Addr : NodeID → Address
  Is_Invalid : Nat → Bool
  IsSignedByNodeID : Nat → Nat → NodeID → Bool
  Verify : Proposal → Nat → Hash → State → Option String

/-! ## State transformers -/

/-- A plugin operation: from a state to a result (or error) and the state reached. -/
def Gov (α : Type) : Type := State → Except Err α × State

def Gov.pure {α : Type} (a : α) : Gov α := fun s => (.ok a, s)

def Gov.bind {α β : Type} (m : Gov α) (f : α → Gov β) : Gov β := fun s =>
  match m s with
  | (.ok a, s1) => f a s1
  | (.error e, s1) => (.error e, s1)

/-- Return the error `e`, as `return err` does. -/
def Gov.fail {α : Type} (e : Err) : Gov α := fun s => (.error e, s)

instance : Monad Gov where
  pure := Gov.pure
  bind := Gov.bind

/-- A gateway read: fails when the environment says so, else returns `f` of the state. -/
def gwRead {α : Type} (env : Env) (op : GovOp) (f : State → α) : Gov α := fun s =>
  if env.fails op then (.error (.store op), s) else (.ok (f s), s)

/-- A gateway write: fails (writing nothing) when the environment says so, else
replaces the state by `f` of it. -/
def gwWrite (env : Env) (op : GovOp) (f : State → State) : Gov Unit := fun s =>
  if env.fails op then (.error (.store op), s) else (.ok (), f s)

/-- A call of the staking collaborator that only reads. -/
def stkRead {α : Type} (env : Env) (op : StkOp) (a : α) : Gov α := fun s =>
  if env.stkFails op then (.error (.stk op), s) else (.ok a, s)

/-- A notification of the staking collaborator: recorded in `Notified` unless it fails. -/
def stkNotify (env : Env) (op : StkOp) (n : StkNote) : Gov Unit := fun s =>
  if env.stkFails op then (.error (.stk op), s)
  else (.ok (), { s with Notified := s.Notified ++ [n] })

/-- Membership test `xutil.InNodeIDList`. -/
def InNodeIDList (nodeID : NodeID) (nodeIDList : List NodeID) : Bool :=
  nodeIDList.any (fun v => v == nodeID)

/-- Membership test `xutil.InHashList`. -/
def InHashList (hash : Hash) (hashList : List Hash) : Bool :=
  hashList.any (fun v => v == hash)

/-- Point update of a per-proposal set. -/
def setAt (f : Hash → List NodeID) (k : Hash) (v : List NodeID) : Hash → List NodeID :=
  fun x => if x = k then v else f x

/-! ## State Gateway -/

/-- The vote values stored for a proposal, in the order they were recorded. -/
def votesOf (s : State) (proposalID : Hash) : List VoteValue :=
  (s.Votes.filter (fun v => v.ProposalID == proposalID)).map
    (fun v => { VoteNodeID := v.VoteNodeID, VoteOption := v.VoteOption })

/-- The number of accumulated verifiers of a proposal, as a `uint16`. -/
def accuCount (s : State) (proposalID : Hash) : Nat :=
  (s.AccuVerifiers proposalID).length % 65536

/-- Look a proposal up by its ID. -/
def findProposal (id : Hash) (s : State) : Option Proposal :=
  s.Proposals.find? (fun p => p.GetProposalID == id)

/-- Look a tally result up by its proposal ID. -/
def findTallyResult (id : Hash) (s : State) : Option TallyResult :=
  s.TallyResults.find? (fun t => t.ProposalID == id)

/-- Modelled from the spec: `GetPreActiveProposalID` of the State Gateway (absent from
the sources), the content of the PreActive slot, the zero hash when it is empty. -/
def GetPreActiveProposalID (env : Env) : Gov Hash :=
  gwRead env .GetPreActiveProposalID (fun s => s.PreActive)

/-- Modelled from the spec: `GetProposal` of the State Gateway (absent from the sources),
the stored proposal with this ID, or nil. -/
def GetProposal (env : Env) (proposalID : Hash) : Gov (Option Proposal) :=
  gwRead env .GetProposal (findProposal proposalID)

/-- Modelled from the spec: `GetExistProposal` of the State Gateway (absent from the
sources), the stored proposal with this ID, an error when there is none. -/
def GetExistProposal (env : Env) (proposalID : Hash) : Gov Proposal := fun s =>
  if env.fails .GetExistProposal then (.error (.store .GetExistProposal), s)
  else match findProposal proposalID s with
    | some p => (.ok p, s)
    | none => (.error (.store .GetExistProposal), s)

/-- Modelled from the spec: `SetProposal` of the State Gateway (absent from the sources),
with the round-trip law `SetProposal(p); GetProposal(p.ID) == p`. -/
def SetProposal (env : Env) (proposal : Proposal) : Gov Unit :=
  gwWrite env .SetProposal (fun s =>
    { s with Proposals :=
        proposal :: s.Proposals.filter (fun p => p.GetProposalID != proposal.GetProposalID) })

/-- Modelled from the spec: `GetTallyResult` of the State Gateway (absent from the
sources), the stored tally result of this proposal, or nil when none was stored. -/
def GetTallyResult (env : Env) (proposalID : Hash) : Gov (Option TallyResult) :=
  gwRead env .GetTallyResult (findTallyResult proposalID)

/-- Modelled from the spec: `SetTallyResult` of the State Gateway (absent from the
sources), with the round-trip law `SetTallyResult(t); GetTallyResult(t.ProposalID) == t`. -/
def SetTallyResult (env : Env) (tallyResult : TallyResult) : Gov Unit :=
  gwWrite env .SetTallyResult (fun s =>
    { s with TallyResults :=
        tallyResult :: s.TallyResults.filter (fun t => t.ProposalID != tallyResult.ProposalID) })

/-- Modelled from the spec: `GetActiveNodeList` of the State Gateway (absent from the
sources), the ActiveNodes set of the proposal. -/
def GetActiveNodeList (env : Env) (proposalID : Hash) : Gov (List NodeID) :=
  gwRead env .GetActiveNodeList (fun s => s.ActiveNodes proposalID)

/-- Modelled from the spec: `AddActiveNode` of the State Gateway (absent from the
sources); adding twice yields the identical set. -/
def AddActiveNode (env : Env) (proposalID : Hash) (nodeID : NodeID) : Gov Unit :=
  gwWrite env .AddActiveNode (fun s =>
    if InNodeIDList nodeID (s.ActiveNodes proposalID) then s
    else { s with ActiveNodes :=
             setAt s.ActiveNodes proposalID (s.ActiveNodes proposalID ++ [nodeID]) })

/-- Modelled from the spec: `ClearActiveNodes` of the State Gateway (absent from the
sources), which empties the ActiveNodes set of the proposal. -/
def ClearActiveNodes (env : Env) (proposalID : Hash) : Gov Unit :=
  gwWrite env .ClearActiveNodes (fun s =>
    { s with ActiveNodes := setAt s.ActiveNodes proposalID [] })

/-- Modelled from the spec: `ListVotingProposal` of the State Gateway (absent from the
sources), the VotingList. -/
def ListVotingProposal (env : Env) : Gov (List Hash) :=
  gwRead env .ListVotingProposal (fun s => s.VotingList)

/-- Modelled from the spec: `MoveVotingProposalIDToPreActive` of the State Gateway
(absent from the sources): the ID leaves the VotingList and fills the PreActive slot. -/
def MoveVotingProposalIDToPreActive (env : Env) (proposalID : Hash) : Gov Unit :=
  gwWrite env .MoveVotingProposalIDToPreActive (fun s =>
    { s with VotingList := s.VotingList.filter (fun h => h != proposalID),
             PreActive := proposalID })

/-- Modelled from the spec: `MoveVotingProposalIDToEnd` of the State Gateway (absent
from the sources): the ID leaves the VotingList and is appended to the EndList. -/
def MoveVotingProposalIDToEnd (env : Env) (proposalID : Hash) : Gov Unit :=
  gwWrite env .MoveVotingProposalIDToEnd (fun s =>
    { s with VotingList := s.VotingList.filter (fun h => h != proposalID),
             EndList := s.EndList ++ [proposalID] })

/-- Modelled from the spec: `MovePreActiveProposalIDToEnd` of the State Gateway (absent
from the sources): the PreActive slot is emptied and the ID is appended to the EndList. -/
def MovePreActiveProposalIDToEnd (env : Env) (proposalID : Hash) : Gov Unit :=
  gwWrite env .MovePreActiveProposalIDToEnd (fun s =>
    { s with PreActive := ZeroHash, EndList := s.EndList ++ [proposalID] })

/-- Modelled from the spec: `AccuVerifiersLength` of the State Gateway (absent from the
sources), the number of accumulated verifiers of the proposal, a `uint16`. -/
def AccuVerifiersLength (env : Env) (proposalID : Hash) : Gov Nat :=
  gwRead env .AccuVerifiersLength (fun s => accuCount s proposalID)

/-- Modelled from the spec: `ListVoteValue` of the State Gateway (absent from the
sources), the stored votes of the proposal in the order they were recorded. -/
def ListVoteValue (env : Env) (proposalID : Hash) : Gov (List VoteValue) :=
  gwRead env .ListVoteValue (fun s => votesOf s proposalID)

/-- Modelled from the spec: `ListVotedVerifier` of the State Gateway (absent from the
sources), the nodes that have already cast a vote for this proposal. -/
def ListVotedVerifier (env : Env) (proposalID : Hash) : Gov (List NodeID) :=
  gwRead env .ListVotedVerifier (fun s =>
    (s.Votes.filter (fun v => v.ProposalID == proposalID)).map (fun v => v.VoteNodeID))

/-- Modelled from the spec: `SetVote` of the State Gateway (absent from the sources):
record the vote, keyed uniquely by proposal and voting node. -/
def SetVote (env : Env) (proposalID : Hash) (voter : NodeID) (option : Nat) : Gov Unit :=
  gwWrite env .SetVote (fun s =>
    { s with Votes :=
        s.Votes.filter (fun v => !(v.ProposalID == proposalID && v.VoteNodeID == voter))
          ++ [{ ProposalID := proposalID, VoteNodeID := voter, VoteOption := option }] })

/-- Modelled from the spec: `SetPreActiveVersion` of the State Gateway (absent from the
sources). -/
def SetPreActiveVersion (env : Env) (version : Nat) : Gov Unit :=
  gwWrite env .SetPreActiveVersion (fun s => { s with PreActiveVersion := version })

/-- Modelled from the spec: `AddActiveVersion` of the State Gateway (absent from the
sources): prepend the record to the active-version history (newest first). -/
def AddActiveVersion (env : Env) (version : Nat) (block : Nat) : Gov Unit :=
  gwWrite env .AddActiveVersion (fun s =>
    { s with ActiveVersions :=
        { ActiveVersion := version, ActiveBlock := block } :: s.ActiveVersions })

/-- Modelled from the spec: `ListActiveVersion` of the State Gateway (absent from the
sources), the active-version history, newest first. -/
def ListActiveVersion (env : Env) : Gov (List ActiveVersionValue) :=
  gwRead env .ListActiveVersion (fun s => s.ActiveVersions)

/-- Modelled from the spec: `AddVotingProposalID` of the State Gateway (absent from the
sources): append the ID to the VotingList. -/
def AddVotingProposalID (env : Env) (proposalID : Hash) : Gov Unit :=
  gwWrite env .AddVotingProposalID (fun s => { s with VotingList := s.VotingList ++ [proposalID] })

/-- Modelled from the spec: `ListEndProposalID` of the State Gateway (absent from the
sources), the EndList. -/
def ListEndProposalID (env : Env) : Gov (List Hash) :=
  gwRead env .ListEndProposalID (fun s => s.EndList)

/-- Set union of node lists: the nodes of `acc`, then the new nodes of `verifierList`. -/
def mergeNodes (acc verifierList : List NodeID) : List NodeID :=
  verifierList.foldl (fun l v => if InNodeIDList v l then l else l ++ [v]) acc

/-- Modelled from the spec: `AccuVerifiers` of the State Gateway (absent from the sources):
merge the verifier list into the accumulated verifiers of the proposal (set union). -/
def AccuVerifiers (env : Env) (proposalID : Hash) (verifierList : List NodeID) : Gov Unit :=
  gwWrite env .AccuVerifiers (fun s =>
    { s with AccuVerifiers :=
        setAt s.AccuVerifiers proposalID (mergeNodes (s.AccuVerifiers proposalID) verifierList) })

/-- Modelled from the spec: `GetPreActiveVersion` of the State Gateway (absent from the
sources), the persisted pre-active version, `0` when there is none. -/
def GetPreActiveVersion (s : State) : Nat := s.PreActiveVersion

/-- Modelled from the spec: `GetCurrentActiveVersion` of the State Gateway (absent from the
sources), the version of the newest record of the active-version history, `0` when the history
is empty. -/
def GetCurrentActiveVersion (s : State) : Nat :=
  match s.ActiveVersions with
  | [] => 0
  | av :: _ => av.ActiveVersion

/-- The first version proposal among the stored proposals of the given IDs. -/
def firstVersionProposal (s : State) : List Hash → Option VersionProposal
  | [] => none
  | id :: rest =>
    match findProposal id s with
    | some (.version vp) => some vp
    | _ => firstVersionProposal s rest

/-- Modelled from the spec: `FindVotingVersionProposal` of the State Gateway (absent from the
sources), the version proposal in the VotingList, nil when there is none. -/
def FindVotingVersionProposal (env : Env) : Gov (Option VersionProposal) :=
  gwRead env .FindVotingVersionProposal (fun s => firstVersionProposal s s.VotingList)

/-! ## float64 division of two `uint16` values -/

/-- Round a non-negative rational to the nearest integer, ties to even. -/
def roundHalfEven (m : ℚ) : ℤ :=
  if m - ⌊m⌋ < 1 / 2 then ⌊m⌋
  else if 1 / 2 < m - ⌊m⌋ then ⌊m⌋ + 1
  else if ⌊m⌋ % 2 = 0 then ⌊m⌋ else ⌊m⌋ + 1

/-- The binary64 value nearest to the positive rational `q` (round to nearest, ties to
even, 53-bit significand), for `q` in the normal range; `0` for `q = 0`. Every quotient of
two `uint16` values lies in the normal range. -/
def f64Round (q : ℚ) : ℚ :=
  if q = 0 then 0
  else (roundHalfEven (q * (2 : ℚ) ^ (52 - Int.log 2 q)) : ℚ) * (2 : ℚ) ^ (Int.log 2 q - 52)

/-- The comparison `float64(yeas) / float64(verifiersCnt) >= threshold` of `tallyVersion`.
Both conversions are exact and the division is correctly rounded. A zero divisor gives
`+Inf` (which is `>=` every finite threshold) for `yeas > 0` and `NaN` (never `>=`) for
`yeas = 0`. -/
def supportRateReached (yeas verifiersCnt : Nat) (threshold : ℚ) : Bool :=
  if verifiersCnt = 0 then decide (yeas ≠ 0)
  else decide (threshold ≤ f64Round ((yeas : ℚ) / (verifiersCnt : ℚ)))

/-! ## Tally Engine -/

/-- The three `uint16` counters of `tally`. -/
structure VoteCount where
  yeas : Nat
  nays : Nat
  abstentions : Nat
  deriving DecidableEq, Repr

/-- One iteration of the counting loop of `tally`; `++` on a `uint16` wraps. -/
def countVote (c : VoteCount) (v : VoteValue) : VoteCount :=
  let c1 := if v.VoteOption = Yes then { c with yeas := (c.yeas + 1) % 65536 } else c
  let c2 := if v.VoteOption = No then { c1 with nays := (c1.nays + 1) % 65536 } else c1
  if v.VoteOption = Abstention then { c2 with abstentions := (c2.abstentions + 1) % 65536 }
  else c2

/-- The counting loop of `tally`. -/
def countVotes (voteList : List VoteValue) : VoteCount :=
  voteList.foldl countVote { yeas := 0, nays := 0, abstentions := 0 }

/-- The expression `float64(yeas + nays + abstentions/verifiersCnt)` of `tally`: `uint16`
arithmetic, the division binding tighter than the additions, converted exactly. -/
def tallyVoteRate (c : VoteCount) (verifiersCnt : Nat) : ℚ :=
  (((c.yeas + c.nays + c.abstentions / verifiersCnt) % 65536 : Nat) : ℚ)

/-- The expression `float64(yeas / verifiersCnt)` of `tally`: a `uint16` division,
converted exactly. -/
def tallySupportRate (c : VoteCount) (verifiersCnt : Nat) : ℚ :=
  ((c.yeas / verifiersCnt : Nat) : ℚ)

/-- The `switch proposalType` of `tally`. -/
def tallyStatus (env : Env) (proposalType : ProposalType) (voteRate supportRate : ℚ) : Status :=
  match proposalType with
  | .Text =>
    if voteRate > env.TextProposal_VoteRate ∧ supportRate > env.TextProposal_SupportRate
    then .Pass else .Failed
  | .Cancel =>
    if voteRate > env.CancelProposal_VoteRate ∧ supportRate > env.CancelProposal_SupportRate
    then .Pass else .Failed
  | _ => .Voting

/-- Method `GovPlugin.tally`. -/
def tally (env : Env) (proposalType : ProposalType) (proposalID : Hash) (blockHash : Hash)
    (blockNumber : Nat) : Gov Bool := do
  let verifiersCnt ← AccuVerifiersLength env proposalID
  let voteList ← ListVoteValue env proposalID
  let c := countVotes voteList
  if verifiersCnt = 0 then Gov.fail (.panic "integer divide by zero")
  else do
    let voteRate := tallyVoteRate c verifiersCnt
    let supportRate := tallySupportRate c verifiersCnt
    let status := tallyStatus env proposalType voteRate supportRate
    let tallyResult : TallyResult :=
      { ProposalID := proposalID, Yeas := c.yeas, Nays := c.nays, Abstentions := c.abstentions,
        AccuVerifiers := verifiersCnt, Status := status, CanceledBy := ZeroHash }
    MoveVotingProposalIDToEnd env proposalID
    SetTallyResult env tallyResult
    pure (status == .Pass)

/-- Method `GovPlugin.tallyText`. -/
def tallyText (env : Env) (proposalID : Hash) (blockHash : Hash) (blockNumber : Nat) : Gov Bool :=
  tally env .Text proposalID blockHash blockNumber

/-- Method `GovPlugin.tallyVersion`. -/
def tallyVersion (env : Env) (proposal : VersionProposal) (blockHash : Hash)
    (blockNumber : Nat) : Gov Unit := do
  let proposalID := proposal.ProposalID
  let verifiersCnt ← AccuVerifiersLength env proposalID
  let voteList ← ListVoteValue env proposalID
  let voteCnt := voteList.length % 65536
  let yeas := voteCnt
  let status ←
    if supportRateReached yeas verifiersCnt env.VersionProposal_SupportRate then do
      MoveVotingProposalIDToPreActive env proposalID
      SetPreActiveVersion env proposal.NewVersion
      let activeList ← GetActiveNodeList env proposalID
      stkNotify env .ProposalPassedNotify
        (.ProposalPassed blockHash blockNumber activeList proposal.NewVersion)
      pure Status.PreActive
    else do
      MoveVotingProposalIDToEnd env proposalID
      pure Status.Failed
  let tallyResult : TallyResult :=
    { ProposalID := proposalID, Yeas := yeas, Nays := 0, Abstentions := 0,
      AccuVerifiers := verifiersCnt, Status := status, CanceledBy := ZeroHash }
  SetTallyResult env tallyResult

/-- Method `GovPlugin.listVotingProposalID`. -/
def listVotingProposalID (env : Env) (blockHash : Hash) (blockNumber : Nat) : Gov (List Hash) :=
  ListVotingProposal env

/-- Method `GovPlugin.GetTallyResult`: a nil result of the gateway is a business error. -/
def GovPlugin_GetTallyResult (env : Env) (proposalID : Hash) : Gov TallyResult := do
  let tallyResult ← GetTallyResult env proposalID
  match tallyResult with
  | none => Gov.fail (.biz "get tallyResult by proposal ID failed.")
  | some t => pure t

/-- Method `GovPlugin.tallyCancel`. -/
def tallyCancel (env : Env) (cp : CancelProposal) (blockHash : Hash) (blockNumber : Nat) :
    Gov Bool := do
  let pass ← tally env .Cancel cp.ProposalID blockHash blockNumber
  if pass then do
    let proposal ← GetExistProposal env cp.TobeCanceled
    if proposal.GetProposalType ≠ .Version then
      Gov.fail (.biz "Tobe canceled proposal is not a version proposal.")
    else do
      let votingProposalIDList ← listVotingProposalID env blockHash blockNumber
      if !InHashList cp.TobeCanceled votingProposalIDList then
        Gov.fail (.biz "Tobe canceled proposal is not at voting stage.")
      else do
        let tallyResult ← GovPlugin_GetTallyResult env cp.TobeCanceled
        let tallyResult := { tallyResult with Status := .Canceled, CanceledBy := cp.ProposalID }
        SetTallyResult env tallyResult
        ClearActiveNodes env cp.TobeCanceled
        MoveVotingProposalIDToEnd env cp.TobeCanceled
        pure true
  else pure true

/-! ## Read queries -/

/-- The handle `*gov.GovDB`; its content is the `State`. -/
structure GovDB where
  deriving DecidableEq, Repr

/-- The receiver `*GovPlugin`. A nil receiver is `none`, a nil `govDB` field is `none`. -/
structure GovPlugin where
  govDB : Option GovDB
  deriving DecidableEq, Repr

/-- The loop of `GetActiveVersion` over the active-version history. -/
def GetActiveVersion_loop (blockNumber : Nat) : List ActiveVersionValue → Nat
  | [] => 0
  | av :: rest =>
    if blockNumber ≥ av.ActiveBlock then av.ActiveVersion
    else GetActiveVersion_loop blockNumber rest

/-- Method `GovPlugin.GetActiveVersion`. -/
def GetActiveVersion (govPlugin : Option GovPlugin) (env : Env) (blockNumber : Nat)
    (state : State) : Nat :=
  match govPlugin with
  | none => 0
  | some plugin =>
    match plugin.govDB with
    | none => 0
    | some _ =>
      match (ListActiveVersion env state).1 with
      | .error _ => 0
      | .ok avList => GetActiveVersion_loop blockNumber avList

/-! ## Activation Coordinator -/

/-- The loop of `BeginBlock` counting the current validators found in the active list. -/
def countUpdatedNodes (currentValidatorList activeList : List NodeID) : Nat :=
  currentValidatorList.foldl
    (fun updatedNodes validator =>
      if InNodeIDList validator activeList then updatedNodes + 1 else updatedNodes) 0

/-- Run `m`; an error it returns is logged and not returned. -/
def Gov.logOnly (m : Gov Unit) : Gov Unit := fun s => (.ok (), (m s).2)

/-- Method `GovPlugin.BeginBlock`. -/
def BeginBlock (env : Env) (blockHash : Hash) (blockNumber : Nat) : Gov Unit := do
  let preActiveVersionProposalID ← GetPreActiveProposalID env
  if preActiveVersionProposalID = ZeroHash then pure ()
  else do
    let preActiveVersionProposal ← GetExistProposal env preActiveVersionProposalID
    match preActiveVersionProposal with
    | .version versionProposal =>
      if blockNumber ≥ versionProposal.ActiveBlock then
        if env.ConsensusSize = 0 then Gov.fail (.panic "integer divide by zero")
        else if (blockNumber - versionProposal.ActiveBlock) % env.ConsensusSize = 0 then do
          let currentValidatorList ←
            stkRead env .ListCurrentValidatorID (env.ListCurrentValidatorID blockHash blockNumber)
          let totalValidators := currentValidatorList.length
          let activeList ← GetActiveNodeList env preActiveVersionProposalID
          let updatedNodes := countUpdatedNodes currentValidatorList activeList
          if updatedNodes = totalValidators then do
            let tallyResult ← GetTallyResult env preActiveVersionProposalID
            match tallyResult with
            | none => Gov.fail (.panic "nil pointer dereference")
            | some tallyResult =>
              SetTallyResult env { tallyResult with Status := .Active }
              if versionProposal.ActiveBlock ≠ blockNumber then
                Gov.logOnly
                  (SetProposal env (.version { versionProposal with ActiveBlock := blockNumber }))
              else pure ()
              MovePreActiveProposalIDToEnd env preActiveVersionProposalID
              ClearActiveNodes env preActiveVersionProposalID
              AddActiveVersion env versionProposal.NewVersion blockNumber
          else pure ()
        else pure ()
      else pure ()
    | _ => pure ()

/-! ## Voting Engine -/

/-- The loop of `checkVerifier` over the verifier list. -/
def checkVerifier_loop (env : Env) (caller : Address) (nodeID : NodeID) (blockHash : Hash) :
    List (Option Verifier) → Gov Unit
  | [] => Gov.fail (.biz "tx sender is not a verifier.")
  | none :: rest => checkVerifier_loop env caller nodeID blockHash rest
  | some verifier :: rest =>
    if verifier.NodeId = nodeID then
      if verifier.StakingAddress = caller then
        if env.stkFails .GetCandidateInfo then
          Gov.fail (.biz "cannot get verifier's detail info.")
        else if env.Is_Invalid
            (env.GetCandidateInfo blockHash (env.NodeId2Addr verifier.NodeId)).Status then
          Gov.fail (.biz "verifier's status is invalid.")
        else pure ()
      else Gov.fail (.biz "tx sender should be node's staking address.")
    else checkVerifier_loop env caller nodeID blockHash rest

/-- Method `GovPlugin.checkVerifier`. -/
def checkVerifier (env : Env) (caller : Address) (nodeID : NodeID) (blockHash : Hash)
    (blockNumber : Nat) : Gov Unit := do
  let verifierList ← stkRead env .GetVerifierList (env.GetVerifierList blockHash blockNumber)
  checkVerifier_loop env caller nodeID blockHash verifierList

/-- The checks of `Vote` that apply to a proposal whose type tag is `Version` and whose
dynamic type is `VersionProposal`. -/
def Vote_versionChecks (env : Env) (proposal : Proposal) (vote : GovVote) (programVersion : Nat)
    (programVersionSign : Nat) : Gov Unit :=
  if proposal.GetProposalType = .Version then
    match proposal with
    | .version vp =>
      if !env.IsSignedByNodeID programVersion programVersionSign vote.VoteNodeID then
        Gov.fail (.biz "version sign error.")
      else if vote.VoteOption ≠ Yes then
        Gov.fail (.biz "vote option error.")
      else if vp.NewVersion ≠ programVersion then
        Gov.fail (.biz "node have not upgraded to a new version")
      else pure ()
    | _ => pure ()
  else pure ()

/-- The loop of `Vote` that looks for the proposal ID among the voting IDs. -/
def Vote_isVoting (votingIDs : List Hash) (proposalID : Hash) : Bool :=
  votingIDs.foldl (fun isVoting votingID => if votingID = proposalID then true else isVoting)
    false

/-- Method `GovPlugin.Vote`. -/
def Vote (env : Env) (caller : Address) (vote : GovVote) (blockHash : Hash) (blockNumber : Nat)
    (programVersion : Nat) (programVersionSign : Nat) : Gov Unit := do
  if vote.ProposalID = ZeroHash ∨ vote.VoteOption = 0 then
    Gov.fail (.biz "empty parameter detected.")
  else do
    let proposal ← GetProposal env vote.ProposalID
    match proposal with
    | none => Gov.fail (.biz "incorrect proposal ID.")
    | some proposal =>
      checkVerifier env caller vote.VoteNodeID blockHash blockNumber
      if !(decide (vote.VoteOption ≥ Yes) && decide (vote.VoteOption ≤ Abstention)) then
        Gov.fail (.biz "vote option is error.")
      else do
        Vote_versionChecks env proposal vote programVersion programVersionSign
        let votingIDs ← listVotingProposalID env blockHash blockNumber
        if votingIDs.length = 0 then
          -- `return err` with `err == nil`
          pure ()
        else if !Vote_isVoting votingIDs vote.ProposalID then
          Gov.fail (.biz "Proposal is not at voting stage.")
        else do
          let verifierList ← ListVotedVerifier env vote.ProposalID
          if InNodeIDList vote.VoteNodeID verifierList then
            Gov.fail (.biz "node has voted this proposal.")
          else do
            SetVote env vote.ProposalID vote.VoteNodeID vote.VoteOption
            if proposal.GetProposalType = .Version then
              AddActiveNode env vote.ProposalID vote.VoteNodeID
            else pure ()

/-- Run `m`; an error it returns is replaced by `e`. -/
def Gov.replaceErr {α : Type} (m : Gov α) (e : Err) : Gov α := fun s =>
  match m s with
  | (.ok a, s1) => (.ok a, s1)
  | (.error _, s1) => (.error e, s1)

/-- The loop of `checkCandidate` over the candidate list. -/
def checkCandidate_loop (caller : Address) (nodeID : NodeID) : List Candidate → Gov Unit
  | [] => Gov.fail (.biz "tx sender is not candidate.")
  | candidate :: rest =>
    if candidate.NodeId = nodeID then
      if candidate.StakingAddress = caller then pure ()
      else Gov.fail (.biz "tx sender should be node's staking address.")
    else checkCandidate_loop caller nodeID rest

/-- Method `GovPlugin.checkCandidate`. -/
def checkCandidate (env : Env) (caller : Address) (nodeID : NodeID) (blockHash : Hash)
    (blockNumber : Nat) : Gov Unit := do
  let candidateList ← stkRead env .GetCandidateList (env.GetCandidateList blockHash blockNumber)
  checkCandidate_loop caller nodeID candidateList

/-- Method `GovPlugin.DeclareVersion`; `x >> 8` on a `uint32` is `x / 256`. -/
def DeclareVersion (env : Env) (caller : Address) (declaredNodeID : NodeID)
    (declaredVersion : Nat) (programVersionSign : Nat) (blockHash : Hash) (blockNumber : Nat) :
    Gov Unit := do
  if !env.IsSignedByNodeID declaredVersion programVersionSign declaredNodeID then
    Gov.fail (.biz "version sign error.")
  else do
    checkCandidate env caller declaredNodeID blockHash blockNumber
    let activeVersion ← (fun s => (.ok (GetCurrentActiveVersion s), s) : Gov Nat)
    if activeVersion ≤ 0 then Gov.fail (.biz "wrong current active version.")
    else do
      let votingVP ← FindVotingVersionProposal env
      match votingVP with
      | some votingVP =>
        if declaredVersion / 256 = activeVersion / 256 then do
          let nodeList ← ListVotedVerifier env votingVP.ProposalID
          if InNodeIDList declaredNodeID nodeList && decide (declaredVersion ≠ votingVP.NewVersion)
          then
            Gov.fail (.biz "declared version should be same as proposal's version")
          else
            Gov.replaceErr
              (stkNotify env .DeclarePromoteNotify
                (.DeclarePromote blockHash blockNumber declaredNodeID declaredVersion))
              (.biz "notify staking of declared node ID failed")
        else if declaredVersion / 256 = votingVP.NewVersion / 256 then
          AddActiveNode env votingVP.ProposalID declaredNodeID
        else
          Gov.fail (.biz "declared version neither equals active version nor new version.")
      | none => do
        let preActiveVersion ← (fun s => (.ok (GetPreActiveVersion s), s) : Gov Nat)
        if declaredVersion / 256 = activeVersion / 256 ∨
            (preActiveVersion ≠ 0 ∧ declaredVersion = preActiveVersion) then
          Gov.replaceErr
            (stkNotify env .DeclarePromoteNotify
              (.DeclarePromote blockHash blockNumber declaredNodeID declaredVersion))
            (.biz "notify staking of declared node ID failed")
        else
          Gov.fail (.biz
            "there's no version proposal at voting stage, declared version should be active version.")

/-! ## Proposal Registry -/

/-- Method `GovPlugin.Submit`; the proposal's `Verify` is a parameter of the environment. -/
def Submit (env : Env) (caller : Address) (proposal : Proposal) (blockHash : Hash)
    (blockNumber : Nat) : Gov Unit := do
  let verified ← (fun s => (.ok (env.Verify proposal blockNumber blockHash s), s) :
    Gov (Option String))
  match verified with
  | some msg => Gov.fail (.biz msg)
  | none =>
    checkVerifier env caller proposal.GetProposer blockHash proposal.GetSubmitBlock
    SetProposal env proposal
    AddVotingProposalID env proposal.GetProposalID

/-! ## Block driver: EndBlock -/

/-- The settlement loop of `EndBlock`. -/
def EndBlock_settlement (env : Env) (verifierList : List NodeID) : List Hash → Gov Unit
  | [] => pure ()
  | votingProposalID :: rest => do
    AccuVerifiers env votingProposalID verifierList
    EndBlock_settlement env verifierList rest

/-- The tally dispatch of `EndBlock` for one proposal at its end-voting block; a type
assertion on a proposal of another dynamic type panics. -/
def EndBlock_dispatch (env : Env) (votingProposal : Proposal) (blockHash : Hash)
    (blockNumber : Nat) : Gov Unit :=
  if votingProposal.GetProposalType = .Text then do
    let _ ← tallyText env votingProposal.GetProposalID blockHash blockNumber
    pure ()
  else if votingProposal.GetProposalType = .Version then
    match votingProposal with
    | .version vp => tallyVersion env vp blockHash blockNumber
    | _ => Gov.fail (.panic "interface conversion")
  else if votingProposal.GetProposalType = .Cancel then
    match votingProposal with
    | .cancel cp => do
      let _ ← tallyCancel env cp blockHash blockNumber
      pure ()
    | _ => Gov.fail (.panic "interface conversion")
  else Gov.fail (.other "invalid proposal type")

/-- The loop of `EndBlock` over the voting proposal IDs read at its start. -/
def EndBlock_loop (env : Env) (verifierList : List NodeID) (blockHash : Hash)
    (blockNumber : Nat) : List Hash → Gov Unit
  | [] => pure ()
  | votingProposalID :: rest => do
    let votingProposal ← GetExistProposal env votingProposalID
    if votingProposal.GetEndVotingBlock = blockNumber then do
      AccuVerifiers env votingProposalID verifierList
      EndBlock_dispatch env votingProposal blockHash blockNumber
      EndBlock_loop env verifierList blockHash blockNumber rest
    else EndBlock_loop env verifierList blockHash blockNumber rest

/-- Method `GovPlugin.EndBlock`. -/
def EndBlock (env : Env) (blockHash : Hash) (blockNumber : Nat) : Gov Unit := do
  let votingProposalIDs ← ListVotingProposal env
  if votingProposalIDs.length = 0 then pure ()
  else do
    let verifierList ←
      stkRead env .ListVerifierNodeID (env.ListVerifierNodeID blockHash blockNumber)
    if env.IsSettlementPeriod blockNumber then
      EndBlock_settlement env verifierList votingProposalIDs
    else EndBlock_loop env verifierList blockHash blockNumber votingProposalIDs

/-! ## Example inputs -/

/-- An environment in which no call fails: thresholds 0.5 (vote rate) and 0.625 (support
rate), consensus rounds of 250 blocks, validators and verifiers 1 to 4. -/
def exEnv : Env :=
  { fails := fun _ => false
    stkFails := fun _ => false
    ConsensusSize := 250
    IsSettlementPeriod := fun _ => false
    TextProposal_VoteRate := 1 / 2
    TextProposal_SupportRate := 5 / 8
    CancelProposal_VoteRate := 1 / 2
    CancelProposal_SupportRate := 5 / 8
    VersionProposal_SupportRate := 5 / 8
    ListCurrentValidatorID := fun _ _ => [1, 2, 3, 4]
    ListVerifierNodeID := fun _ _ => [1, 2, 3, 4]
    GetVerifierList := fun _ _ => [some ⟨1, 101⟩, some ⟨2, 102⟩, some ⟨3, 103⟩, some ⟨4, 104⟩]
    GetCandidateList := fun _ _ => [⟨1, 101, 0⟩, ⟨2, 102, 0⟩, ⟨3, 103, 0⟩, ⟨4, 104, 0⟩]
    GetCandidateInfo := fun _ a => ⟨a, 100 + a, 0⟩
    NodeId2Addr := fun n => n
    Is_Invalid := fun st => st != 0
    IsSignedByNodeID := fun _ sign nodeID => sign == nodeID
    Verify := fun _ _ _ _ => none }

/-- The state without any proposal. -/
def emptyState : State :=
  { Proposals := [], Votes := [], TallyResults := [], VotingList := [], EndList := [],
    PreActive := ZeroHash, AccuVerifiers := fun _ => [], ActiveNodes := fun _ => [],
    PreActiveVersion := 0, ActiveVersions := [], Notified := [] }

/-- Text proposal 7 in voting: three Yes votes, four accumulated verifiers. -/
def stThreeOfFour : State :=
  { emptyState with
    Proposals := [.text ⟨7, .Text, 1, 10, 100⟩]
    Votes := [⟨7, 1, Yes⟩, ⟨7, 2, Yes⟩, ⟨7, 3, Yes⟩]
    VotingList := [7]
    AccuVerifiers := fun _ => [1, 2, 3, 4] }

/-- The version proposal 18 of `stBoundary`. -/
def vp18 : VersionProposal := ⟨18, .Version, 1, 10, 100, 66048, 250⟩

/-- Text proposal 17, version proposal 18 and cancel proposal 19 in voting, each with five
Yes votes and eight accumulated verifiers: every support rate is exactly 0.625. -/
def stBoundary : State :=
  { emptyState with
    Proposals := [.text ⟨17, .Text, 1, 10, 100⟩, .version vp18, .cancel ⟨19, .Cancel, 1, 10, 100, 18⟩]
    Votes := [⟨17, 1, Yes⟩, ⟨17, 2, Yes⟩, ⟨17, 3, Yes⟩, ⟨17, 4, Yes⟩, ⟨17, 5, Yes⟩,
              ⟨18, 1, Yes⟩, ⟨18, 2, Yes⟩, ⟨18, 3, Yes⟩, ⟨18, 4, Yes⟩, ⟨18, 5, Yes⟩,
              ⟨19, 1, Yes⟩, ⟨19, 2, Yes⟩, ⟨19, 3, Yes⟩, ⟨19, 4, Yes⟩, ⟨19, 5, Yes⟩]
    VotingList := [17, 18, 19]
    AccuVerifiers := fun _ => [1, 2, 3, 4, 5, 6, 7, 8]
    ActiveNodes := fun h => if h = 18 then [1, 2, 3, 4, 5] else [] }

/-- The version proposal 28 of `stTwoOfFour`. -/
def vp28 : VersionProposal := ⟨28, .Version, 1, 10, 100, 66048, 200⟩

/-- Version proposal 28 in voting with two votes and four accumulated verifiers. -/
def stTwoOfFour : State :=
  { emptyState with
    Proposals := [.version vp28]
    Votes := [⟨28, 1, Yes⟩, ⟨28, 2, Yes⟩]
    VotingList := [28]
    AccuVerifiers := fun _ => [1, 2, 3, 4]
    ActiveNodes := fun h => if h = 28 then [1, 2] else [] }

/-- The version proposal 2 of `stCancel`. -/
def vp2 : VersionProposal := ⟨2, .Version, 1, 10, 500, 66048, 750⟩

/-- The cancel proposal 3 of `stCancel`, which is to cancel proposal 2. -/
def cp3 : CancelProposal := ⟨3, .Cancel, 2, 20, 250, 2⟩

/-- Version proposal 2 and cancel proposal 3 in voting, as `Submit` and `Vote` leave them:
node 1 has voted for proposal 2, all four accumulated verifiers have voted Yes on the cancel
proposal, and no tally result is stored yet. -/
def stCancel : State :=
  { emptyState with
    Proposals := [.version vp2, .cancel cp3]
    Votes := [⟨2, 1, Yes⟩, ⟨3, 1, Yes⟩, ⟨3, 2, Yes⟩, ⟨3, 3, Yes⟩, ⟨3, 4, Yes⟩]
    VotingList := [2, 3]
    AccuVerifiers := fun _ => [1, 2, 3, 4]
    ActiveNodes := fun h => if h = 2 then [1] else [] }

/-- A state whose active-version history has records for blocks 700, 300 and 0. -/
def stHistory : State :=
  { emptyState with ActiveVersions := [⟨66304, 700⟩, ⟨66048, 300⟩, ⟨65792, 0⟩] }

/-- The state `BeginBlock` reaches when it activates the pre-active version proposal. -/
def activated (s : State) (vp : VersionProposal) (tr : TallyResult) (bn : Nat) : State :=
  { s with
    TallyResults :=
      { tr with Status := .Active } :: s.TallyResults.filter (fun t => t.ProposalID != tr.ProposalID),
    Proposals :=
      if vp.ActiveBlock ≠ bn then
        Proposal.version { vp with ActiveBlock := bn } ::
          s.Proposals.filter (fun p => p.GetProposalID != vp.ProposalID)
      else s.Proposals,
    PreActive := ZeroHash,
    EndList := s.EndList ++ [s.PreActive],
    ActiveNodes := setAt s.ActiveNodes s.PreActive [],
    ActiveVersions := { ActiveVersion := vp.NewVersion, ActiveBlock := bn } :: s.ActiveVersions }

/-- Version proposal 18 in the PreActive slot, tallied PreActive at block 100, scheduled for
block 250; nodes 1 to 5 are active. -/
def stPreActive : State :=
  { emptyState with
    Proposals := [.version vp18]
    Votes := [⟨18, 1, Yes⟩, ⟨18, 2, Yes⟩, ⟨18, 3, Yes⟩, ⟨18, 4, Yes⟩, ⟨18, 5, Yes⟩]
    TallyResults := [⟨18, 5, 0, 0, 8, .PreActive, ZeroHash⟩]
    PreActive := 18
    PreActiveVersion := 66048
    AccuVerifiers := fun _ => [1, 2, 3, 4, 5, 6, 7, 8]
    ActiveNodes := fun h => if h = 18 then [1, 2, 3, 4, 5] else []
    ActiveVersions := [⟨65792, 0⟩] }

/-- As `stPreActive`, but validator 4 is not yet an active node. -/
def stPreActiveLate : State :=
  { stPreActive with ActiveNodes := fun h => if h = 18 then [1, 2, 3] else [] }

/-- Text proposal 7 after its tally: stored, in the EndList, and the VotingList is empty. -/
def stEnded : State :=
  { emptyState with
    Proposals := [.text ⟨7, .Text, 1, 10, 100⟩]
    Votes := [⟨7, 2, Yes⟩]
    TallyResults := [⟨7, 1, 0, 0, 4, .Failed, ZeroHash⟩]
    EndList := [7]
    AccuVerifiers := fun _ => [1, 2, 3, 4] }

/-- As `stEnded`, with another proposal ID in the VotingList. -/
def stEndedOther : State :=
  { stEnded with VotingList := [8] }

/-- The nodes that have a stored vote for the proposal (VotedVerifiers). -/
def votedVerifiers (s : State) (proposalID : Hash) : List NodeID :=
  (s.Votes.filter (fun v => v.ProposalID == proposalID)).map (fun v => v.VoteNodeID)

/-- The state after `SetVote` of a vote. -/
def withVote (s : State) (vote : GovVote) : State :=
  { s with Votes :=
      s.Votes.filter (fun v => !(v.ProposalID == vote.ProposalID && v.VoteNodeID == vote.VoteNodeID))
        ++ [{ ProposalID := vote.ProposalID, VoteNodeID := vote.VoteNodeID,
              VoteOption := vote.VoteOption }] }

/-- The state after `AddActiveNode`. -/
def withActiveNode (s : State) (proposalID : Hash) (nodeID : NodeID) : State :=
  if InNodeIDList nodeID (s.ActiveNodes proposalID) then s
  else { s with ActiveNodes :=
           setAt s.ActiveNodes proposalID (s.ActiveNodes proposalID ++ [nodeID]) }

/-- Text proposal 17 and version proposal 18 in voting; node 1 has voted on both. -/
def stVoting : State :=
  { emptyState with
    Proposals := [.text ⟨17, .Text, 1, 10, 100⟩, .version vp18]
    Votes := [⟨17, 1, No⟩, ⟨18, 1, Yes⟩]
    VotingList := [17, 18]
    AccuVerifiers := fun _ => [1, 2, 3, 4]
    ActiveNodes := fun h => if h = 18 then [1] else []
    ActiveVersions := [⟨65792, 0⟩] }

/-- The decision of `DeclareVersion` once the signature, the candidate check and the active
version check have passed and the voting version proposal was looked up. -/
def DeclareVersion_decide (env : Env) (declaredNodeID : NodeID) (declaredVersion : Nat)
    (blockHash : Hash) (blockNumber : Nat) (activeVersion : Nat)
    (votingVP : Option VersionProposal) : Gov Unit :=
  match votingVP with
  | some votingVP =>
    if declaredVersion / 256 = activeVersion / 256 then do
      let nodeList ← ListVotedVerifier env votingVP.ProposalID
      if InNodeIDList declaredNodeID nodeList && decide (declaredVersion ≠ votingVP.NewVersion)
      then
        Gov.fail (.biz "declared version should be same as proposal's version")
      else
        Gov.replaceErr
          (stkNotify env .DeclarePromoteNotify
            (.DeclarePromote blockHash blockNumber declaredNodeID declaredVersion))
          (.biz "notify staking of declared node ID failed")
    else if declaredVersion / 256 = votingVP.NewVersion / 256 then
      AddActiveNode env votingVP.ProposalID declaredNodeID
    else
      Gov.fail (.biz "declared version neither equals active version nor new version.")
  | none => do
    let preActiveVersion ← (fun s => (.ok (GetPreActiveVersion s), s) : Gov Nat)
    if declaredVersion / 256 = activeVersion / 256 ∨
        (preActiveVersion ≠ 0 ∧ declaredVersion = preActiveVersion) then
      Gov.replaceErr
        (stkNotify env .DeclarePromoteNotify
          (.DeclarePromote blockHash blockNumber declaredNodeID declaredVersion))
        (.biz "notify staking of declared node ID failed")
    else
      Gov.fail (.biz
        "there's no version proposal at voting stage, declared version should be active version.")

/-- The version proposal 38 of `stPatch`: a patch upgrade of the active version 0x010100. -/
def vp38 : VersionProposal := ⟨38, .Version, 1, 10, 100, 65793, 250⟩

/-- Version proposal 38 (new version 0x010101) in voting while version 0x010100 is active. -/
def stPatch : State :=
  { emptyState with
    Proposals := [.version vp38]
    VotingList := [38]
    AccuVerifiers := fun _ => [1, 2, 3, 4]
    ActiveVersions := [⟨65792, 0⟩] }

/-- As `exEnv`, but the staking collaborator rejects `DeclarePromoteNotify`. -/
def exEnvNotifyFails : Env :=
  { exEnv with stkFails := fun op => decide (op = .DeclarePromoteNotify) }

/-- The accumulated verifiers after the settlement loop of `EndBlock` over the given IDs. -/
def settledAccu (verifierList : List NodeID) (f : Hash → List NodeID) :
    List Hash → (Hash → List NodeID)
  | [] => f
  | id :: rest => settledAccu verifierList (setAt f id (mergeNodes (f id) verifierList)) rest

/-- As `exEnv`, but every block is the last block of a settlement epoch. -/
def exEnvSettlement : Env :=
  { exEnv with IsSettlementPeriod := fun _ => true }

/-- As `stVoting`, with accumulated verifiers 1, 2 and 9 for every proposal. -/
def stVotingAccu : State :=
  { stVoting with AccuVerifiers := fun _ => [1, 2, 9] }

/-- The cancel proposal 19 of `stBoundary`. -/
def cp19 : CancelProposal := ⟨19, .Cancel, 1, 10, 100, 18⟩

/-- As `exEnv`, but the gateway write `SetProposal` fails. -/
def exEnvSetProposalFails : Env :=
  { exEnv with fails := fun op => decide (op = .SetProposal) }

/-- The operation `m` leaves the component `g` of the state as it was, whatever it returns. -/
def Gov.Keeps {α β : Type} (g : State → β) (m : Gov α) : Prop :=
  ∀ s, g (m s).2 = g s

/-- The active-version history of a state. -/
def history (s : State) : List ActiveVersionValue := s.ActiveVersions

/-- After `m`, the history is the one before or the one before with one record for block `bn`
in front. -/
def Gov.AddsAtMostOne {α : Type} (bn : Nat) (m : Gov α) : Prop :=
  ∀ s, history (m s).2 = history s ∨
    ∃ v, history (m s).2 = { ActiveVersion := v, ActiveBlock := bn } :: history s

/-- The history is strictly decreasing in `ActiveBlock` (newest first). -/
def strictlyDecreasing (l : List ActiveVersionValue) : Prop :=
  l.Pairwise (fun a b => a.ActiveBlock > b.ActiveBlock)

/-- The verifier check of `Submit` and `Vote` in the words of the specification: the verifier
list can be read and has an entry for the node whose staking address is the caller and whose
candidate status can be read and is valid. -/
def verifierOwnedBy (env : Env) (caller : Address) (nodeID : NodeID) (blockHash : Hash)
    (blockNumber : Nat) : Prop :=
  env.stkFails .GetVerifierList = false ∧
  ∃ v, some v ∈ env.GetVerifierList blockHash blockNumber ∧ v.NodeId = nodeID ∧
    v.StakingAddress = caller ∧ env.stkFails .GetCandidateInfo = false ∧
    env.Is_Invalid (env.GetCandidateInfo blockHash (env.NodeId2Addr v.NodeId)).Status = false

/-- The entries of the verifier list for one node all have the same staking address. -/
def oneStakingAddress (l : List (Option Verifier)) (nodeID : NodeID) : Prop :=
  ∀ v w, some v ∈ l → some w ∈ l → v.NodeId = nodeID → w.NodeId = nodeID →
    v.StakingAddress = w.StakingAddress

/-- As `exEnv`, but `Verify` rejects every proposal. -/
def exEnvVerifyFails : Env :=
  { exEnv with Verify := fun _ _ _ _ => some "proposal is invalid" }

/-- The component `g` of the state does not depend on what the tallies write: the tally
results, the VotingList, the EndList, the PreActive slot, the pre-active version, the ActiveNodes
sets and the calls received by staking. -/
def IgnoresTallyWrites {β : Type} (g : State → β) : Prop :=
  ∀ (s : State) tr vl el pre pav an nt,
    g { s with TallyResults := tr, VotingList := vl, EndList := el, PreActive := pre,
               PreActiveVersion := pav, ActiveNodes := an, Notified := nt } = g s

/-- The state after the gateway has merged `verifierList` into the accumulated verifiers of
proposal `id`. -/
def accumulated (s : State) (id : Hash) (verifierList : List NodeID) : State :=
  { s with AccuVerifiers :=
      setAt s.AccuVerifiers id (mergeNodes (s.AccuVerifiers id) verifierList) }

/-- The operation never ends in a run-time panic, whatever the state. -/
def Gov.NeverPanics {α : Type} (m : Gov α) : Prop := ∀ s msg, (m s).1 ≠ .error (.panic msg)

/-- The part of the state read by the invariant on the ID lists: the stored proposals, the
VotingList, the PreActive slot and the EndList. -/
structure IdLists where
  Proposals : List Proposal
  VotingList : List Hash
  PreActive : Hash
  EndList : List Hash

/-- The ID lists of a state. -/
def idLists (s : State) : IdLists :=
  { Proposals := s.Proposals, VotingList := s.VotingList, PreActive := s.PreActive,
    EndList := s.EndList }

/-- The ID fills the PreActive slot; the zero hash is the empty slot. -/
def IdLists.inPreActive (l : IdLists) (id : Hash) : Prop := id ≠ ZeroHash ∧ l.PreActive = id

/-- The ID is in exactly one of the VotingList, the PreActive slot and the EndList. -/
def IdLists.inExactlyOne (l : IdLists) (id : Hash) : Prop :=
  (id ∈ l.VotingList ∧ ¬ l.inPreActive id ∧ id ∉ l.EndList) ∨
  (id ∉ l.VotingList ∧ l.inPreActive id ∧ id ∉ l.EndList) ∨
  (id ∉ l.VotingList ∧ ¬ l.inPreActive id ∧ id ∈ l.EndList)

/-- Every stored proposal ID is in exactly one of the three lists. -/
def IdLists.partitioned (l : IdLists) : Prop :=
  ∀ p ∈ l.Proposals, l.inExactlyOne p.GetProposalID

/-- The predicate 'every submitted proposal ID is in exactly one of VotingList, the PreActive
slot, or EndList' on a state; the submitted proposals are the stored ones. -/
def listsPartition (s : State) : Prop := (idLists s).partitioned

instance (l : IdLists) (id : Hash) : Decidable (l.inPreActive id) := by
  unfold IdLists.inPreActive
  infer_instance

instance (l : IdLists) (id : Hash) : Decidable (l.inExactlyOne id) := by
  unfold IdLists.inExactlyOne
  infer_instance

instance (l : IdLists) : Decidable l.partitioned := by
  unfold IdLists.partitioned
  infer_instance

instance (s : State) : Decidable (listsPartition s) := by
  unfold listsPartition
  infer_instance

/-- The lists after `MoveVotingProposalIDToEnd`. -/
def IdLists.toEnd (l : IdLists) (id : Hash) : IdLists :=
  { l with VotingList := l.VotingList.filter (fun h => h != id), EndList := l.EndList ++ [id] }

/-- The lists after `MoveVotingProposalIDToPreActive`. -/
def IdLists.toPreActive (l : IdLists) (id : Hash) : IdLists :=
  { l with VotingList := l.VotingList.filter (fun h => h != id), PreActive := id }

/-- From lists satisfying `A` the operation reaches lists satisfying `B`, whether it returns an
error or not. -/
def Gov.Moves {α : Type} (A B : IdLists → Prop) (m : Gov α) : Prop :=
  ∀ s, A (idLists s) → B (idLists (m s).2)

/-- As `exEnv`, but the version support-rate threshold is the `float64` value of the decimal
`0.1`, which is 3602879701896397 / 2^55. -/
def exEnvTenth : Env :=
  { exEnv with VersionProposal_SupportRate := 3602879701896397 / 36028797018963968 }

/-- The version proposal 48 of `stOneOfTen`. -/
def vp48 : VersionProposal := ⟨48, .Version, 1, 10, 100, 66048, 250⟩

/-- Version proposal 48 in voting with one vote and ten accumulated verifiers. -/
def stOneOfTen : State :=
  { emptyState with
    Proposals := [.version vp48]
    Votes := [⟨48, 1, Yes⟩]
    VotingList := [48]
    AccuVerifiers := fun _ => [1, 2, 3, 4, 5, 6, 7, 8, 9, 10]
    ActiveNodes := fun h => if h = 48 then [1] else [] }

/-- A state without an active version (A = 0) whose pre-active version is 0x010200. -/
def stNoActive : State := { emptyState with PreActiveVersion := 66048 }

/-- As `exEnv`, but the gateway write `AddVotingProposalID` fails. -/
def exEnvAddVotingFails : Env :=
  { exEnv with fails := fun op => decide (op = .AddVotingProposalID) }

/-- The version proposals 18 and 28 are submitted at block 10 by the owner of node 1, and each
of the verifiers 1 to 4 votes Yes on both at block 20. -/
def submitAndVoteTwice : Gov Unit := do
  Submit exEnv 101 (.version vp18) 0 10
  Submit exEnv 101 (.version vp28) 0 10
  Vote exEnv 101 ⟨18, 1, Yes⟩ 0 20 66048 1
  Vote exEnv 102 ⟨18, 2, Yes⟩ 0 20 66048 2
  Vote exEnv 103 ⟨18, 3, Yes⟩ 0 20 66048 3
  Vote exEnv 104 ⟨18, 4, Yes⟩ 0 20 66048 4
  Vote exEnv 101 ⟨28, 1, Yes⟩ 0 20 66048 1
  Vote exEnv 102 ⟨28, 2, Yes⟩ 0 20 66048 2
  Vote exEnv 103 ⟨28, 3, Yes⟩ 0 20 66048 3
  Vote exEnv 104 ⟨28, 4, Yes⟩ 0 20 66048 4

/-- The state `submitAndVoteTwice` reaches from the empty state. -/
def stTwoVersions : State := (submitAndVoteTwice emptyState).2

/-! ## Running the state transformers -/

theorem bind_run {α β : Type} (m : Gov α) (f : α → Gov β) (s : State) :
    (m >>= f) s = match m s with
      | (.ok a, s1) => f a s1
      | (.error e, s1) => (.error e, s1) := rfl

theorem pure_run {α : Type} (a : α) (s : State) : (pure a : Gov α) s = (.ok a, s) := rfl

theorem gwRead_run {α : Type} (env : Env) (op : GovOp) (f : State → α) (s : State)
    (h : env.fails op = false) : gwRead env op f s = (.ok (f s), s) := by
  simp [gwRead, h]

theorem gwWrite_run (env : Env) (op : GovOp) (f : State → State) (s : State)
    (h : env.fails op = false) : gwWrite env op f s = (.ok (), f s) := by
  simp [gwWrite, h]

theorem exEnv_fails (op : GovOp) : exEnv.fails op = false := rfl

/-! ## float64 facts -/

theorem log_two_eq (q : ℚ) (e : ℤ) (hq : 0 < q) (h1 : (2 : ℚ) ^ e ≤ q)
    (h2 : q < (2 : ℚ) ^ (e + 1)) : Int.log 2 q = e := by
  have hb : (1 : ℕ) < 2 := by norm_num
  have hle : e ≤ Int.log 2 q := (Int.zpow_le_iff_le_log hb hq).1 (by exact_mod_cast h1)
  have hlt : Int.log 2 q < e + 1 := (Int.lt_zpow_iff_log_lt hb hq).1 (by exact_mod_cast h2)
  omega

theorem f64Round_half : f64Round (1 / 2) = 1 / 2 := by
  have h : Int.log 2 ((1 : ℚ) / 2) = -1 := log_two_eq _ _ (by norm_num) (by norm_num) (by norm_num)
  simp only [f64Round, h, roundHalfEven]
  norm_num

theorem f64Round_five_eighths : f64Round (5 / 8) = 5 / 8 := by
  have h : Int.log 2 ((5 : ℚ) / 8) = -1 := log_two_eq _ _ (by norm_num) (by norm_num) (by norm_num)
  simp only [f64Round, h, roundHalfEven]
  norm_num

theorem roundHalfEven_ge_floor (m : ℚ) : ⌊m⌋ ≤ roundHalfEven m := by
  unfold roundHalfEven
  split_ifs <;> omega

theorem roundHalfEven_le_floor_succ (m : ℚ) : roundHalfEven m ≤ ⌊m⌋ + 1 := by
  unfold roundHalfEven
  split_ifs <;> omega

theorem roundHalfEven_mono (m1 m2 : ℚ) (h : m1 ≤ m2) : roundHalfEven m1 ≤ roundHalfEven m2 := by
  have hfl : ⌊m1⌋ ≤ ⌊m2⌋ := Int.floor_mono h
  rcases lt_or_eq_of_le hfl with hlt | heq
  · calc roundHalfEven m1 ≤ ⌊m1⌋ + 1 := roundHalfEven_le_floor_succ m1
      _ ≤ ⌊m2⌋ := hlt
      _ ≤ roundHalfEven m2 := roundHalfEven_ge_floor m2
  · have hfr : m1 - ⌊m1⌋ ≤ m2 - ⌊m2⌋ := by rw [heq]; linarith
    unfold roundHalfEven
    rw [heq] at hfr ⊢
    split_ifs <;> first | omega | (exfalso; linarith)

theorem roundHalfEven_intCast (z : ℤ) : roundHalfEven (z : ℚ) = z := by
  simp [roundHalfEven]

theorem f64Round_pos_bounds (q : ℚ) (hq : 0 < q) :
    (2 : ℚ) ^ Int.log 2 q ≤ f64Round q ∧ f64Round q ≤ (2 : ℚ) ^ (Int.log 2 q + 1) := by
  have hb : (1 : ℕ) < 2 := by norm_num
  have h1 : (2 : ℚ) ^ Int.log 2 q ≤ q := by
    have := Int.zpow_log_le_self (R := ℚ) hb hq
    exact_mod_cast this
  have h2 : q < (2 : ℚ) ^ (Int.log 2 q + 1) := by
    have := Int.lt_zpow_succ_log_self (R := ℚ) hb q
    exact_mod_cast this
  have hpos : (0 : ℚ) < (2 : ℚ) ^ (52 - Int.log 2 q) := by positivity
  have hpos2 : (0 : ℚ) < (2 : ℚ) ^ (Int.log 2 q - 52) := by positivity
  have hm1 : (((2 : ℤ) ^ 52 : ℤ) : ℚ) ≤ q * (2 : ℚ) ^ (52 - Int.log 2 q) := by
    have : (2 : ℚ) ^ Int.log 2 q * (2 : ℚ) ^ (52 - Int.log 2 q) = (2 : ℚ) ^ (52 : ℤ) := by
      rw [← zpow_add₀ (by norm_num : (2 : ℚ) ≠ 0)]; congr 1; ring
    have h := mul_le_mul_of_nonneg_right h1 hpos.le
    rw [this] at h
    have e : ((((2 : ℤ) ^ 52 : ℤ)) : ℚ) = (2 : ℚ) ^ (52 : ℤ) := by norm_num
    rw [e]; exact h
  have hm2 : q * (2 : ℚ) ^ (52 - Int.log 2 q) ≤ (((2 : ℤ) ^ 53 : ℤ) : ℚ) := by
    have : (2 : ℚ) ^ (Int.log 2 q + 1) * (2 : ℚ) ^ (52 - Int.log 2 q) = (2 : ℚ) ^ (53 : ℤ) := by
      rw [← zpow_add₀ (by norm_num : (2 : ℚ) ≠ 0)]; congr 1; ring
    have h := mul_le_mul_of_nonneg_right h2.le hpos.le
    rw [this] at h
    have e : ((((2 : ℤ) ^ 53 : ℤ)) : ℚ) = (2 : ℚ) ^ (53 : ℤ) := by norm_num
    rw [e]; exact h
  have hr1 : ((2 : ℤ) ^ 52 : ℤ) ≤ roundHalfEven (q * (2 : ℚ) ^ (52 - Int.log 2 q)) := by
    have := roundHalfEven_mono _ _ hm1
    rwa [roundHalfEven_intCast] at this
  have hr2 : roundHalfEven (q * (2 : ℚ) ^ (52 - Int.log 2 q)) ≤ ((2 : ℤ) ^ 53 : ℤ) := by
    have := roundHalfEven_mono _ _ hm2
    rwa [roundHalfEven_intCast] at this
  have hf : f64Round q =
      (roundHalfEven (q * (2 : ℚ) ^ (52 - Int.log 2 q)) : ℚ) * (2 : ℚ) ^ (Int.log 2 q - 52) := by
    simp [f64Round, hq.ne']
  rw [hf]
  constructor
  · have : (2 : ℚ) ^ Int.log 2 q = (((2 : ℤ) ^ 52 : ℤ) : ℚ) * (2 : ℚ) ^ (Int.log 2 q - 52) := by
      have e : ((((2 : ℤ) ^ 52 : ℤ)) : ℚ) = (2 : ℚ) ^ (52 : ℤ) := by norm_num
      rw [e, ← zpow_add₀ (by norm_num : (2 : ℚ) ≠ 0)]; congr 1; ring
    rw [this]
    exact mul_le_mul_of_nonneg_right (by exact_mod_cast hr1) hpos2.le
  · have : (2 : ℚ) ^ (Int.log 2 q + 1) =
        (((2 : ℤ) ^ 53 : ℤ) : ℚ) * (2 : ℚ) ^ (Int.log 2 q - 52) := by
      have e : ((((2 : ℤ) ^ 53 : ℤ)) : ℚ) = (2 : ℚ) ^ (53 : ℤ) := by norm_num
      rw [e, ← zpow_add₀ (by norm_num : (2 : ℚ) ≠ 0)]; congr 1; ring
    rw [this]
    exact mul_le_mul_of_nonneg_right (by exact_mod_cast hr2) hpos2.le

theorem f64Round_mono (q1 q2 : ℚ) (h0 : 0 ≤ q1) (h : q1 ≤ q2) : f64Round q1 ≤ f64Round q2 := by
  rcases eq_or_lt_of_le h0 with hz | hpos1
  · subst hz
    rcases eq_or_lt_of_le h with hz2 | hpos2
    · subst hz2; exact le_refl _
    · have := (f64Round_pos_bounds q2 hpos2).1
      have hp : (0 : ℚ) < (2 : ℚ) ^ Int.log 2 q2 := by positivity
      have h0 : f64Round 0 = 0 := by simp [f64Round]
      rw [h0]; linarith
  · have hpos2 : 0 < q2 := lt_of_lt_of_le hpos1 h
    have hlog : Int.log 2 q1 ≤ Int.log 2 q2 := Int.log_mono_right hpos1 h
    rcases lt_or_eq_of_le hlog with hlt | heq
    · calc f64Round q1 ≤ (2 : ℚ) ^ (Int.log 2 q1 + 1) := (f64Round_pos_bounds q1 hpos1).2
        _ ≤ (2 : ℚ) ^ Int.log 2 q2 := zpow_le_zpow_right₀ (by norm_num) (by omega)
        _ ≤ f64Round q2 := (f64Round_pos_bounds q2 hpos2).1
    · have hf1 : f64Round q1 =
          (roundHalfEven (q1 * (2 : ℚ) ^ (52 - Int.log 2 q1)) : ℚ) *
            (2 : ℚ) ^ (Int.log 2 q1 - 52) := by
        simp [f64Round, hpos1.ne']
      have hf2 : f64Round q2 =
          (roundHalfEven (q2 * (2 : ℚ) ^ (52 - Int.log 2 q2)) : ℚ) *
            (2 : ℚ) ^ (Int.log 2 q2 - 52) := by
        simp [f64Round, hpos2.ne']
      rw [hf1, hf2, heq]
      have hp : (0 : ℚ) < (2 : ℚ) ^ (52 - Int.log 2 q2) := by positivity
      have hp2 : (0 : ℚ) < (2 : ℚ) ^ (Int.log 2 q2 - 52) := by positivity
      have hm := roundHalfEven_mono _ _ (mul_le_mul_of_nonneg_right h hp.le)
      exact mul_le_mul_of_nonneg_right (by exact_mod_cast hm) hp2.le

theorem f64Round_nonneg (q : ℚ) (h0 : 0 ≤ q) : 0 ≤ f64Round q := by
  rcases eq_or_lt_of_le h0 with hz | hpos
  · subst hz; simp [f64Round]
  · have := (f64Round_pos_bounds q hpos).1
    have hp : (0 : ℚ) < (2 : ℚ) ^ Int.log 2 q := by positivity
    linarith

theorem le_f64Round_of_le (t q : ℚ) (ht : f64Round t = t) (hq : 0 ≤ q) (h : t ≤ q) :
    t ≤ f64Round q := by
  rcases lt_or_le t 0 with hneg | hnn
  · exact le_trans hneg.le (f64Round_nonneg q hq)
  · rw [← ht]; exact f64Round_mono t q hnn h


/-! ## The tallies, step by step -/

theorem tally_run (env : Env) (ty : ProposalType) (id bh : Hash) (bn : Nat) (s : State)
    (hf : ∀ op, env.fails op = false) (hN : accuCount s id ≠ 0) :
    tally env ty id bh bn s =
      (.ok (tallyStatus env ty (tallyVoteRate (countVotes (votesOf s id)) (accuCount s id))
              (tallySupportRate (countVotes (votesOf s id)) (accuCount s id)) == .Pass),
       { s with
          VotingList := s.VotingList.filter (fun h => h != id),
          EndList := s.EndList ++ [id],
          TallyResults :=
            { ProposalID := id, Yeas := (countVotes (votesOf s id)).yeas,
              Nays := (countVotes (votesOf s id)).nays,
              Abstentions := (countVotes (votesOf s id)).abstentions,
              AccuVerifiers := accuCount s id,
              Status := tallyStatus env ty
                (tallyVoteRate (countVotes (votesOf s id)) (accuCount s id))
                (tallySupportRate (countVotes (votesOf s id)) (accuCount s id)),
              CanceledBy := ZeroHash } ::
            s.TallyResults.filter (fun t => t.ProposalID != id) }) := by
  simp [tally, bind_run, pure_run, AccuVerifiersLength, ListVoteValue, MoveVotingProposalIDToEnd,
    SetTallyResult, gwRead_run, gwWrite_run, hf, hN]

theorem tallyVersion_run_pass (env : Env) (p : VersionProposal) (bh : Hash) (bn : Nat) (s : State)
    (hf : ∀ op, env.fails op = false) (hs : env.stkFails .ProposalPassedNotify = false)
    (h : supportRateReached ((votesOf s p.ProposalID).length % 65536)
          (accuCount s p.ProposalID) env.VersionProposal_SupportRate = true) :
    tallyVersion env p bh bn s =
      (.ok (),
       { s with
          VotingList := s.VotingList.filter (fun h => h != p.ProposalID),
          PreActive := p.ProposalID,
          PreActiveVersion := p.NewVersion,
          Notified := s.Notified ++
            [.ProposalPassed bh bn (s.ActiveNodes p.ProposalID) p.NewVersion],
          TallyResults :=
            { ProposalID := p.ProposalID, Yeas := (votesOf s p.ProposalID).length % 65536,
              Nays := 0, Abstentions := 0, AccuVerifiers := accuCount s p.ProposalID,
              Status := .PreActive, CanceledBy := ZeroHash } ::
            s.TallyResults.filter (fun t => t.ProposalID != p.ProposalID) }) := by
  simp [tallyVersion, bind_run, pure_run, AccuVerifiersLength, ListVoteValue,
    MoveVotingProposalIDToPreActive, SetPreActiveVersion, GetActiveNodeList, stkNotify,
    SetTallyResult, gwRead_run, gwWrite_run, hf, hs, h]

theorem tallyVersion_run_fail (env : Env) (p : VersionProposal) (bh : Hash) (bn : Nat) (s : State)
    (hf : ∀ op, env.fails op = false)
    (h : supportRateReached ((votesOf s p.ProposalID).length % 65536)
          (accuCount s p.ProposalID) env.VersionProposal_SupportRate = false) :
    tallyVersion env p bh bn s =
      (.ok (),
       { s with
          VotingList := s.VotingList.filter (fun h => h != p.ProposalID),
          EndList := s.EndList ++ [p.ProposalID],
          TallyResults :=
            { ProposalID := p.ProposalID, Yeas := (votesOf s p.ProposalID).length % 65536,
              Nays := 0, Abstentions := 0, AccuVerifiers := accuCount s p.ProposalID,
              Status := .Failed, CanceledBy := ZeroHash } ::
            s.TallyResults.filter (fun t => t.ProposalID != p.ProposalID) }) := by
  simp [tallyVersion, bind_run, pure_run, AccuVerifiersLength, ListVoteValue,
    MoveVotingProposalIDToEnd, SetTallyResult, gwRead_run, gwWrite_run, hf, h]

theorem supportRateReached_iff (yeas verifiersCnt : Nat) (t : ℚ) (hN : 1 ≤ verifiersCnt) :
    supportRateReached yeas verifiersCnt t = true ↔
      t ≤ f64Round ((yeas : ℚ) / (verifiersCnt : ℚ)) := by
  have h0 : verifiersCnt ≠ 0 := by omega
  simp [supportRateReached, h0]

theorem mem_filter_ne (l : List Hash) (id : Hash) : id ∉ l.filter (fun h => h != id) := by
  simp [List.mem_filter]

/-! ## Claims about the tallies -/

/-- C1 (the code departs from the claim): text proposal 7 has three Yes votes and four
accumulated verifiers, so the exact vote rate 3/4 and support rate 3/4 exceed the thresholds
0.5 and 0.625 and the claim gives Pass; `tally` computes the integer quotient `3 / 4 = 0` as
support rate, returns `false` and stores Status = Failed. -/
theorem C1_tally_fails_three_of_four :
    accuCount stThreeOfFour 7 = 4 ∧
    countVotes (votesOf stThreeOfFour 7) = { yeas := 3, nays := 0, abstentions := 0 } ∧
    (((3 + 0 + 0 : ℕ) : ℚ) / (4 : ℕ) > exEnv.TextProposal_VoteRate ∧
      ((3 : ℕ) : ℚ) / (4 : ℕ) > exEnv.TextProposal_SupportRate) ∧
    (tally exEnv .Text 7 0 100 stThreeOfFour).1 = .ok false ∧
    findTallyResult 7 (tally exEnv .Text 7 0 100 stThreeOfFour).2 =
      some { ProposalID := 7, Yeas := 3, Nays := 0, Abstentions := 0, AccuVerifiers := 4,
             Status := .Failed, CanceledBy := ZeroHash } := by
  have hN : accuCount stThreeOfFour 7 = 4 := by decide
  have hc : countVotes (votesOf stThreeOfFour 7) = { yeas := 3, nays := 0, abstentions := 0 } := by
    decide
  have hst : tallyStatus exEnv .Text (tallyVoteRate ⟨3, 0, 0⟩ 4) (tallySupportRate ⟨3, 0, 0⟩ 4)
      = .Failed := by
    norm_num [tallyStatus, tallyVoteRate, tallySupportRate, exEnv]
  refine ⟨hN, hc, by norm_num [exEnv], ?_, ?_⟩
  · rw [tally_run exEnv .Text 7 0 100 stThreeOfFour exEnv_fails (by rw [hN]; decide), hc, hN, hst]
    rfl
  · rw [tally_run exEnv .Text 7 0 100 stThreeOfFour exEnv_fails (by rw [hN]; decide), hc, hN, hst]
    rfl

theorem findTallyResult_head (s : State) (t : TallyResult) (rest : List TallyResult) :
    findTallyResult t.ProposalID { s with TallyResults := t :: rest } = some t := by
  simp [findTallyResult]

/-- C2 as amended: with the gateway and the staking notification not failing and an accumulated
verifier count N >= 1, `tallyVersion` returns no error and persists the tally result
(p.ID, c, 0, 0, N, Status) for the `uint16` vote count c, where Status is PreActive exactly
when the threshold is `<=` the float64 quotient `float64(c) / float64(N)`, and Failed
exactly when it is not. For a float64 threshold, c/N >= threshold as exact rationals gives
PreActive; when the quotient c/N is itself a float64 value, Status is PreActive exactly
when c/N >= threshold as exact rationals. -/
theorem C2_tallyVersion_status_and_result (env : Env) (p : VersionProposal) (bh : Hash)
    (bn : Nat) (s : State) (hf : ∀ op, env.fails op = false)
    (hs : env.stkFails .ProposalPassedNotify = false) (hN : 1 ≤ accuCount s p.ProposalID) :
    (tallyVersion env p bh bn s).1 = .ok () ∧
    ∃ status : Status,
      findTallyResult p.ProposalID (tallyVersion env p bh bn s).2 =
        some { ProposalID := p.ProposalID, Yeas := (votesOf s p.ProposalID).length % 65536,
               Nays := 0, Abstentions := 0, AccuVerifiers := accuCount s p.ProposalID,
               Status := status, CanceledBy := ZeroHash } ∧
      (status = .PreActive ↔
        env.VersionProposal_SupportRate ≤
          f64Round ((((votesOf s p.ProposalID).length % 65536 : ℕ) : ℚ) /
            ((accuCount s p.ProposalID : ℕ) : ℚ))) ∧
      (status = .Failed ↔
        ¬ env.VersionProposal_SupportRate ≤
          f64Round ((((votesOf s p.ProposalID).length % 65536 : ℕ) : ℚ) /
            ((accuCount s p.ProposalID : ℕ) : ℚ))) ∧
      (f64Round env.VersionProposal_SupportRate = env.VersionProposal_SupportRate →
        env.VersionProposal_SupportRate ≤
          (((votesOf s p.ProposalID).length % 65536 : ℕ) : ℚ) /
            ((accuCount s p.ProposalID : ℕ) : ℚ) →
        status = .PreActive) ∧
      (f64Round ((((votesOf s p.ProposalID).length % 65536 : ℕ) : ℚ) /
            ((accuCount s p.ProposalID : ℕ) : ℚ)) =
          (((votesOf s p.ProposalID).length % 65536 : ℕ) : ℚ) /
            ((accuCount s p.ProposalID : ℕ) : ℚ) →
        (status = .PreActive ↔
          env.VersionProposal_SupportRate ≤
            (((votesOf s p.ProposalID).length % 65536 : ℕ) : ℚ) /
              ((accuCount s p.ProposalID : ℕ) : ℚ))) := by
  have hq0 : (0 : ℚ) ≤ (((votesOf s p.ProposalID).length % 65536 : ℕ) : ℚ) /
      ((accuCount s p.ProposalID : ℕ) : ℚ) := by positivity
  cases h : supportRateReached ((votesOf s p.ProposalID).length % 65536)
      (accuCount s p.ProposalID) env.VersionProposal_SupportRate with
  | true =>
    have hr := (supportRateReached_iff _ _ _ hN).1 h
    rw [tallyVersion_run_pass env p bh bn s hf hs h]
    refine ⟨rfl, .PreActive, ?_, ?_, ?_, ?_, ?_⟩
    · simp [findTallyResult]
    · simp [hr]
    · simp [hr]
    · intro _ _; rfl
    · intro hex
      rw [hex] at hr
      simp [hr]
  | false =>
    have hr : ¬ env.VersionProposal_SupportRate ≤
          f64Round ((((votesOf s p.ProposalID).length % 65536 : ℕ) : ℚ) /
            ((accuCount s p.ProposalID : ℕ) : ℚ)) := by
      intro hle
      have := (supportRateReached_iff _ _ _ hN).2 hle
      rw [h] at this
      exact Bool.false_ne_true this
    rw [tallyVersion_run_fail env p bh bn s hf h]
    refine ⟨rfl, .Failed, ?_, ?_, ?_, ?_, ?_⟩
    · simp [findTallyResult]
    · simp [hr]
    · simp [hr]
    · intro ht hle
      exact absurd (le_f64Round_of_le _ _ ht hq0 hle) hr
    · intro hex
      rw [hex] at hr
      simp [hr]

theorem C2_tallyVersion_status_and_result_witness :
    1 ≤ accuCount stTwoOfFour vp28.ProposalID ∧
    (tallyVersion exEnv vp28 0 100 stTwoOfFour).1 = .ok () ∧
    findTallyResult 28 (tallyVersion exEnv vp28 0 100 stTwoOfFour).2 =
      some { ProposalID := 28, Yeas := 2, Nays := 0, Abstentions := 0, AccuVerifiers := 4,
             Status := .Failed, CanceledBy := ZeroHash } := by
  obtain ⟨hok, status, hres, _, hfail, _, _⟩ :=
    C2_tallyVersion_status_and_result exEnv vp28 0 100 stTwoOfFour exEnv_fails rfl (by decide)
  have hc : (votesOf stTwoOfFour vp28.ProposalID).length % 65536 = 2 := by decide
  have hn : accuCount stTwoOfFour vp28.ProposalID = 4 := by decide
  rw [hc, hn] at hres hfail
  have hq : ((2 : ℕ) : ℚ) / ((4 : ℕ) : ℚ) = 1 / 2 := by norm_num
  have hst : status = .Failed := by
    rw [hfail, hq, f64Round_half]
    norm_num [exEnv]
  rw [hst] at hres
  exact ⟨by decide, hok, hres⟩

theorem tallySupportRate_le (c : VoteCount) (N : Nat) :
    tallySupportRate c N ≤ (c.yeas : ℚ) / (N : ℚ) := by
  unfold tallySupportRate
  exact Nat.cast_div_le

theorem tallyStatus_failed_of_support_le (env : Env) (ty : ProposalType) (vr sr t : ℚ)
    (hty : ty = .Text ∧ t = env.TextProposal_SupportRate ∨
           ty = .Cancel ∧ t = env.CancelProposal_SupportRate)
    (h : sr ≤ t) : tallyStatus env ty vr sr = .Failed := by
  rcases hty with ⟨rfl, rfl⟩ | ⟨rfl, rfl⟩
  · simp [tallyStatus, not_lt.2 h]
  · simp [tallyStatus, not_lt.2 h]

/-- C3: with no gateway or staking failure, for every proposal whose accumulated verifier
count N is at least 1: if the yes-count y of a Text (resp. Cancel) proposal satisfies
y/N = the Text (resp. Cancel) support-rate threshold exactly, `tally` returns `false` and
stores Status = Failed, whatever the vote rate; if the vote count y of a version proposal
satisfies y/N = the version support-rate threshold exactly (the threshold being a float64
value), `tallyVersion` stores Status = PreActive. -/
theorem C3_threshold_boundary (env : Env) (bh : Hash) (bn : Nat) (s : State)
    (hf : ∀ op, env.fails op = false) (hs : env.stkFails .ProposalPassedNotify = false) :
    (∀ id : Hash, 1 ≤ accuCount s id →
      ((countVotes (votesOf s id)).yeas : ℚ) / (accuCount s id : ℚ) =
        env.TextProposal_SupportRate →
      (tally env .Text id bh bn s).1 = .ok false ∧
      (findTallyResult id (tally env .Text id bh bn s).2).map (fun t => t.Status) =
        some .Failed) ∧
    (∀ id : Hash, 1 ≤ accuCount s id →
      ((countVotes (votesOf s id)).yeas : ℚ) / (accuCount s id : ℚ) =
        env.CancelProposal_SupportRate →
      (tally env .Cancel id bh bn s).1 = .ok false ∧
      (findTallyResult id (tally env .Cancel id bh bn s).2).map (fun t => t.Status) =
        some .Failed) ∧
    (∀ p : VersionProposal, 1 ≤ accuCount s p.ProposalID →
      (((votesOf s p.ProposalID).length % 65536 : ℕ) : ℚ) / (accuCount s p.ProposalID : ℚ) =
        env.VersionProposal_SupportRate →
      f64Round env.VersionProposal_SupportRate = env.VersionProposal_SupportRate →
      (tallyVersion env p bh bn s).1 = .ok () ∧
      (findTallyResult p.ProposalID (tallyVersion env p bh bn s).2).map (fun t => t.Status) =
        some .PreActive) := by
  refine ⟨?_, ?_, ?_⟩
  · intro id hN hy
    have hst := tallyStatus_failed_of_support_le env .Text
      (tallyVoteRate (countVotes (votesOf s id)) (accuCount s id))
      (tallySupportRate (countVotes (votesOf s id)) (accuCount s id))
      env.TextProposal_SupportRate (Or.inl ⟨rfl, rfl⟩)
      (hy ▸ tallySupportRate_le _ _)
    rw [tally_run env .Text id bh bn s hf (by omega), hst]
    exact ⟨rfl, by simp [findTallyResult]⟩
  · intro id hN hy
    have hst := tallyStatus_failed_of_support_le env .Cancel
      (tallyVoteRate (countVotes (votesOf s id)) (accuCount s id))
      (tallySupportRate (countVotes (votesOf s id)) (accuCount s id))
      env.CancelProposal_SupportRate (Or.inr ⟨rfl, rfl⟩)
      (hy ▸ tallySupportRate_le _ _)
    rw [tally_run env .Cancel id bh bn s hf (by omega), hst]
    exact ⟨rfl, by simp [findTallyResult]⟩
  · intro p hN hy hfl
    have h : supportRateReached ((votesOf s p.ProposalID).length % 65536)
        (accuCount s p.ProposalID) env.VersionProposal_SupportRate = true := by
      rw [supportRateReached_iff _ _ _ hN, hy, hfl]
    rw [tallyVersion_run_pass env p bh bn s hf hs h]
    exact ⟨rfl, by simp [findTallyResult]⟩

theorem C3_threshold_boundary_witness :
    ((tally exEnv .Text 17 0 100 stBoundary).1 = .ok false ∧
      (findTallyResult 17 (tally exEnv .Text 17 0 100 stBoundary).2).map (fun t => t.Status) =
        some .Failed) ∧
    ((tally exEnv .Cancel 19 0 100 stBoundary).1 = .ok false ∧
      (findTallyResult 19 (tally exEnv .Cancel 19 0 100 stBoundary).2).map (fun t => t.Status) =
        some .Failed) ∧
    ((tallyVersion exEnv vp18 0 100 stBoundary).1 = .ok () ∧
      (findTallyResult 18 (tallyVersion exEnv vp18 0 100 stBoundary).2).map (fun t => t.Status) =
        some .PreActive) := by
  have h := C3_threshold_boundary exEnv 0 100 stBoundary exEnv_fails rfl
  have hN : ∀ id, accuCount stBoundary id = 8 := fun _ => rfl
  have h17 : (countVotes (votesOf stBoundary 17)).yeas = 5 := by decide
  have h19 : (countVotes (votesOf stBoundary 19)).yeas = 5 := by decide
  have h18 : (votesOf stBoundary vp18.ProposalID).length % 65536 = 5 := by decide
  refine ⟨h.1 17 (by decide) ?_, h.2.1 19 (by decide) ?_, h.2.2 vp18 (by decide) ?_ ?_⟩
  · rw [h17, hN]; norm_num [exEnv]
  · rw [h19, hN]; norm_num [exEnv]
  · rw [h18, hN]; norm_num [exEnv]
  · exact f64Round_five_eighths

/-- C4: with the gateway and the staking notification not failing. When `tallyVersion` passes
p (the support rate reaches the threshold, Status = PreActive is stored): p.ID is removed from
the VotingList and is the PreActive slot, preActiveVersion is p.NewVersion, the staking
collaborator has received exactly one more call, `ProposalPassedNotify` with ActiveNodes(p) and
p.NewVersion, and the EndList is unchanged. When it fails p (Status = Failed is stored): p.ID
is removed from the VotingList and appended to the EndList, and preActiveVersion, the PreActive
slot and the calls received by staking are unchanged. -/
theorem C4_tallyVersion_moves (env : Env) (p : VersionProposal) (bh : Hash) (bn : Nat)
    (s : State) (hf : ∀ op, env.fails op = false)
    (hs : env.stkFails .ProposalPassedNotify = false) :
    (supportRateReached ((votesOf s p.ProposalID).length % 65536) (accuCount s p.ProposalID)
        env.VersionProposal_SupportRate = true →
      (tallyVersion env p bh bn s).1 = .ok () ∧
      (findTallyResult p.ProposalID (tallyVersion env p bh bn s).2).map (fun t => t.Status) =
        some .PreActive ∧
      (tallyVersion env p bh bn s).2.VotingList =
        s.VotingList.filter (fun h => h != p.ProposalID) ∧
      p.ProposalID ∉ (tallyVersion env p bh bn s).2.VotingList ∧
      (tallyVersion env p bh bn s).2.PreActive = p.ProposalID ∧
      (tallyVersion env p bh bn s).2.PreActiveVersion = p.NewVersion ∧
      (tallyVersion env p bh bn s).2.Notified =
        s.Notified ++ [.ProposalPassed bh bn (s.ActiveNodes p.ProposalID) p.NewVersion] ∧
      (tallyVersion env p bh bn s).2.EndList = s.EndList) ∧
    (supportRateReached ((votesOf s p.ProposalID).length % 65536) (accuCount s p.ProposalID)
        env.VersionProposal_SupportRate = false →
      (tallyVersion env p bh bn s).1 = .ok () ∧
      (findTallyResult p.ProposalID (tallyVersion env p bh bn s).2).map (fun t => t.Status) =
        some .Failed ∧
      (tallyVersion env p bh bn s).2.VotingList =
        s.VotingList.filter (fun h => h != p.ProposalID) ∧
      p.ProposalID ∉ (tallyVersion env p bh bn s).2.VotingList ∧
      (tallyVersion env p bh bn s).2.EndList = s.EndList ++ [p.ProposalID] ∧
      (tallyVersion env p bh bn s).2.PreActive = s.PreActive ∧
      (tallyVersion env p bh bn s).2.PreActiveVersion = s.PreActiveVersion ∧
      (tallyVersion env p bh bn s).2.Notified = s.Notified) := by
  constructor
  · intro h
    rw [tallyVersion_run_pass env p bh bn s hf hs h]
    exact ⟨rfl, by simp [findTallyResult], rfl, mem_filter_ne _ _, rfl, rfl, rfl, rfl⟩
  · intro h
    rw [tallyVersion_run_fail env p bh bn s hf h]
    exact ⟨rfl, by simp [findTallyResult], rfl, mem_filter_ne _ _, rfl, rfl, rfl, rfl⟩

theorem supportRateReached_five_of_eight :
    supportRateReached 5 8 (5 / 8) = true := by
  rw [supportRateReached_iff _ _ _ (by norm_num)]
  have : ((5 : ℕ) : ℚ) / ((8 : ℕ) : ℚ) = 5 / 8 := by norm_num
  rw [this, f64Round_five_eighths]

theorem supportRateReached_two_of_four :
    supportRateReached 2 4 (5 / 8) = false := by
  have h : ¬ supportRateReached 2 4 (5 / 8) = true := by
    rw [supportRateReached_iff _ _ _ (by norm_num)]
    have : ((2 : ℕ) : ℚ) / ((4 : ℕ) : ℚ) = 1 / 2 := by norm_num
    rw [this, f64Round_half]
    norm_num
  simpa using h

theorem C4_tallyVersion_moves_witness :
    ((tallyVersion exEnv vp18 0 100 stBoundary).2.VotingList = [17, 19] ∧
      (tallyVersion exEnv vp18 0 100 stBoundary).2.PreActive = 18 ∧
      (tallyVersion exEnv vp18 0 100 stBoundary).2.PreActiveVersion = 66048 ∧
      (tallyVersion exEnv vp18 0 100 stBoundary).2.Notified =
        [.ProposalPassed 0 100 [1, 2, 3, 4, 5] 66048]) ∧
    ((tallyVersion exEnv vp28 0 100 stTwoOfFour).2.VotingList = [] ∧
      (tallyVersion exEnv vp28 0 100 stTwoOfFour).2.EndList = [28] ∧
      (tallyVersion exEnv vp28 0 100 stTwoOfFour).2.PreActive = ZeroHash ∧
      (tallyVersion exEnv vp28 0 100 stTwoOfFour).2.Notified = []) := by
  have h1 := (C4_tallyVersion_moves exEnv vp18 0 100 stBoundary exEnv_fails rfl).1
    supportRateReached_five_of_eight
  have h2 := (C4_tallyVersion_moves exEnv vp28 0 100 stTwoOfFour exEnv_fails rfl).2
    supportRateReached_two_of_four
  exact ⟨⟨h1.2.2.1, h1.2.2.2.2.1, h1.2.2.2.2.2.1, h1.2.2.2.2.2.2.1⟩,
    ⟨h2.2.2.1, h2.2.2.2.2.1, h2.2.2.2.2.2.1, h2.2.2.2.2.2.2.2⟩⟩

/-! ## Claims about `tallyCancel`, `GetActiveVersion`, `BeginBlock` and `Vote` -/

theorem find_filter_ne (l : List TallyResult) (a b : Hash) (h : a ≠ b) :
    (l.filter (fun t => t.ProposalID != b)).find? (fun t => t.ProposalID == a) =
      l.find? (fun t => t.ProposalID == a) := by
  induction l with
  | nil => rfl
  | cons x xs ih =>
    by_cases hx : x.ProposalID = b
    · have hxa : ¬ x.ProposalID = a := fun e => h (e ▸ hx)
      have h1 : (x.ProposalID != b) = false := by simp [hx]
      have h2 : (x.ProposalID == a) = false := by simp [hxa]
      rw [List.filter_cons, h1, List.find?_cons, h2]
      simpa using ih
    · have h1 : (x.ProposalID != b) = true := by simp [hx]
      rw [List.filter_cons, h1]
      simp only [if_true, List.find?_cons]
      rw [ih]

theorem tallyCancel_run_no_result (env : Env) (cp : CancelProposal) (bh : Hash) (bn : Nat)
    (s : State) (V : Proposal) (hf : ∀ op, env.fails op = false)
    (hN : accuCount s cp.ProposalID ≠ 0)
    (hpass : tallyStatus env .Cancel
      (tallyVoteRate (countVotes (votesOf s cp.ProposalID)) (accuCount s cp.ProposalID))
      (tallySupportRate (countVotes (votesOf s cp.ProposalID)) (accuCount s cp.ProposalID))
        = .Pass)
    (hV : findProposal cp.TobeCanceled s = some V) (hVt : V.GetProposalType = .Version)
    (hin : cp.TobeCanceled ∈ s.VotingList) (hne : cp.TobeCanceled ≠ cp.ProposalID)
    (hnone : findTallyResult cp.TobeCanceled s = none) :
    tallyCancel env cp bh bn s =
      (.error (.biz "get tallyResult by proposal ID failed."),
       (tally env .Cancel cp.ProposalID bh bn s).2) := by
  have hfind : findProposal cp.TobeCanceled
      { s with
        VotingList := s.VotingList.filter (fun h => h != cp.ProposalID),
        EndList := s.EndList ++ [cp.ProposalID],
        TallyResults :=
          { ProposalID := cp.ProposalID, Yeas := (countVotes (votesOf s cp.ProposalID)).yeas,
            Nays := (countVotes (votesOf s cp.ProposalID)).nays,
            Abstentions := (countVotes (votesOf s cp.ProposalID)).abstentions,
            AccuVerifiers := accuCount s cp.ProposalID,
            Status := Status.Pass, CanceledBy := ZeroHash } ::
          s.TallyResults.filter (fun t => t.ProposalID != cp.ProposalID) } = some V := hV
  have hnone2 : List.find? (fun t => t.ProposalID == cp.TobeCanceled)
      (s.TallyResults.filter (fun t => t.ProposalID != cp.ProposalID)) = none := by
    rw [find_filter_ne _ _ _ hne]; exact hnone
  have hne2 : ¬ cp.ProposalID = cp.TobeCanceled := fun e => hne e.symm
  have hall : ¬ ∀ x ∈ s.VotingList, ¬ x = cp.ProposalID → ¬ x = cp.TobeCanceled :=
    fun h => h _ hin hne rfl
  simp [tallyCancel, bind_run, tally_run env .Cancel cp.ProposalID bh bn s hf hN, hpass,
    GetExistProposal, hf, hfind, hVt, listVotingProposalID, ListVotingProposal, gwRead_run,
    InHashList, hall, GovPlugin_GetTallyResult, GetTallyResult, findTallyResult, hnone2,
    hne2, Gov.fail]

/-- C5 (the code departs from the claim): version proposal 2 is in the VotingList and has no
stored tally result, as for every proposal that has not been tallied; cancel proposal 3 (to
cancel 2) has four Yes votes of four accumulated verifiers and reaches Pass. `tallyCancel`
stores Status = Pass for proposal 3 and moves it to the EndList, then returns the business
error of `GetTallyResult`: proposal 2 gets no tally result, stays in the VotingList and keeps
its ActiveNodes, where the claim requires Status = Canceled, CanceledBy = 3, an empty
ActiveNodes set and proposal 2 in the EndList. -/
theorem C5_tallyCancel_leaves_target_voting :
    (tally exEnv .Cancel 3 0 250 stCancel).1 = .ok true ∧
    (tallyCancel exEnv cp3 0 250 stCancel).1 =
      .error (.biz "get tallyResult by proposal ID failed.") ∧
    findTallyResult 2 (tallyCancel exEnv cp3 0 250 stCancel).2 = none ∧
    (tallyCancel exEnv cp3 0 250 stCancel).2.VotingList = [2] ∧
    (tallyCancel exEnv cp3 0 250 stCancel).2.EndList = [3] ∧
    (tallyCancel exEnv cp3 0 250 stCancel).2.ActiveNodes 2 = [1] ∧
    (findTallyResult 3 (tallyCancel exEnv cp3 0 250 stCancel).2).map (fun t => t.Status) =
      some .Pass := by
  have hN : accuCount stCancel 3 = 4 := by decide
  have hc : countVotes (votesOf stCancel 3) = { yeas := 4, nays := 0, abstentions := 0 } := by
    decide
  have hst : tallyStatus exEnv .Cancel (tallyVoteRate ⟨4, 0, 0⟩ 4) (tallySupportRate ⟨4, 0, 0⟩ 4)
      = .Pass := by
    norm_num [tallyStatus, tallyVoteRate, tallySupportRate, exEnv]
  have ht := tally_run exEnv .Cancel 3 0 250 stCancel exEnv_fails (by rw [hN]; decide)
  rw [hc, hN, hst] at ht
  have hrun := tallyCancel_run_no_result exEnv cp3 0 250 stCancel (.version vp2) exEnv_fails
    (by decide) (by rw [show cp3.ProposalID = 3 from rfl, hc, hN, hst]) (by decide) (by decide)
    (by decide) (by decide) (by decide)
  rw [hrun, show cp3.ProposalID = 3 from rfl, ht]
  exact ⟨rfl, rfl, by decide, by decide, by decide, by decide, by decide⟩

theorem GetActiveVersion_loop_eq (blockNumber : Nat) (avList : List ActiveVersionValue) :
    GetActiveVersion_loop blockNumber avList =
      match avList.find? (fun av => decide (av.ActiveBlock ≤ blockNumber)) with
      | some av => av.ActiveVersion
      | none => 0 := by
  induction avList with
  | nil => rfl
  | cons av rest ih =>
    by_cases h : av.ActiveBlock ≤ blockNumber
    · simp [GetActiveVersion_loop, List.find?_cons, h]
    · simp [GetActiveVersion_loop, List.find?_cons, h, ih]

/-- C6: for a non-nil plugin with a non-nil gateway whose history read does not fail, for every
active-version history (newest first) and every block number B, `GetActiveVersion(B)` is the
ActiveVersion of the first record of the history with ActiveBlock <= B, and it is 0 when no
record has ActiveBlock <= B, in particular for the empty history. -/
theorem C6_GetActiveVersion_first_record (env : Env) (db : GovDB) (B : Nat) (s : State)
    (hf : env.fails .ListActiveVersion = false) :
    GetActiveVersion (some { govDB := some db }) env B s =
      (match s.ActiveVersions.find? (fun av => decide (av.ActiveBlock ≤ B)) with
        | some av => av.ActiveVersion
        | none => 0) ∧
    ((∀ av ∈ s.ActiveVersions, ¬ av.ActiveBlock ≤ B) →
      GetActiveVersion (some { govDB := some db }) env B s = 0) ∧
    (s.ActiveVersions = [] → GetActiveVersion (some { govDB := some db }) env B s = 0) := by
  have hrun : GetActiveVersion (some { govDB := some db }) env B s =
      GetActiveVersion_loop B s.ActiveVersions := by
    simp [GetActiveVersion, ListActiveVersion, gwRead_run, hf]
  have hnone : (∀ av ∈ s.ActiveVersions, ¬ av.ActiveBlock ≤ B) →
      GetActiveVersion (some { govDB := some db }) env B s = 0 := by
    intro h
    have hfind : s.ActiveVersions.find? (fun av => decide (av.ActiveBlock ≤ B)) = none := by
      rw [List.find?_eq_none]
      intro av hav
      simpa using h av hav
    rw [hrun, GetActiveVersion_loop_eq, hfind]
  refine ⟨by rw [hrun, GetActiveVersion_loop_eq], hnone, ?_⟩
  intro hnil
  apply hnone
  intro av hav
  rw [hnil] at hav
  cases hav

theorem C6_GetActiveVersion_first_record_witness :
    GetActiveVersion (some { govDB := some {} }) exEnv 500 stHistory = 66048 ∧
    GetActiveVersion (some { govDB := some {} }) exEnv 700 stHistory = 66304 ∧
    GetActiveVersion (some { govDB := some {} }) exEnv 500 emptyState = 0 :=
  ⟨(C6_GetActiveVersion_first_record exEnv {} 500 stHistory rfl).1,
   (C6_GetActiveVersion_first_record exEnv {} 700 stHistory rfl).1,
   (C6_GetActiveVersion_first_record exEnv {} 500 emptyState rfl).2.2 rfl⟩

theorem stkRead_run {α : Type} (env : Env) (op : StkOp) (a : α) (s : State)
    (h : env.stkFails op = false) : stkRead env op a s = (.ok a, s) := by
  simp [stkRead, h]

theorem findProposal_id (id : Hash) (s : State) (p : Proposal)
    (h : findProposal id s = some p) : p.GetProposalID = id := by
  have := List.find?_some h
  simpa using this

theorem findTallyResult_id (id : Hash) (s : State) (t : TallyResult)
    (h : findTallyResult id s = some t) : t.ProposalID = id := by
  have := List.find?_some h
  simpa using this

theorem GetExistProposal_run (env : Env) (id : Hash) (s : State) (p : Proposal)
    (hf : env.fails .GetExistProposal = false) (h : findProposal id s = some p) :
    GetExistProposal env id s = (.ok p, s) := by
  simp [GetExistProposal, hf, h]

theorem BeginBlock_run_check (env : Env) (bh : Hash) (bn : Nat) (s : State)
    (vp : VersionProposal)
    (hf : ∀ op, env.fails op = false) (hstk : env.stkFails .ListCurrentValidatorID = false)
    (hslot : s.PreActive ≠ ZeroHash) (hprop : findProposal s.PreActive s = some (.version vp))
    (hge : vp.ActiveBlock ≤ bn) (hcs : 0 < env.ConsensusSize)
    (hmod : (bn - vp.ActiveBlock) % env.ConsensusSize = 0) :
    BeginBlock env bh bn s =
      if countUpdatedNodes (env.ListCurrentValidatorID bh bn) (s.ActiveNodes s.PreActive) =
          (env.ListCurrentValidatorID bh bn).length then
        match findTallyResult s.PreActive s with
        | none => (.error (.panic "nil pointer dereference"), s)
        | some tr => (.ok (), activated s vp tr bn)
      else (.ok (), s) := by
  have hcs0 : env.ConsensusSize ≠ 0 := by omega
  unfold BeginBlock
  simp only [bind_run, GetPreActiveProposalID, gwRead_run, hf, hslot, if_false,
    GetExistProposal_run env s.PreActive s _ (hf _) hprop, ge_iff_le, hge, if_true, hcs0, hmod,
    stkRead_run, hstk, GetActiveNodeList]
  split
  · simp only [bind_run, GetTallyResult, gwRead_run, hf]
    cases htr : findTallyResult s.PreActive s with
    | none => rfl
    | some tr =>
      by_cases hab : vp.ActiveBlock = bn
      · simp [bind_run, pure_run, SetTallyResult, gwWrite_run, hf, hab,
          MovePreActiveProposalIDToEnd, ClearActiveNodes, AddActiveVersion, activated]
      · simp [bind_run, pure_run, SetTallyResult, gwWrite_run, hf, hab, Gov.logOnly, SetProposal,
          MovePreActiveProposalIDToEnd, ClearActiveNodes, AddActiveVersion, activated,
          Proposal.GetProposalID]
  · rfl

theorem InNodeIDList_iff (v : NodeID) (l : List NodeID) : InNodeIDList v l = true ↔ v ∈ l := by
  simp [InNodeIDList, List.any_eq_true]

theorem countUpdatedNodes_foldl (act : List NodeID) (cur : List NodeID) (k : Nat) :
    cur.foldl (fun updatedNodes validator =>
      if InNodeIDList validator act then updatedNodes + 1 else updatedNodes) k =
      k + cur.countP (fun v => InNodeIDList v act) := by
  induction cur generalizing k with
  | nil => simp
  | cons v rest ih =>
    by_cases h : InNodeIDList v act = true
    · simp only [List.foldl_cons, h, if_true, ih, List.countP_cons, if_true]
      omega
    · simp only [List.foldl_cons, h, if_false, ih, List.countP_cons]
      simp

theorem countUpdatedNodes_eq_length_iff (cur act : List NodeID) :
    countUpdatedNodes cur act = cur.length ↔ ∀ v ∈ cur, v ∈ act := by
  unfold countUpdatedNodes
  rw [countUpdatedNodes_foldl, Nat.zero_add, List.countP_eq_length]
  simp only [InNodeIDList_iff]

theorem findTallyResult_activated (s : State) (vp : VersionProposal) (tr : TallyResult)
    (bn : Nat) (htr : findTallyResult s.PreActive s = some tr) :
    findTallyResult s.PreActive (activated s vp tr bn) = some { tr with Status := .Active } := by
  have hid := findTallyResult_id _ _ _ htr
  simp [findTallyResult, activated, hid]

theorem findProposal_activated (s : State) (vp : VersionProposal) (tr : TallyResult)
    (bn : Nat) (hprop : findProposal s.PreActive s = some (.version vp)) :
    findProposal s.PreActive (activated s vp tr bn) =
      some (.version { vp with ActiveBlock := bn }) := by
  have hid : vp.ProposalID = s.PreActive := findProposal_id _ _ _ hprop
  by_cases hab : vp.ActiveBlock = bn
  · have hvp : ({ vp with ActiveBlock := bn } : VersionProposal) = vp := by
      cases vp; simp_all
    rw [hvp, ← hprop]
    simp [findProposal, activated, hab]
  · simp [findProposal, activated, hab, Proposal.GetProposalID, hid]

/-- C7: at a block where the activation check runs for the pre-active version proposal p
(gateway and validator listing not failing, tally result of p stored and not yet Active):
the count test of `BeginBlock` succeeds exactly when every entry of the current validator list
is a member of ActiveNodes(p); `BeginBlock` returns no error; afterwards the tally Status of p
is Active exactly when every entry of the current validator list, repeated entries included, is
in ActiveNodes(p); an empty validator list activates. -/
theorem C7_activation_iff_validators_active (env : Env) (bh : Hash) (bn : Nat) (s : State)
    (vp : VersionProposal) (tr : TallyResult)
    (hf : ∀ op, env.fails op = false) (hstk : env.stkFails .ListCurrentValidatorID = false)
    (hslot : s.PreActive ≠ ZeroHash) (hprop : findProposal s.PreActive s = some (.version vp))
    (hge : vp.ActiveBlock ≤ bn) (hcs : 0 < env.ConsensusSize)
    (hmod : (bn - vp.ActiveBlock) % env.ConsensusSize = 0)
    (htr : findTallyResult s.PreActive s = some tr) (hnot : tr.Status ≠ .Active) :
    (countUpdatedNodes (env.ListCurrentValidatorID bh bn) (s.ActiveNodes s.PreActive) =
        (env.ListCurrentValidatorID bh bn).length ↔
      ∀ v ∈ env.ListCurrentValidatorID bh bn, v ∈ s.ActiveNodes s.PreActive) ∧
    (BeginBlock env bh bn s).1 = .ok () ∧
    ((findTallyResult s.PreActive (BeginBlock env bh bn s).2).map (fun t => t.Status) =
        some .Active ↔
      ∀ v ∈ env.ListCurrentValidatorID bh bn, v ∈ s.ActiveNodes s.PreActive) ∧
    (env.ListCurrentValidatorID bh bn = [] →
      (findTallyResult s.PreActive (BeginBlock env bh bn s).2).map (fun t => t.Status) =
        some .Active) := by
  have hrun := BeginBlock_run_check env bh bn s vp hf hstk hslot hprop hge hcs hmod
  rw [htr] at hrun
  have hiff := countUpdatedNodes_eq_length_iff (env.ListCurrentValidatorID bh bn)
    (s.ActiveNodes s.PreActive)
  have hyes : (∀ v ∈ env.ListCurrentValidatorID bh bn, v ∈ s.ActiveNodes s.PreActive) →
      BeginBlock env bh bn s = (.ok (), activated s vp tr bn) := by
    intro h
    rw [hrun, if_pos (hiff.2 h)]
  have hno : ¬ (∀ v ∈ env.ListCurrentValidatorID bh bn, v ∈ s.ActiveNodes s.PreActive) →
      BeginBlock env bh bn s = (.ok (), s) := by
    intro h
    rw [hrun, if_neg (fun hc => h (hiff.1 hc))]
  refine ⟨hiff, ?_, ?_, ?_⟩
  · by_cases h : ∀ v ∈ env.ListCurrentValidatorID bh bn, v ∈ s.ActiveNodes s.PreActive
    · rw [hyes h]
    · rw [hno h]
  · constructor
    · intro hact
      by_contra h
      rw [hno h] at hact
      simp only [htr, Option.map_some'] at hact
      exact hnot (Option.some.inj hact)
    · intro h
      rw [hyes h]
      simp only [findTallyResult_activated s vp tr bn htr, Option.map_some']
  · intro hnil
    have h : ∀ v ∈ env.ListCurrentValidatorID bh bn, v ∈ s.ActiveNodes s.PreActive := by
      rw [hnil]; intro v hv; cases hv
    rw [hyes h]
    simp only [findTallyResult_activated s vp tr bn htr, Option.map_some']

/-- C8: when `BeginBlock` activates the pre-active version proposal p at block b (every gateway
operation and the validator listing succeeding, the check running and every current validator
in ActiveNodes(p)), it returns no error and afterwards: TallyResult(p) is the stored result
with Status = Active, the stored proposal is p with ActiveBlock = b, the PreActive slot is
empty, p.ID is in the EndList, ActiveNodes(p) is empty, and the active-version history is the
record (p.NewVersion, b) followed by the previous history. -/
theorem C8_activation_effects (env : Env) (bh : Hash) (bn : Nat) (s : State)
    (vp : VersionProposal) (tr : TallyResult)
    (hf : ∀ op, env.fails op = false) (hstk : env.stkFails .ListCurrentValidatorID = false)
    (hslot : s.PreActive ≠ ZeroHash) (hprop : findProposal s.PreActive s = some (.version vp))
    (hge : vp.ActiveBlock ≤ bn) (hcs : 0 < env.ConsensusSize)
    (hmod : (bn - vp.ActiveBlock) % env.ConsensusSize = 0)
    (htr : findTallyResult s.PreActive s = some tr)
    (hall : ∀ v ∈ env.ListCurrentValidatorID bh bn, v ∈ s.ActiveNodes s.PreActive) :
    (BeginBlock env bh bn s).1 = .ok () ∧
    findTallyResult s.PreActive (BeginBlock env bh bn s).2 =
      some { tr with Status := .Active } ∧
    findProposal s.PreActive (BeginBlock env bh bn s).2 =
      some (.version { vp with ActiveBlock := bn }) ∧
    (BeginBlock env bh bn s).2.PreActive = ZeroHash ∧
    s.PreActive ∈ (BeginBlock env bh bn s).2.EndList ∧
    (BeginBlock env bh bn s).2.ActiveNodes s.PreActive = [] ∧
    (BeginBlock env bh bn s).2.ActiveVersions =
      { ActiveVersion := vp.NewVersion, ActiveBlock := bn } :: s.ActiveVersions := by
  have hrun := BeginBlock_run_check env bh bn s vp hf hstk hslot hprop hge hcs hmod
  rw [htr, if_pos ((countUpdatedNodes_eq_length_iff _ _).2 hall)] at hrun
  rw [hrun]
  refine ⟨rfl, findTallyResult_activated s vp tr bn htr, findProposal_activated s vp tr bn hprop,
    rfl, ?_, ?_, rfl⟩
  · simp [activated]
  · simp [activated, setAt]

theorem C7_activation_iff_validators_active_witness :
    (findTallyResult 18 (BeginBlock exEnv 0 500 stPreActive).2).map (fun t => t.Status) =
        some .Active ∧
    ¬ (findTallyResult 18 (BeginBlock exEnv 0 500 stPreActiveLate).2).map (fun t => t.Status) =
        some .Active :=
  ⟨(C7_activation_iff_validators_active exEnv 0 500 stPreActive vp18
      ⟨18, 5, 0, 0, 8, .PreActive, ZeroHash⟩ exEnv_fails rfl (by decide) (by decide) (by decide)
      (by decide) (by decide) (by decide) (by decide)).2.2.1.2 (by decide),
   fun h => absurd
    ((C7_activation_iff_validators_active exEnv 0 500 stPreActiveLate vp18
      ⟨18, 5, 0, 0, 8, .PreActive, ZeroHash⟩ exEnv_fails rfl (by decide) (by decide) (by decide)
      (by decide) (by decide) (by decide) (by decide)).2.2.1.1 h) (by decide)⟩

theorem C8_activation_effects_witness :
    (BeginBlock exEnv 0 500 stPreActive).1 = .ok () ∧
    findTallyResult 18 (BeginBlock exEnv 0 500 stPreActive).2 =
      some ⟨18, 5, 0, 0, 8, .Active, ZeroHash⟩ ∧
    findProposal 18 (BeginBlock exEnv 0 500 stPreActive).2 =
      some (.version ⟨18, .Version, 1, 10, 100, 66048, 500⟩) ∧
    (BeginBlock exEnv 0 500 stPreActive).2.PreActive = ZeroHash ∧
    18 ∈ (BeginBlock exEnv 0 500 stPreActive).2.EndList ∧
    (BeginBlock exEnv 0 500 stPreActive).2.ActiveNodes 18 = [] ∧
    (BeginBlock exEnv 0 500 stPreActive).2.ActiveVersions = [⟨66048, 500⟩, ⟨65792, 0⟩] :=
  C8_activation_effects exEnv 0 500 stPreActive vp18 ⟨18, 5, 0, 0, 8, .PreActive, ZeroHash⟩
    exEnv_fails rfl (by decide) (by decide) (by decide) (by decide) (by decide) (by decide)
    (by decide)

/-- C9: `BeginBlock` returns no error and leaves the whole state unchanged when (1) the PreActive
slot is read as empty; or the slot holds a stored version proposal p and (2) blockNumber <
p.ActiveBlock, or (3) blockNumber >= p.ActiveBlock and blockNumber - p.ActiveBlock is not a
multiple of the (positive) consensus round size, or (4) the check runs, the validator list and
ActiveNodes(p) are read, and some current validator is not in ActiveNodes(p). -/
theorem C9_BeginBlock_unchanged (env : Env) (bh : Hash) (bn : Nat) (s : State) :
    (env.fails .GetPreActiveProposalID = false → s.PreActive = ZeroHash →
      BeginBlock env bh bn s = (.ok (), s)) ∧
    (∀ vp : VersionProposal, env.fails .GetPreActiveProposalID = false →
      env.fails .GetExistProposal = false →
      findProposal s.PreActive s = some (.version vp) → bn < vp.ActiveBlock →
      BeginBlock env bh bn s = (.ok (), s)) ∧
    (∀ vp : VersionProposal, env.fails .GetPreActiveProposalID = false →
      env.fails .GetExistProposal = false →
      findProposal s.PreActive s = some (.version vp) → vp.ActiveBlock ≤ bn →
      0 < env.ConsensusSize → ¬ env.ConsensusSize ∣ (bn - vp.ActiveBlock) →
      BeginBlock env bh bn s = (.ok (), s)) ∧
    (∀ vp : VersionProposal, env.fails .GetPreActiveProposalID = false →
      env.fails .GetExistProposal = false → env.fails .GetActiveNodeList = false →
      env.stkFails .ListCurrentValidatorID = false →
      findProposal s.PreActive s = some (.version vp) → vp.ActiveBlock ≤ bn →
      0 < env.ConsensusSize → env.ConsensusSize ∣ (bn - vp.ActiveBlock) →
      (∃ v ∈ env.ListCurrentValidatorID bh bn, v ∉ s.ActiveNodes s.PreActive) →
      BeginBlock env bh bn s = (.ok (), s)) := by
  refine ⟨?_, ?_, ?_, ?_⟩
  · intro h1 h0
    simp [BeginBlock, bind_run, pure_run, GetPreActiveProposalID, gwRead_run, h1, h0]
  · intro vp h1 h2 hprop hlt
    by_cases h0 : s.PreActive = ZeroHash
    · simp [BeginBlock, bind_run, pure_run, GetPreActiveProposalID, gwRead_run, h1, h0]
    · have hnge : ¬ vp.ActiveBlock ≤ bn := by omega
      simp [BeginBlock, bind_run, pure_run, GetPreActiveProposalID, gwRead_run, h1, h0,
        GetExistProposal_run env s.PreActive s _ h2 hprop, hnge]
  · intro vp h1 h2 hprop hge hcs hnd
    by_cases h0 : s.PreActive = ZeroHash
    · simp [BeginBlock, bind_run, pure_run, GetPreActiveProposalID, gwRead_run, h1, h0]
    · have hcs0 : env.ConsensusSize ≠ 0 := by omega
      have hmod : ¬ (bn - vp.ActiveBlock) % env.ConsensusSize = 0 :=
        fun h => hnd (Nat.dvd_of_mod_eq_zero h)
      simp [BeginBlock, bind_run, pure_run, GetPreActiveProposalID, gwRead_run, h1, h0,
        GetExistProposal_run env s.PreActive s _ h2 hprop, hge, hcs0, hmod]
  · intro vp h1 h2 h3 h4 hprop hge hcs hd hex
    by_cases h0 : s.PreActive = ZeroHash
    · simp [BeginBlock, bind_run, pure_run, GetPreActiveProposalID, gwRead_run, h1, h0]
    · have hcs0 : env.ConsensusSize ≠ 0 := by omega
      have hmod : (bn - vp.ActiveBlock) % env.ConsensusSize = 0 := Nat.mod_eq_zero_of_dvd hd
      have hcount : ¬ countUpdatedNodes (env.ListCurrentValidatorID bh bn)
          (s.ActiveNodes s.PreActive) = (env.ListCurrentValidatorID bh bn).length := by
        rw [countUpdatedNodes_eq_length_iff]
        obtain ⟨v, hv, hnv⟩ := hex
        exact fun h => hnv (h v hv)
      simp [BeginBlock, bind_run, pure_run, GetPreActiveProposalID, gwRead_run, h1, h0,
        GetExistProposal_run env s.PreActive s _ h2 hprop, hge, hcs0, hmod, stkRead_run, h4,
        GetActiveNodeList, h3, hcount]

theorem C9_BeginBlock_unchanged_witness :
    BeginBlock exEnv 0 500 emptyState = (.ok (), emptyState) ∧
    BeginBlock exEnv 0 100 stPreActive = (.ok (), stPreActive) ∧
    BeginBlock exEnv 0 300 stPreActive = (.ok (), stPreActive) ∧
    BeginBlock exEnv 0 500 stPreActiveLate = (.ok (), stPreActiveLate) :=
  ⟨(C9_BeginBlock_unchanged exEnv 0 500 emptyState).1 rfl rfl,
   (C9_BeginBlock_unchanged exEnv 0 100 stPreActive).2.1 vp18 rfl rfl (by decide) (by decide),
   (C9_BeginBlock_unchanged exEnv 0 300 stPreActive).2.2.1 vp18 rfl rfl (by decide) (by decide)
     (by decide) (by decide),
   (C9_BeginBlock_unchanged exEnv 0 500 stPreActiveLate).2.2.2 vp18 rfl rfl rfl rfl (by decide)
     (by decide) (by decide) (by decide) ⟨4, by decide, by decide⟩⟩

/-- C10 (the code departs from the claim): proposal 7 exists and the VotingList is empty; the
vote (7, node 1, Yes) of node 1's staking address 101 has a non-zero ProposalID and option.
`Vote` returns no error (`return err` with a nil `err`) and leaves the state unchanged, where
the claim requires a business error. With the VotingList [8] the same vote is rejected with
the business error "Proposal is not at voting stage.". -/
theorem C10_Vote_empty_voting_list_no_error :
    findProposal 7 stEnded = some (.text ⟨7, .Text, 1, 10, 100⟩) ∧
    stEnded.VotingList = [] ∧
    Vote exEnv 101 ⟨7, 1, Yes⟩ 0 120 0 0 stEnded = (.ok (), stEnded) ∧
    Vote exEnv 101 ⟨7, 1, Yes⟩ 0 120 0 0 stEndedOther =
      (.error (.biz "Proposal is not at voting stage."), stEndedOther) := by
  refine ⟨rfl, rfl, rfl, rfl⟩

/-! ## Claims about `Vote`, `DeclareVersion` and the settlement branch of `EndBlock` -/

theorem fail_run {α : Type} (e : Err) (s : State) : (Gov.fail e : Gov α) s = (.error e, s) := rfl

theorem checkVerifier_loop_cases (env : Env) (caller : Address) (nodeID : NodeID) (bh : Hash)
    (l : List (Option Verifier)) (s : State) :
    checkVerifier_loop env caller nodeID bh l s = (.ok (), s) ∨
    ∃ msg, checkVerifier_loop env caller nodeID bh l s = (.error (.biz msg), s) := by
  induction l with
  | nil => exact Or.inr ⟨_, rfl⟩
  | cons v rest ih =>
    cases v with
    | none => simpa [checkVerifier_loop] using ih
    | some verifier =>
      unfold checkVerifier_loop
      split_ifs
      · exact Or.inr ⟨_, rfl⟩
      · exact Or.inr ⟨_, rfl⟩
      · exact Or.inl rfl
      · exact Or.inr ⟨_, rfl⟩
      · exact ih

theorem checkVerifier_cases (env : Env) (caller : Address) (nodeID : NodeID) (bh : Hash)
    (bn : Nat) (s : State) (hstk : env.stkFails .GetVerifierList = false) :
    checkVerifier env caller nodeID bh bn s = (.ok (), s) ∨
    ∃ msg, checkVerifier env caller nodeID bh bn s = (.error (.biz msg), s) := by
  have h : checkVerifier env caller nodeID bh bn s =
      checkVerifier_loop env caller nodeID bh (env.GetVerifierList bh bn) s := by
    simp [checkVerifier, bind_run, stkRead_run, hstk]
  rw [h]
  exact checkVerifier_loop_cases env caller nodeID bh _ s

theorem checkVerifier_loop_not_owner (env : Env) (caller : Address) (nodeID : NodeID) (bh : Hash)
    (l : List (Option Verifier)) (s : State)
    (h : ¬ ∃ v, some v ∈ l ∧ v.NodeId = nodeID ∧ v.StakingAddress = caller) :
    ∃ msg, checkVerifier_loop env caller nodeID bh l s = (.error (.biz msg), s) := by
  induction l with
  | nil => exact ⟨_, rfl⟩
  | cons v rest ih =>
    have hrest : ¬ ∃ v, some v ∈ rest ∧ v.NodeId = nodeID ∧ v.StakingAddress = caller := by
      rintro ⟨w, hw, h1, h2⟩
      exact h ⟨w, List.mem_cons_of_mem _ hw, h1, h2⟩
    cases v with
    | none => simpa [checkVerifier_loop] using ih hrest
    | some verifier =>
      unfold checkVerifier_loop
      by_cases hn : verifier.NodeId = nodeID
      · have ha : ¬ verifier.StakingAddress = caller :=
          fun ha => h ⟨verifier, List.mem_cons_self _ _, hn, ha⟩
        rw [if_pos hn, if_neg ha]
        exact ⟨_, rfl⟩
      · rw [if_neg hn]
        exact ih hrest

theorem Vote_versionChecks_cases (env : Env) (proposal : Proposal) (vote : GovVote)
    (pv sign : Nat) (s : State) :
    Vote_versionChecks env proposal vote pv sign s = (.ok (), s) ∨
    ∃ msg, Vote_versionChecks env proposal vote pv sign s = (.error (.biz msg), s) := by
  cases proposal <;> unfold Vote_versionChecks <;> simp only <;> split_ifs <;>
    first | exact Or.inl rfl | exact Or.inr ⟨_, rfl⟩

theorem Vote_versionChecks_version_fail (env : Env) (vp : VersionProposal) (vote : GovVote)
    (pv sign : Nat) (s : State) (htag : vp.ProposalType = .Version)
    (h : ¬ (vote.VoteOption = Yes ∧ pv = vp.NewVersion ∧
      env.IsSignedByNodeID pv sign vote.VoteNodeID = true)) :
    ∃ msg, Vote_versionChecks env (.version vp) vote pv sign s = (.error (.biz msg), s) := by
  unfold Vote_versionChecks
  simp only [Proposal.GetProposalType, htag, if_true]
  split_ifs with h1 h2 h3
  · exact ⟨_, rfl⟩
  · exact ⟨_, rfl⟩
  · exact ⟨_, rfl⟩
  · exfalso
    apply h
    refine ⟨?_, ?_, ?_⟩
    · exact not_not.1 h2
    · exact (not_not.1 h3).symm
    · simpa using h1

theorem Vote_isVoting_foldl (id : Hash) (l : List Hash) (b : Bool) :
    l.foldl (fun isVoting votingID => if votingID = id then true else isVoting) b =
      (b || decide (id ∈ l)) := by
  induction l generalizing b with
  | nil => simp
  | cons x xs ih =>
    rw [List.foldl_cons, ih]
    by_cases hx : x = id
    · simp [hx]
    · have : ¬ id = x := fun e => hx e.symm
      simp [hx, this]

theorem Vote_isVoting_iff (l : List Hash) (id : Hash) : Vote_isVoting l id = true ↔ id ∈ l := by
  unfold Vote_isVoting
  rw [Vote_isVoting_foldl]
  simp

/-- The part of `Vote` after the proposal was read: the verifier check, the option range check
and the version checks all pass at state `s`. -/
theorem Vote_run_prefix_fail (env : Env) (caller : Address) (vote : GovVote) (bh : Hash)
    (bn : Nat) (pv sign : Nat) (s : State) (p : Proposal)
    (hf : env.fails .GetProposal = false) (hstk : env.stkFails .GetVerifierList = false)
    (hp : findProposal vote.ProposalID s = some p)
    (hvc : ∃ msg, Vote_versionChecks env p vote pv sign s = (.error (.biz msg), s)) :
    ∃ msg, Vote env caller vote bh bn pv sign s = (.error (.biz msg), s) := by
  unfold Vote
  by_cases h0 : vote.ProposalID = ZeroHash ∨ vote.VoteOption = 0
  · rw [if_pos h0]; exact ⟨_, rfl⟩
  · rw [if_neg h0]
    simp only [bind_run, GetProposal, gwRead_run, hf, hp]
    rcases checkVerifier_cases env caller vote.VoteNodeID bh bn s hstk with hok | ⟨msg, herr⟩
    · rw [hok]
      simp only
      by_cases hr : (!(decide (vote.VoteOption ≥ Yes) && decide (vote.VoteOption ≤ Abstention)))
          = true
      · rw [if_pos hr]; exact ⟨_, rfl⟩
      · rw [if_neg hr]
        obtain ⟨msg, hmsg⟩ := hvc
        simp only [bind_run, hmsg]
        exact ⟨_, rfl⟩
    · rw [herr]
      exact ⟨_, rfl⟩

/-- C11: for a vote on a stored version proposal p (gateway read of the proposal and the
verifier listing not failing): if `Vote` returns no error then VoteOption = Yes,
programVersion = p.NewVersion and programVersionSign verifies for programVersion under the
voting node's ID; and if any of the three fails, `Vote` returns a business error and leaves the
whole state unchanged, so neither a vote nor an ActiveNodes entry is written. -/
theorem C11_Vote_version_rules (env : Env) (caller : Address) (vote : GovVote) (bh : Hash)
    (bn : Nat) (pv sign : Nat) (s : State) (vp : VersionProposal)
    (hf : env.fails .GetProposal = false) (hstk : env.stkFails .GetVerifierList = false)
    (hp : findProposal vote.ProposalID s = some (.version vp))
    (htag : vp.ProposalType = .Version) :
    ((Vote env caller vote bh bn pv sign s).1 = .ok () →
      vote.VoteOption = Yes ∧ pv = vp.NewVersion ∧
        env.IsSignedByNodeID pv sign vote.VoteNodeID = true) ∧
    (¬ (vote.VoteOption = Yes ∧ pv = vp.NewVersion ∧
        env.IsSignedByNodeID pv sign vote.VoteNodeID = true) →
      ∃ msg, Vote env caller vote bh bn pv sign s = (.error (.biz msg), s)) := by
  have hfail : ¬ (vote.VoteOption = Yes ∧ pv = vp.NewVersion ∧
        env.IsSignedByNodeID pv sign vote.VoteNodeID = true) →
      ∃ msg, Vote env caller vote bh bn pv sign s = (.error (.biz msg), s) := fun h =>
    Vote_run_prefix_fail env caller vote bh bn pv sign s _ hf hstk hp
      (Vote_versionChecks_version_fail env vp vote pv sign s htag h)
  refine ⟨?_, hfail⟩
  intro hok
  by_contra h
  obtain ⟨msg, hmsg⟩ := hfail h
  rw [hmsg] at hok
  cases hok

theorem Vote_run_checked (env : Env) (caller : Address) (vote : GovVote) (bh : Hash)
    (bn : Nat) (pv sign : Nat) (s : State) (p : Proposal)
    (hf1 : env.fails .GetProposal = false) (hf2 : env.fails .ListVotingProposal = false)
    (hf3 : env.fails .ListVotedVerifier = false)
    (h0 : vote.ProposalID ≠ ZeroHash) (h1 : vote.VoteOption ≠ 0)
    (hp : findProposal vote.ProposalID s = some p)
    (hcv : checkVerifier env caller vote.VoteNodeID bh bn s = (.ok (), s))
    (hr : Yes ≤ vote.VoteOption ∧ vote.VoteOption ≤ Abstention)
    (hvc : Vote_versionChecks env p vote pv sign s = (.ok (), s))
    (hin : vote.ProposalID ∈ s.VotingList) :
    Vote env caller vote bh bn pv sign s =
      if vote.VoteNodeID ∈ votedVerifiers s vote.ProposalID then
        (.error (.biz "node has voted this proposal."), s)
      else
        (do
          SetVote env vote.ProposalID vote.VoteNodeID vote.VoteOption
          if p.GetProposalType = ProposalType.Version then
            AddActiveNode env vote.ProposalID vote.VoteNodeID
          else pure ()) s := by
  have hne : ¬ (vote.ProposalID = ZeroHash ∨ vote.VoteOption = 0) := by
    rintro (h | h)
    · exact h0 h
    · exact h1 h
  have hrange : ¬ (!(decide (vote.VoteOption ≥ Yes) && decide (vote.VoteOption ≤ Abstention)))
      = true := by
    simp [hr.1, hr.2]
  have hlen : ¬ s.VotingList.length = 0 := by
    intro h
    rw [List.length_eq_zero] at h
    rw [h] at hin
    cases hin
  have hiv : ¬ (!Vote_isVoting s.VotingList vote.ProposalID) = true := by
    simp [(Vote_isVoting_iff _ _).2 hin]
  unfold Vote
  rw [if_neg hne]
  simp only [bind_run, GetProposal, gwRead_run, hf1, hp, hcv]
  rw [if_neg hrange]
  simp only [bind_run, hvc, listVotingProposalID, ListVotingProposal, gwRead_run, hf2]
  rw [if_neg hlen, if_neg hiv]
  simp only [bind_run, ListVotedVerifier, gwRead_run, hf3]
  unfold votedVerifiers
  by_cases hv : vote.VoteNodeID ∈
      (s.Votes.filter (fun v => v.ProposalID == vote.ProposalID)).map (fun v => v.VoteNodeID)
  · rw [if_pos hv, if_pos ((InNodeIDList_iff _ _).2 hv)]
    rfl
  · rw [if_neg hv, if_neg (fun h => hv ((InNodeIDList_iff _ _).1 h))]
    rfl

/-- C12: for a proposal p in the VotingList and a node that is already in VotedVerifiers(p), a
further `Vote` of that node on p that passes all earlier checks (non-empty parameters, stored
proposal, verifier check, option range, version checks; gateway reads not failing) returns the
business error "node has voted this proposal." and leaves the whole state unchanged: the stored
vote is not overwritten, VotedVerifiers(p) and ActiveNodes(p) are as before. -/
theorem C12_Vote_duplicate_rejected (env : Env) (caller : Address) (vote : GovVote) (bh : Hash)
    (bn : Nat) (pv sign : Nat) (s : State) (p : Proposal)
    (hf1 : env.fails .GetProposal = false) (hf2 : env.fails .ListVotingProposal = false)
    (hf3 : env.fails .ListVotedVerifier = false)
    (h0 : vote.ProposalID ≠ ZeroHash) (h1 : vote.VoteOption ≠ 0)
    (hp : findProposal vote.ProposalID s = some p)
    (hcv : checkVerifier env caller vote.VoteNodeID bh bn s = (.ok (), s))
    (hr : Yes ≤ vote.VoteOption ∧ vote.VoteOption ≤ Abstention)
    (hvc : Vote_versionChecks env p vote pv sign s = (.ok (), s))
    (hin : vote.ProposalID ∈ s.VotingList)
    (hvoted : vote.VoteNodeID ∈ votedVerifiers s vote.ProposalID) :
    Vote env caller vote bh bn pv sign s =
      (.error (.biz "node has voted this proposal."), s) := by
  rw [Vote_run_checked env caller vote bh bn pv sign s p hf1 hf2 hf3 h0 h1 hp hcv hr hvc hin,
    if_pos hvoted]

theorem Vote_run_no_verifier (env : Env) (caller : Address) (vote : GovVote) (bh : Hash)
    (bn : Nat) (pv sign : Nat) (s : State)
    (hf : env.fails .GetProposal = false)
    (hcv : ∃ msg, checkVerifier env caller vote.VoteNodeID bh bn s = (.error (.biz msg), s)) :
    ∃ msg, Vote env caller vote bh bn pv sign s = (.error (.biz msg), s) := by
  unfold Vote
  by_cases h0 : vote.ProposalID = ZeroHash ∨ vote.VoteOption = 0
  · rw [if_pos h0]; exact ⟨_, rfl⟩
  · rw [if_neg h0]
    simp only [bind_run, GetProposal, gwRead_run, hf]
    cases hp : findProposal vote.ProposalID s with
    | none => exact ⟨_, rfl⟩
    | some p =>
      obtain ⟨msg, hmsg⟩ := hcv
      simp only [bind_run, hmsg]
      exact ⟨_, rfl⟩

theorem Vote_run_bad_option (env : Env) (caller : Address) (vote : GovVote) (bh : Hash)
    (bn : Nat) (pv sign : Nat) (s : State)
    (hf : env.fails .GetProposal = false) (hstk : env.stkFails .GetVerifierList = false)
    (hr : ¬ (Yes ≤ vote.VoteOption ∧ vote.VoteOption ≤ Abstention)) :
    ∃ msg, Vote env caller vote bh bn pv sign s = (.error (.biz msg), s) := by
  rcases checkVerifier_cases env caller vote.VoteNodeID bh bn s hstk with hok | herr
  · unfold Vote
    by_cases h0 : vote.ProposalID = ZeroHash ∨ vote.VoteOption = 0
    · rw [if_pos h0]; exact ⟨_, rfl⟩
    · rw [if_neg h0]
      simp only [bind_run, GetProposal, gwRead_run, hf]
      cases hp : findProposal vote.ProposalID s with
      | none => exact ⟨_, rfl⟩
      | some p =>
        have hrange : (!(decide (vote.VoteOption ≥ Yes) && decide (vote.VoteOption ≤ Abstention)))
            = true := by
          by_cases h1 : Yes ≤ vote.VoteOption
          · by_cases h2 : vote.VoteOption ≤ Abstention
            · exact absurd ⟨h1, h2⟩ hr
            · simp [h2]
          · simp [h1]
        simp only [bind_run, hok]
        rw [if_pos hrange]
        exact ⟨_, rfl⟩
  · exact Vote_run_no_verifier env caller vote bh bn pv sign s hf herr

/-- C13: `Vote` returns a business error and leaves the whole state unchanged (1) when
ProposalID is the zero hash or VoteOption is 0, and, the gateway read of the proposal and the
verifier listing not failing, (2) when VoteOption is outside Yes = 1 .. Abstention = 3, and
(3) when no entry of the current verifier list has the voting node's ID together with a staking
address equal to the caller. -/
theorem C13_Vote_rejects_bad_parameters (env : Env) (caller : Address) (vote : GovVote)
    (bh : Hash) (bn : Nat) (pv sign : Nat) (s : State) :
    (vote.ProposalID = ZeroHash ∨ vote.VoteOption = 0 →
      Vote env caller vote bh bn pv sign s =
        (.error (.biz "empty parameter detected."), s)) ∧
    (env.fails .GetProposal = false → env.stkFails .GetVerifierList = false →
      ¬ (Yes ≤ vote.VoteOption ∧ vote.VoteOption ≤ Abstention) →
      ∃ msg, Vote env caller vote bh bn pv sign s = (.error (.biz msg), s)) ∧
    (env.fails .GetProposal = false → env.stkFails .GetVerifierList = false →
      (¬ ∃ v, some v ∈ env.GetVerifierList bh bn ∧ v.NodeId = vote.VoteNodeID ∧
        v.StakingAddress = caller) →
      ∃ msg, Vote env caller vote bh bn pv sign s = (.error (.biz msg), s)) := by
  refine ⟨?_, ?_, ?_⟩
  · intro h0
    unfold Vote
    rw [if_pos h0]
    rfl
  · intro hf hstk hr
    exact Vote_run_bad_option env caller vote bh bn pv sign s hf hstk hr
  · intro hf hstk hno
    apply Vote_run_no_verifier env caller vote bh bn pv sign s hf
    have h : checkVerifier env caller vote.VoteNodeID bh bn s =
        checkVerifier_loop env caller vote.VoteNodeID bh (env.GetVerifierList bh bn) s := by
      simp [checkVerifier, bind_run, stkRead_run, hstk]
    rw [h]
    exact checkVerifier_loop_not_owner env caller vote.VoteNodeID bh _ s hno

theorem C13_Vote_rejects_bad_parameters_witness :
    Vote exEnv 102 ⟨0, 2, Yes⟩ 0 50 0 0 stVoting =
      (.error (.biz "empty parameter detected."), stVoting) ∧
    (∃ msg, Vote exEnv 102 ⟨17, 2, 4⟩ 0 50 0 0 stVoting = (.error (.biz msg), stVoting)) ∧
    (∃ msg, Vote exEnv 999 ⟨17, 2, Yes⟩ 0 50 0 0 stVoting = (.error (.biz msg), stVoting)) :=
  ⟨(C13_Vote_rejects_bad_parameters exEnv 102 ⟨0, 2, Yes⟩ 0 50 0 0 stVoting).1 (Or.inl rfl),
   (C13_Vote_rejects_bad_parameters exEnv 102 ⟨17, 2, 4⟩ 0 50 0 0 stVoting).2.1 rfl rfl
     (by decide),
   (C13_Vote_rejects_bad_parameters exEnv 999 ⟨17, 2, Yes⟩ 0 50 0 0 stVoting).2.2 rfl rfl
     (by
       rintro ⟨v, hv, h1, h2⟩
       simp only [exEnv, List.mem_cons, Option.some.injEq, List.mem_singleton,
         List.not_mem_nil, or_false] at hv
       rcases hv with rfl | rfl | rfl | rfl <;> simp at h2)⟩

theorem withVote_votes_of_not_voted (s : State) (vote : GovVote)
    (hnv : vote.VoteNodeID ∉ votedVerifiers s vote.ProposalID) :
    (withVote s vote).Votes = s.Votes ++ [vote] := by
  have hfil : s.Votes.filter
      (fun v => !(v.ProposalID == vote.ProposalID && v.VoteNodeID == vote.VoteNodeID)) =
      s.Votes := by
    rw [List.filter_eq_self]
    intro a ha
    by_cases h1 : a.ProposalID = vote.ProposalID
    · by_cases h2 : a.VoteNodeID = vote.VoteNodeID
      · exfalso
        apply hnv
        unfold votedVerifiers
        rw [List.mem_map]
        exact ⟨a, List.mem_filter.2 ⟨ha, by simp [h1]⟩, h2⟩
      · simp [h2]
    · simp [h1]
  simp only [withVote, hfil]

theorem mem_votedVerifiers_withVote (s : State) (vote : GovVote) :
    vote.VoteNodeID ∈ votedVerifiers (withVote s vote) vote.ProposalID := by
  unfold votedVerifiers withVote
  rw [List.mem_map]
  refine ⟨⟨vote.ProposalID, vote.VoteNodeID, vote.VoteOption⟩, ?_, rfl⟩
  rw [List.mem_filter]
  exact ⟨List.mem_append_right _ (List.mem_singleton.2 rfl), by simp⟩

theorem mem_votesOf_withVote (s : State) (vote : GovVote) :
    ({ VoteNodeID := vote.VoteNodeID, VoteOption := vote.VoteOption } : VoteValue) ∈
      votesOf (withVote s vote) vote.ProposalID := by
  unfold votesOf withVote
  rw [List.mem_map]
  refine ⟨⟨vote.ProposalID, vote.VoteNodeID, vote.VoteOption⟩, ?_, rfl⟩
  rw [List.mem_filter]
  exact ⟨List.mem_append_right _ (List.mem_singleton.2 rfl), by simp⟩

theorem mem_activeNodes_withActiveNode (s : State) (id : Hash) (n : NodeID) :
    n ∈ (withActiveNode s id n).ActiveNodes id := by
  unfold withActiveNode
  by_cases h : InNodeIDList n (s.ActiveNodes id) = true
  · rw [if_pos h]; exact (InNodeIDList_iff _ _).1 h
  · rw [if_neg h]; simp [setAt]

theorem activeNodes_withActiveNode_other (s : State) (id other : Hash) (n : NodeID)
    (h : other ≠ id) : (withActiveNode s id n).ActiveNodes other = s.ActiveNodes other := by
  unfold withActiveNode
  split_ifs
  · rfl
  · simp [setAt, h]

theorem withActiveNode_rest (s : State) (id : Hash) (n : NodeID) :
    (withActiveNode s id n).Votes = s.Votes ∧
    (withActiveNode s id n).Proposals = s.Proposals ∧
    (withActiveNode s id n).VotingList = s.VotingList := by
  unfold withActiveNode
  split_ifs <;> exact ⟨rfl, rfl, rfl⟩

theorem Vote_run_success (env : Env) (caller : Address) (vote : GovVote) (bh : Hash)
    (bn : Nat) (pv sign : Nat) (s : State) (p : Proposal)
    (hf : ∀ op, env.fails op = false)
    (h0 : vote.ProposalID ≠ ZeroHash) (h1 : vote.VoteOption ≠ 0)
    (hp : findProposal vote.ProposalID s = some p)
    (hcv : checkVerifier env caller vote.VoteNodeID bh bn s = (.ok (), s))
    (hr : Yes ≤ vote.VoteOption ∧ vote.VoteOption ≤ Abstention)
    (hvc : Vote_versionChecks env p vote pv sign s = (.ok (), s))
    (hin : vote.ProposalID ∈ s.VotingList)
    (hnv : vote.VoteNodeID ∉ votedVerifiers s vote.ProposalID) :
    Vote env caller vote bh bn pv sign s =
      (.ok (),
        if p.GetProposalType = ProposalType.Version then
          withActiveNode (withVote s vote) vote.ProposalID vote.VoteNodeID
        else withVote s vote) := by
  rw [Vote_run_checked env caller vote bh bn pv sign s p (hf _) (hf _) (hf _) h0 h1 hp hcv hr hvc
    hin, if_neg hnv]
  by_cases hty : p.GetProposalType = ProposalType.Version
  · simp only [bind_run, SetVote, gwWrite_run, hf, hty, if_true, AddActiveNode]
    rfl
  · simp only [bind_run, SetVote, gwWrite_run, hf, hty, if_false]
    rfl

/-- C14: when every voting rule is satisfied (non-empty parameters, stored proposal p, verifier
check, option range, version checks, p in the VotingList, voter not yet in VotedVerifiers(p))
and no gateway operation fails, `Vote` returns no error and afterwards the vote
(ProposalID, VoteNodeID, VoteOption) is the last stored vote, the voter is in VotedVerifiers(p)
and its vote value among the vote values of p; if the type of p is Version the voter is in
ActiveNodes(p) and the other ActiveNodes sets are unchanged; if the type is not Version (Text,
Cancel) every ActiveNodes set is unchanged. -/
theorem C14_Vote_records_vote (env : Env) (caller : Address) (vote : GovVote) (bh : Hash)
    (bn : Nat) (pv sign : Nat) (s : State) (p : Proposal)
    (hf : ∀ op, env.fails op = false)
    (h0 : vote.ProposalID ≠ ZeroHash) (h1 : vote.VoteOption ≠ 0)
    (hp : findProposal vote.ProposalID s = some p)
    (hcv : checkVerifier env caller vote.VoteNodeID bh bn s = (.ok (), s))
    (hr : Yes ≤ vote.VoteOption ∧ vote.VoteOption ≤ Abstention)
    (hvc : Vote_versionChecks env p vote pv sign s = (.ok (), s))
    (hin : vote.ProposalID ∈ s.VotingList)
    (hnv : vote.VoteNodeID ∉ votedVerifiers s vote.ProposalID) :
    (Vote env caller vote bh bn pv sign s).1 = .ok () ∧
    (Vote env caller vote bh bn pv sign s).2.Votes = s.Votes ++ [vote] ∧
    vote.VoteNodeID ∈ votedVerifiers (Vote env caller vote bh bn pv sign s).2 vote.ProposalID ∧
    ({ VoteNodeID := vote.VoteNodeID, VoteOption := vote.VoteOption } : VoteValue) ∈
      votesOf (Vote env caller vote bh bn pv sign s).2 vote.ProposalID ∧
    (p.GetProposalType = ProposalType.Version →
      vote.VoteNodeID ∈ (Vote env caller vote bh bn pv sign s).2.ActiveNodes vote.ProposalID ∧
      ∀ other, other ≠ vote.ProposalID →
        (Vote env caller vote bh bn pv sign s).2.ActiveNodes other = s.ActiveNodes other) ∧
    (p.GetProposalType ≠ ProposalType.Version →
      (Vote env caller vote bh bn pv sign s).2.ActiveNodes = s.ActiveNodes) := by
  rw [Vote_run_success env caller vote bh bn pv sign s p hf h0 h1 hp hcv hr hvc hin hnv]
  by_cases hty : p.GetProposalType = ProposalType.Version
  · rw [if_pos hty]
    have hrest := withActiveNode_rest (withVote s vote) vote.ProposalID vote.VoteNodeID
    refine ⟨rfl, ?_, ?_, ?_, ?_, ?_⟩
    · show (withActiveNode (withVote s vote) vote.ProposalID vote.VoteNodeID).Votes = _
      rw [hrest.1]; exact withVote_votes_of_not_voted s vote hnv
    · show vote.VoteNodeID ∈
        votedVerifiers (withActiveNode (withVote s vote) vote.ProposalID vote.VoteNodeID) _
      unfold votedVerifiers; rw [hrest.1]; exact mem_votedVerifiers_withVote s vote
    · show _ ∈ votesOf (withActiveNode (withVote s vote) vote.ProposalID vote.VoteNodeID) _
      unfold votesOf; rw [hrest.1]; exact mem_votesOf_withVote s vote
    · intro _
      refine ⟨mem_activeNodes_withActiveNode _ _ _, ?_⟩
      intro other hne
      show (withActiveNode (withVote s vote) vote.ProposalID vote.VoteNodeID).ActiveNodes other
        = _
      rw [activeNodes_withActiveNode_other _ _ _ _ hne]
      rfl
    · intro h; exact absurd hty h
  · rw [if_neg hty]
    refine ⟨rfl, withVote_votes_of_not_voted s vote hnv, mem_votedVerifiers_withVote s vote,
      mem_votesOf_withVote s vote, ?_, ?_⟩
    · intro h; exact absurd h hty
    · intro _; rfl

theorem C11_Vote_version_rules_witness :
    (∃ msg, Vote exEnv 102 ⟨18, 2, No⟩ 0 50 66048 2 stVoting = (.error (.biz msg), stVoting)) ∧
    (∃ msg, Vote exEnv 102 ⟨18, 2, Yes⟩ 0 50 66049 2 stVoting = (.error (.biz msg), stVoting)) ∧
    (∃ msg, Vote exEnv 102 ⟨18, 2, Yes⟩ 0 50 66048 3 stVoting = (.error (.biz msg), stVoting)) ∧
    ((Vote exEnv 102 ⟨18, 2, Yes⟩ 0 50 66048 2 stVoting).1 = .ok () ∧
      (66048 : Nat) = vp18.NewVersion ∧ exEnv.IsSignedByNodeID 66048 2 2 = true) :=
  ⟨(C11_Vote_version_rules exEnv 102 ⟨18, 2, No⟩ 0 50 66048 2 stVoting vp18 rfl rfl rfl rfl).2
      (by decide),
   (C11_Vote_version_rules exEnv 102 ⟨18, 2, Yes⟩ 0 50 66049 2 stVoting vp18 rfl rfl rfl rfl).2
      (by decide),
   (C11_Vote_version_rules exEnv 102 ⟨18, 2, Yes⟩ 0 50 66048 3 stVoting vp18 rfl rfl rfl rfl).2
      (by decide),
   rfl,
   ((C11_Vote_version_rules exEnv 102 ⟨18, 2, Yes⟩ 0 50 66048 2 stVoting vp18 rfl rfl rfl rfl).1
      rfl).2⟩

theorem C12_Vote_duplicate_rejected_witness :
    (1 : NodeID) ∈ votedVerifiers stVoting 18 ∧
    Vote exEnv 101 ⟨18, 1, Yes⟩ 0 50 66048 1 stVoting =
      (.error (.biz "node has voted this proposal."), stVoting) :=
  ⟨by decide,
   C12_Vote_duplicate_rejected exEnv 101 ⟨18, 1, Yes⟩ 0 50 66048 1 stVoting (.version vp18)
     rfl rfl rfl (by decide) (by decide) rfl rfl (by decide) rfl (by decide) (by decide)⟩

theorem C14_Vote_records_vote_witness :
    ((Vote exEnv 102 ⟨18, 2, Yes⟩ 0 50 66048 2 stVoting).1 = .ok () ∧
      (Vote exEnv 102 ⟨18, 2, Yes⟩ 0 50 66048 2 stVoting).2.Votes =
        [⟨17, 1, No⟩, ⟨18, 1, Yes⟩, ⟨18, 2, Yes⟩] ∧
      (2 : NodeID) ∈ (Vote exEnv 102 ⟨18, 2, Yes⟩ 0 50 66048 2 stVoting).2.ActiveNodes 18) ∧
    ((Vote exEnv 102 ⟨17, 2, No⟩ 0 50 0 0 stVoting).1 = .ok () ∧
      (Vote exEnv 102 ⟨17, 2, No⟩ 0 50 0 0 stVoting).2.Votes =
        [⟨17, 1, No⟩, ⟨18, 1, Yes⟩, ⟨17, 2, No⟩] ∧
      (Vote exEnv 102 ⟨17, 2, No⟩ 0 50 0 0 stVoting).2.ActiveNodes = stVoting.ActiveNodes) := by
  have hv := C14_Vote_records_vote exEnv 102 ⟨18, 2, Yes⟩ 0 50 66048 2 stVoting (.version vp18)
    exEnv_fails (by decide) (by decide) rfl rfl (by decide) rfl (by decide) (by decide)
  have ht := C14_Vote_records_vote exEnv 102 ⟨17, 2, No⟩ 0 50 0 0 stVoting
    (.text ⟨17, .Text, 1, 10, 100⟩)
    exEnv_fails (by decide) (by decide) rfl rfl (by decide) rfl (by decide) (by decide)
  exact ⟨⟨hv.1, hv.2.1, (hv.2.2.2.2.1 rfl).1⟩, ⟨ht.1, ht.2.1, ht.2.2.2.2.2 (by decide)⟩⟩

theorem checkCandidate_loop_cases (caller : Address) (nodeID : NodeID) (l : List Candidate)
    (s : State) :
    checkCandidate_loop caller nodeID l s = (.ok (), s) ∨
    ∃ msg, checkCandidate_loop caller nodeID l s = (.error (.biz msg), s) := by
  induction l with
  | nil => exact Or.inr ⟨_, rfl⟩
  | cons c rest ih =>
    unfold checkCandidate_loop
    by_cases hn : c.NodeId = nodeID
    · rw [if_pos hn]
      by_cases ha : c.StakingAddress = caller
      · rw [if_pos ha]; exact Or.inl rfl
      · rw [if_neg ha]; exact Or.inr ⟨_, rfl⟩
    · rw [if_neg hn]; exact ih

theorem checkCandidate_cases (env : Env) (caller : Address) (nodeID : NodeID) (bh : Hash)
    (bn : Nat) (s : State) (hstk : env.stkFails .GetCandidateList = false) :
    checkCandidate env caller nodeID bh bn s = (.ok (), s) ∨
    ∃ msg, checkCandidate env caller nodeID bh bn s = (.error (.biz msg), s) := by
  have h : checkCandidate env caller nodeID bh bn s =
      checkCandidate_loop caller nodeID (env.GetCandidateList bh bn) s := by
    simp [checkCandidate, bind_run, stkRead_run, hstk]
  rw [h]
  exact checkCandidate_loop_cases caller nodeID _ s

theorem DeclareVersion_run_checked (env : Env) (caller : Address) (node : NodeID) (d sign : Nat)
    (bh : Hash) (bn : Nat) (s : State)
    (hfind : env.fails .FindVotingVersionProposal = false)
    (hsig : env.IsSignedByNodeID d sign node = true)
    (hcand : checkCandidate env caller node bh bn s = (.ok (), s))
    (hA : GetCurrentActiveVersion s ≠ 0) :
    DeclareVersion env caller node d sign bh bn s =
      DeclareVersion_decide env node d bh bn (GetCurrentActiveVersion s)
        (firstVersionProposal s s.VotingList) s := by
  have hA0 : ¬ GetCurrentActiveVersion s ≤ 0 := by omega
  unfold DeclareVersion
  simp only [hsig, Bool.not_true, Bool.false_eq_true, if_false, bind_run, hcand, hA0,
    FindVotingVersionProposal, gwRead_run, hfind]
  unfold DeclareVersion_decide
  cases firstVersionProposal s s.VotingList <;> rfl

theorem DeclareVersion_prefix_cases (env : Env) (caller : Address) (node : NodeID) (d sign : Nat)
    (bh : Hash) (bn : Nat) (s : State)
    (hstk : env.stkFails .GetCandidateList = false) :
    (∃ msg, DeclareVersion env caller node d sign bh bn s = (.error (.biz msg), s)) ∨
    (env.IsSignedByNodeID d sign node = true ∧
      checkCandidate env caller node bh bn s = (.ok (), s) ∧
      GetCurrentActiveVersion s ≠ 0) := by
  by_cases hsig : env.IsSignedByNodeID d sign node = true
  · rcases checkCandidate_cases env caller node bh bn s hstk with hok | ⟨msg, herr⟩
    · by_cases hA : GetCurrentActiveVersion s = 0
      · left
        unfold DeclareVersion
        simp only [hsig, Bool.not_true, Bool.false_eq_true, if_false, bind_run, hok, hA,
          le_refl, if_true]
        exact ⟨_, rfl⟩
      · exact Or.inr ⟨hsig, hok, hA⟩
    · left
      unfold DeclareVersion
      simp only [hsig, Bool.not_true, Bool.false_eq_true, if_false, bind_run, herr]
      exact ⟨_, rfl⟩
  · left
    unfold DeclareVersion
    have : (!env.IsSignedByNodeID d sign node) = true := by simpa using hsig
    rw [if_pos this]
    exact ⟨_, rfl⟩

theorem replaceErr_notify_run (env : Env) (n : StkNote) (e : Err) (s : State)
    (h : env.stkFails .DeclarePromoteNotify = false) :
    Gov.replaceErr (stkNotify env .DeclarePromoteNotify n) e s =
      (.ok (), { s with Notified := s.Notified ++ [n] }) := by
  simp [Gov.replaceErr, stkNotify, h]

theorem replaceErr_notify_fail (env : Env) (n : StkNote) (e : Err) (s : State)
    (h : env.stkFails .DeclarePromoteNotify = true) :
    Gov.replaceErr (stkNotify env .DeclarePromoteNotify n) e s = (.error e, s) := by
  simp [Gov.replaceErr, stkNotify, h]

theorem AddActiveNode_run (env : Env) (id : Hash) (n : NodeID) (s : State)
    (h : env.fails .AddActiveNode = false) :
    AddActiveNode env id n s = (.ok (), withActiveNode s id n) := by
  simp only [AddActiveNode, gwWrite_run, h]
  rfl

/-- C15 as amended: when a voting version proposal V exists, the declared version d matches
V.NewVersion on its high 24 bits and does not match the current active version A on its high
24 bits (signature valid, caller a candidate owning the node's staking address, A non-zero,
gateway not failing), `DeclareVersion` returns no error and adds the declared node to
ActiveNodes(V), changing nothing else. -/
theorem C15_DeclareVersion_new_version_adds_active_node (env : Env) (caller : Address)
    (node : NodeID) (d sign : Nat) (bh : Hash) (bn : Nat) (s : State) (V : VersionProposal)
    (hfind : env.fails .FindVotingVersionProposal = false)
    (hadd : env.fails .AddActiveNode = false)
    (hsig : env.IsSignedByNodeID d sign node = true)
    (hcand : checkCandidate env caller node bh bn s = (.ok (), s))
    (hA : GetCurrentActiveVersion s ≠ 0)
    (hV : firstVersionProposal s s.VotingList = some V)
    (hnew : d / 256 = V.NewVersion / 256)
    (hnotA : d / 256 ≠ GetCurrentActiveVersion s / 256) :
    DeclareVersion env caller node d sign bh bn s =
      (.ok (), withActiveNode s V.ProposalID node) ∧
    node ∈ (DeclareVersion env caller node d sign bh bn s).2.ActiveNodes V.ProposalID ∧
    (DeclareVersion env caller node d sign bh bn s).2.Notified = s.Notified := by
  have hrun : DeclareVersion env caller node d sign bh bn s =
      (.ok (), withActiveNode s V.ProposalID node) := by
    rw [DeclareVersion_run_checked env caller node d sign bh bn s hfind hsig hcand hA, hV]
    unfold DeclareVersion_decide
    simp only
    rw [if_neg hnotA, if_pos hnew]
    exact AddActiveNode_run env _ _ s hadd
  refine ⟨hrun, ?_, ?_⟩
  · rw [hrun]; exact mem_activeNodes_withActiveNode _ _ _
  · rw [hrun]
    show (withActiveNode s V.ProposalID node).Notified = s.Notified
    unfold withActiveNode
    split_ifs <;> rfl

/-- C16: when a voting version proposal V exists and the declared version d matches the active
version A on its high 24 bits: (1) if the declarer is in VotedVerifiers(V) and d differs from
V.NewVersion, `DeclareVersion` returns a business error and leaves the whole state unchanged
(no staking notification, ActiveNodes(V) as before), the candidate listing and the gateway
reads not failing; (2) if the declarer has not voted on V (signature valid, caller a candidate
owning the staking address, A non-zero, notification not failing), staking receives exactly the
call `DeclarePromoteNotify(blockHash, blockNumber, declaredNodeID, d)` and nothing else
changes. -/
theorem C16_DeclareVersion_voted_wrong_version (env : Env) (caller : Address)
    (node : NodeID) (d sign : Nat) (bh : Hash) (bn : Nat) (s : State) (V : VersionProposal)
    (hfind : env.fails .FindVotingVersionProposal = false)
    (hlist : env.fails .ListVotedVerifier = false)
    (hV : firstVersionProposal s s.VotingList = some V)
    (hact : d / 256 = GetCurrentActiveVersion s / 256) :
    (env.stkFails .GetCandidateList = false → node ∈ votedVerifiers s V.ProposalID →
      d ≠ V.NewVersion →
      ∃ msg, DeclareVersion env caller node d sign bh bn s = (.error (.biz msg), s)) ∧
    (env.IsSignedByNodeID d sign node = true →
      checkCandidate env caller node bh bn s = (.ok (), s) →
      GetCurrentActiveVersion s ≠ 0 → env.stkFails .DeclarePromoteNotify = false →
      node ∉ votedVerifiers s V.ProposalID →
      DeclareVersion env caller node d sign bh bn s =
        (.ok (), { s with Notified := s.Notified ++ [.DeclarePromote bh bn node d] })) := by
  constructor
  · intro hstk hvoted hne
    rcases DeclareVersion_prefix_cases env caller node d sign bh bn s hstk with herr |
      ⟨hsig, hcand, hA⟩
    · exact herr
    · rw [DeclareVersion_run_checked env caller node d sign bh bn s hfind hsig hcand hA, hV]
      unfold DeclareVersion_decide
      simp only
      rw [if_pos hact]
      simp only [bind_run, ListVotedVerifier, gwRead_run, hlist]
      have hin : InNodeIDList node
          ((s.Votes.filter (fun v => v.ProposalID == V.ProposalID)).map
            (fun v => v.VoteNodeID)) = true := (InNodeIDList_iff _ _).2 hvoted
      rw [hin]
      simp only [Bool.true_and, decide_eq_true_eq]
      rw [if_pos hne]
      exact ⟨_, rfl⟩
  · intro hsig hcand hA hnot hnv
    rw [DeclareVersion_run_checked env caller node d sign bh bn s hfind hsig hcand hA, hV]
    unfold DeclareVersion_decide
    simp only
    rw [if_pos hact]
    simp only [bind_run, ListVotedVerifier, gwRead_run, hlist]
    have hin : InNodeIDList node
        ((s.Votes.filter (fun v => v.ProposalID == V.ProposalID)).map
          (fun v => v.VoteNodeID)) = false := by
      cases h : InNodeIDList node
          ((s.Votes.filter (fun v => v.ProposalID == V.ProposalID)).map
            (fun v => v.VoteNodeID)) with
      | false => rfl
      | true => exact absurd ((InNodeIDList_iff _ _).1 h) hnv
    rw [hin]
    simp only [Bool.false_and, Bool.false_eq_true, if_false]
    exact replaceErr_notify_run env _ _ s hnot

/-- C15 fails as stated: version 0x010100 is active and the voting version proposal 38 has
NewVersion 0x010101, so the declared version 0x010101 matches V.NewVersion on its high 24 bits
(signature valid, caller 102 the candidate owning node 2, active version non-zero); it also
matches the active version on its high 24 bits, `DeclareVersion` takes that branch, notifies
staking and returns no error, and node 2 is not added to ActiveNodes(38). -/
theorem C15_counterexample_patch_upgrade :
    firstVersionProposal stPatch stPatch.VotingList = some vp38 ∧
    65793 / 256 = vp38.NewVersion / 256 ∧
    exEnv.IsSignedByNodeID 65793 2 2 = true ∧
    checkCandidate exEnv 102 2 0 50 stPatch = (.ok (), stPatch) ∧
    GetCurrentActiveVersion stPatch ≠ 0 ∧
    (DeclareVersion exEnv 102 2 65793 2 0 50 stPatch).1 = .ok () ∧
    (2 : NodeID) ∉ (DeclareVersion exEnv 102 2 65793 2 0 50 stPatch).2.ActiveNodes 38 ∧
    (DeclareVersion exEnv 102 2 65793 2 0 50 stPatch).2.Notified =
      [.DeclarePromote 0 50 2 65793] := by
  refine ⟨rfl, by decide, rfl, rfl, by decide, rfl, ?_, rfl⟩
  show (2 : NodeID) ∉ ([] : List NodeID)
  simp

theorem C15_DeclareVersion_new_version_adds_active_node_witness :
    DeclareVersion exEnv 102 2 66049 2 0 50 stVoting =
      (.ok (), withActiveNode stVoting 18 2) ∧
    (2 : NodeID) ∈ (DeclareVersion exEnv 102 2 66049 2 0 50 stVoting).2.ActiveNodes 18 :=
  ⟨(C15_DeclareVersion_new_version_adds_active_node exEnv 102 2 66049 2 0 50 stVoting vp18
      rfl rfl rfl rfl (by decide) rfl (by decide) (by decide)).1,
   (C15_DeclareVersion_new_version_adds_active_node exEnv 102 2 66049 2 0 50 stVoting vp18
      rfl rfl rfl rfl (by decide) rfl (by decide) (by decide)).2.1⟩

theorem C16_DeclareVersion_voted_wrong_version_witness :
    (∃ msg, DeclareVersion exEnv 101 1 65793 1 0 50 stVoting =
      (.error (.biz msg), stVoting)) ∧
    DeclareVersion exEnv 102 2 65793 2 0 50 stVoting =
      (.ok (), { stVoting with Notified := [.DeclarePromote 0 50 2 65793] }) :=
  ⟨(C16_DeclareVersion_voted_wrong_version exEnv 101 1 65793 1 0 50 stVoting vp18 rfl rfl rfl
      (by decide)).1 rfl (by decide) (by decide),
   (C16_DeclareVersion_voted_wrong_version exEnv 102 2 65793 2 0 50 stVoting vp18 rfl rfl rfl
      (by decide)).2 rfl rfl (by decide) rfl (by decide)⟩

/-- C17 fails as stated: (1) version 0x010100 is active, version proposal 18 is voting and node
1 has voted on it; node 1 declares 0x010101, which differs from the active version only in the
patch byte, with a valid signature and its staking address 101 as caller, and `DeclareVersion`
returns the business error "declared version should be same as proposal's version"; (2) with
no active version (A = 0) the declared version 5 matches A on its high 24 bits and
`DeclareVersion` returns the business error "wrong current active version.". -/
theorem C17_counterexample_voted_declarer :
    (GetCurrentActiveVersion stVoting = 65792 ∧ 65793 / 256 = 65792 / 256 ∧
      exEnv.IsSignedByNodeID 65793 1 1 = true ∧
      checkCandidate exEnv 101 1 0 50 stVoting = (.ok (), stVoting) ∧
      DeclareVersion exEnv 101 1 65793 1 0 50 stVoting =
        (.error (.biz "declared version should be same as proposal's version"), stVoting)) ∧
    (GetCurrentActiveVersion emptyState = 0 ∧ 5 / 256 = 0 / 256 ∧
      exEnv.IsSignedByNodeID 5 1 1 = true ∧
      checkCandidate exEnv 101 1 0 50 emptyState = (.ok (), emptyState) ∧
      DeclareVersion exEnv 101 1 5 1 0 50 emptyState =
        (.error (.biz "wrong current active version."), emptyState)) :=
  ⟨⟨rfl, by decide, rfl, rfl, rfl⟩, ⟨rfl, by decide, rfl, rfl, rfl⟩⟩

/-- C17 as amended: for every state whose current active version A is non-zero, a declared
version d with d>>8 == A>>8, a valid signature and a candidate caller owning the node's staking
address is accepted by `DeclareVersion` (it returns no error), unless a voting version proposal
V exists on which the declarer has voted and d differs from V.NewVersion; the gateway reads and
the staking notification are taken not to fail. -/
theorem C17_DeclareVersion_patch_of_active_accepted (env : Env) (caller : Address)
    (node : NodeID) (d sign : Nat) (bh : Hash) (bn : Nat) (s : State)
    (hfind : env.fails .FindVotingVersionProposal = false)
    (hlist : env.fails .ListVotedVerifier = false)
    (hnotify : env.stkFails .DeclarePromoteNotify = false)
    (hsig : env.IsSignedByNodeID d sign node = true)
    (hcand : checkCandidate env caller node bh bn s = (.ok (), s))
    (hA : GetCurrentActiveVersion s ≠ 0)
    (hact : d / 256 = GetCurrentActiveVersion s / 256)
    (hnot : ∀ V, firstVersionProposal s s.VotingList = some V →
      node ∈ votedVerifiers s V.ProposalID → d = V.NewVersion) :
    DeclareVersion env caller node d sign bh bn s =
      (.ok (), { s with Notified := s.Notified ++ [.DeclarePromote bh bn node d] }) := by
  rw [DeclareVersion_run_checked env caller node d sign bh bn s hfind hsig hcand hA]
  cases hV : firstVersionProposal s s.VotingList with
  | none =>
    unfold DeclareVersion_decide
    simp only [bind_run, GetPreActiveVersion]
    rw [if_pos (Or.inl hact)]
    exact replaceErr_notify_run env _ _ s hnotify
  | some V =>
    unfold DeclareVersion_decide
    simp only
    rw [if_pos hact]
    simp only [bind_run, ListVotedVerifier, gwRead_run, hlist]
    have hcond : ¬ ((InNodeIDList node
        ((s.Votes.filter (fun v => v.ProposalID == V.ProposalID)).map
          (fun v => v.VoteNodeID)) && decide (d ≠ V.NewVersion)) = true) := by
      intro h
      rw [Bool.and_eq_true, decide_eq_true_eq] at h
      exact h.2 (hnot V hV ((InNodeIDList_iff _ _).1 h.1))
    rw [if_neg hcond]
    exact replaceErr_notify_run env _ _ s hnotify

theorem C17_DeclareVersion_patch_of_active_accepted_witness :
    DeclareVersion exEnv 102 2 65793 2 0 50 stVoting =
      (.ok (), { stVoting with Notified := stVoting.Notified ++ [.DeclarePromote 0 50 2 65793] }) :=
  C17_DeclareVersion_patch_of_active_accepted exEnv 102 2 65793 2 0 50 stVoting rfl rfl rfl rfl
    rfl (by decide) (by decide)
    (by
      intro V hV hvoted
      have hV18 : V = vp18 := by
        have h : firstVersionProposal stVoting stVoting.VotingList = some vp18 := rfl
        rw [h] at hV
        exact (Option.some.inj hV).symm
      subst hV18
      exact absurd hvoted (by decide))

/-- C18: with the candidate listing and the lookup of the voting version proposal not failing,
`DeclareVersion` returns a business error and leaves the whole state unchanged (no staking
notification, no ActiveNodes change) when (1) a voting version proposal V exists and the
declared version d matches neither the active version A nor V.NewVersion on its high 24 bits,
and when (2) no version proposal is voting, d does not match A on its high 24 bits and the
pre-active version P is 0 or differs from d. -/
theorem C18_DeclareVersion_rejects_unmatched (env : Env) (caller : Address)
    (node : NodeID) (d sign : Nat) (bh : Hash) (bn : Nat) (s : State)
    (hstk : env.stkFails .GetCandidateList = false)
    (hfind : env.fails .FindVotingVersionProposal = false) :
    (∀ V, firstVersionProposal s s.VotingList = some V →
      d / 256 ≠ GetCurrentActiveVersion s / 256 → d / 256 ≠ V.NewVersion / 256 →
      ∃ msg, DeclareVersion env caller node d sign bh bn s = (.error (.biz msg), s)) ∧
    (firstVersionProposal s s.VotingList = none →
      d / 256 ≠ GetCurrentActiveVersion s / 256 →
      (GetPreActiveVersion s = 0 ∨ d ≠ GetPreActiveVersion s) →
      ∃ msg, DeclareVersion env caller node d sign bh bn s = (.error (.biz msg), s)) := by
  constructor
  · intro V hV hA hN
    rcases DeclareVersion_prefix_cases env caller node d sign bh bn s hstk with herr |
      ⟨hsig, hcand, hA0⟩
    · exact herr
    · rw [DeclareVersion_run_checked env caller node d sign bh bn s hfind hsig hcand hA0, hV]
      unfold DeclareVersion_decide
      simp only
      rw [if_neg hA, if_neg hN]
      exact ⟨_, rfl⟩
  · intro hV hA hP
    rcases DeclareVersion_prefix_cases env caller node d sign bh bn s hstk with herr |
      ⟨hsig, hcand, hA0⟩
    · exact herr
    · rw [DeclareVersion_run_checked env caller node d sign bh bn s hfind hsig hcand hA0, hV]
      unfold DeclareVersion_decide
      simp only [bind_run]
      have hcond : ¬ (d / 256 = GetCurrentActiveVersion s / 256 ∨
          (GetPreActiveVersion s ≠ 0 ∧ d = GetPreActiveVersion s)) := by
        rintro (h | ⟨h1, h2⟩)
        · exact hA h
        · rcases hP with h0 | hne
          · exact h1 h0
          · exact hne h2
      rw [if_neg hcond]
      exact ⟨_, rfl⟩

theorem C18_DeclareVersion_rejects_unmatched_witness :
    (∃ msg, DeclareVersion exEnv 102 2 66304 2 0 50 stVoting = (.error (.biz msg), stVoting)) ∧
    (∃ msg, DeclareVersion exEnv 102 2 66304 2 0 150 stPreActive =
      (.error (.biz msg), stPreActive)) :=
  ⟨(C18_DeclareVersion_rejects_unmatched exEnv 102 2 66304 2 0 50 stVoting rfl rfl).1 vp18 rfl
      (by decide) (by decide),
   (C18_DeclareVersion_rejects_unmatched exEnv 102 2 66304 2 0 150 stPreActive rfl rfl).2 rfl
      (by decide) (Or.inr (by decide))⟩

/-- C19 as amended: when the signature is valid, the caller is a candidate owning the node's
staking address, the active version A is non-zero, no version proposal is voting (the lookup not
failing) and the declared version d matches A on its high 24 bits or equals the non-zero
pre-active version P exactly: if the notification succeeds, `DeclareVersion` returns no error,
staking has received exactly one more call,
`DeclarePromoteNotify(blockHash, blockNumber, declaredNodeID, d)`, and nothing else of the
state has changed; if the notification fails, it returns the business error "notify staking of
declared node ID failed" and the state is unchanged. -/
theorem C19_DeclareVersion_no_voting_proposal_notifies (env : Env) (caller : Address)
    (node : NodeID) (d sign : Nat) (bh : Hash) (bn : Nat) (s : State)
    (hfind : env.fails .FindVotingVersionProposal = false)
    (hsig : env.IsSignedByNodeID d sign node = true)
    (hcand : checkCandidate env caller node bh bn s = (.ok (), s))
    (hA : GetCurrentActiveVersion s ≠ 0)
    (hV : firstVersionProposal s s.VotingList = none)
    (hd : d / 256 = GetCurrentActiveVersion s / 256 ∨
      (GetPreActiveVersion s ≠ 0 ∧ d = GetPreActiveVersion s)) :
    (env.stkFails .DeclarePromoteNotify = false →
      DeclareVersion env caller node d sign bh bn s =
        (.ok (), { s with Notified := s.Notified ++ [.DeclarePromote bh bn node d] })) ∧
    (env.stkFails .DeclarePromoteNotify = true →
      DeclareVersion env caller node d sign bh bn s =
        (.error (.biz "notify staking of declared node ID failed"), s)) := by
  have hrun : DeclareVersion env caller node d sign bh bn s =
      Gov.replaceErr
        (stkNotify env .DeclarePromoteNotify (.DeclarePromote bh bn node d))
        (.biz "notify staking of declared node ID failed") s := by
    rw [DeclareVersion_run_checked env caller node d sign bh bn s hfind hsig hcand hA, hV]
    unfold DeclareVersion_decide
    simp only [bind_run]
    rw [if_pos hd]
  constructor
  · intro h
    rw [hrun]; exact replaceErr_notify_run env _ _ s h
  · intro h
    rw [hrun]; exact replaceErr_notify_fail env _ _ s h

theorem C19_DeclareVersion_no_voting_proposal_notifies_witness :
    DeclareVersion exEnv 102 2 65793 2 0 150 stPreActive =
      (.ok (), { stPreActive with Notified := [.DeclarePromote 0 150 2 65793] }) ∧
    DeclareVersion exEnv 102 2 66048 2 0 150 stPreActive =
      (.ok (), { stPreActive with Notified := [.DeclarePromote 0 150 2 66048] }) ∧
    DeclareVersion exEnvNotifyFails 102 2 66048 2 0 150 stPreActive =
      (.error (.biz "notify staking of declared node ID failed"), stPreActive) :=
  ⟨(C19_DeclareVersion_no_voting_proposal_notifies exEnv 102 2 65793 2 0 150 stPreActive rfl rfl
      rfl (by decide) rfl (Or.inl (by decide))).1 rfl,
   (C19_DeclareVersion_no_voting_proposal_notifies exEnv 102 2 66048 2 0 150 stPreActive rfl rfl
      rfl (by decide) rfl (Or.inr ⟨by decide, by decide⟩)).1 rfl,
   (C19_DeclareVersion_no_voting_proposal_notifies exEnvNotifyFails 102 2 66048 2 0 150
      stPreActive rfl rfl rfl (by decide) rfl (Or.inr ⟨by decide, by decide⟩)).2 rfl⟩

theorem mem_mergeNodes (acc l : List NodeID) (v : NodeID) :
    v ∈ mergeNodes acc l ↔ v ∈ acc ∨ v ∈ l := by
  unfold mergeNodes
  induction l generalizing acc with
  | nil => simp
  | cons x xs ih =>
    rw [List.foldl_cons, ih]
    by_cases hx : InNodeIDList x acc = true
    · have hmem := (InNodeIDList_iff _ _).1 hx
      rw [if_pos hx]
      constructor
      · rintro (h | h)
        · exact Or.inl h
        · exact Or.inr (List.mem_cons_of_mem _ h)
      · rintro (h | h)
        · exact Or.inl h
        · rcases List.mem_cons.1 h with rfl | h
          · exact Or.inl hmem
          · exact Or.inr h
    · rw [if_neg hx]
      constructor
      · rintro (h | h)
        · rcases List.mem_append.1 h with h | h
          · exact Or.inl h
          · exact Or.inr (by rw [List.mem_singleton.1 h]; exact List.mem_cons_self _ _)
        · exact Or.inr (List.mem_cons_of_mem _ h)
      · rintro (h | h)
        · exact Or.inl (List.mem_append_left _ h)
        · rcases List.mem_cons.1 h with rfl | h
          · exact Or.inl (List.mem_append_right _ (List.mem_singleton.2 rfl))
          · exact Or.inr h

theorem settledAccu_not_mem (vl : List NodeID) (ids : List Hash) (f : Hash → List NodeID)
    (p : Hash) (hp : p ∉ ids) : settledAccu vl f ids p = f p := by
  induction ids generalizing f with
  | nil => rfl
  | cons id rest ih =>
    have hne : p ≠ id := fun e => hp (e ▸ List.mem_cons_self _ _)
    have hrest : p ∉ rest := fun h => hp (List.mem_cons_of_mem _ h)
    unfold settledAccu
    rw [ih _ hrest]
    simp [setAt, hne]

theorem mem_settledAccu (vl : List NodeID) (ids : List Hash) (f : Hash → List NodeID)
    (p : Hash) (v : NodeID) :
    v ∈ settledAccu vl f ids p ↔ v ∈ f p ∨ (p ∈ ids ∧ v ∈ vl) := by
  induction ids generalizing f with
  | nil => simp [settledAccu]
  | cons id rest ih =>
    unfold settledAccu
    rw [ih]
    by_cases hpid : p = id
    · subst hpid
      simp only [setAt, if_true, mem_mergeNodes, List.mem_cons, true_or, true_and]
      tauto
    · simp [setAt, hpid]

theorem EndBlock_settlement_run (env : Env) (vl : List NodeID) (ids : List Hash) (s : State)
    (hf : env.fails .AccuVerifiers = false) :
    EndBlock_settlement env vl ids s =
      (.ok (), { s with AccuVerifiers := settledAccu vl s.AccuVerifiers ids }) := by
  induction ids generalizing s with
  | nil => rfl
  | cons id rest ih =>
    unfold EndBlock_settlement
    simp only [bind_run, AccuVerifiers, gwWrite_run, hf]
    rw [ih]
    rfl

/-- C20: with the gateway listing of the VotingList not failing. (1) On a settlement block with
a non-empty VotingList (verifier listing and accumulation not failing) `EndBlock` returns no
error and changes only the accumulated verifiers: for every voting proposal p the new
AccuVerifiers(p) has exactly the members of the old AccuVerifiers(p) and of the current verifier
list, for every other ID it is unchanged; no tally runs, whatever the EndVotingBlock of the
proposals: VotingList, EndList, the PreActive slot and all tally results are unchanged. (2)
With an empty VotingList `EndBlock` returns no error and leaves the state unchanged. -/
theorem C20_EndBlock_settlement (env : Env) (bh : Hash) (bn : Nat) (s : State)
    (hlist : env.fails .ListVotingProposal = false) :
    (s.VotingList ≠ [] → env.IsSettlementPeriod bn = true →
      env.stkFails .ListVerifierNodeID = false → env.fails .AccuVerifiers = false →
      ∃ acc : Hash → List NodeID,
        EndBlock env bh bn s = (.ok (), { s with AccuVerifiers := acc }) ∧
        (∀ p ∈ s.VotingList, ∀ v,
          v ∈ acc p ↔ v ∈ s.AccuVerifiers p ∨ v ∈ env.ListVerifierNodeID bh bn) ∧
        (∀ p, p ∉ s.VotingList → acc p = s.AccuVerifiers p) ∧
        (EndBlock env bh bn s).2.VotingList = s.VotingList ∧
        (EndBlock env bh bn s).2.EndList = s.EndList ∧
        (EndBlock env bh bn s).2.PreActive = s.PreActive ∧
        (EndBlock env bh bn s).2.TallyResults = s.TallyResults) ∧
    (s.VotingList = [] → EndBlock env bh bn s = (.ok (), s)) := by
  constructor
  · intro hne hset hstk hacc
    have hlen : ¬ s.VotingList.length = 0 := by
      intro h; exact hne (List.length_eq_zero.1 h)
    have hrun : EndBlock env bh bn s = (.ok (),
        { s with
          AccuVerifiers := settledAccu (env.ListVerifierNodeID bh bn) s.AccuVerifiers s.VotingList
        }) := by
      unfold EndBlock
      simp only [bind_run, ListVotingProposal, gwRead_run, hlist]
      rw [if_neg hlen]
      simp only [bind_run, stkRead_run, hstk, hset, if_true]
      exact EndBlock_settlement_run env _ _ s hacc
    refine ⟨_, hrun, ?_, ?_, ?_, ?_, ?_, ?_⟩
    · intro p hp v
      rw [mem_settledAccu]
      constructor
      · rintro (h | ⟨_, h⟩)
        · exact Or.inl h
        · exact Or.inr h
      · rintro (h | h)
        · exact Or.inl h
        · exact Or.inr ⟨hp, h⟩
    · intro p hp
      exact settledAccu_not_mem _ _ _ _ hp
    all_goals rw [hrun]
  · intro hnil
    unfold EndBlock
    simp only [bind_run, ListVotingProposal, gwRead_run, hlist, hnil, List.length_nil, if_true]
    rfl

theorem C20_EndBlock_settlement_witness :
    (EndBlock exEnvSettlement 0 100 stVotingAccu).1 = .ok () ∧
    (EndBlock exEnvSettlement 0 100 stVotingAccu).2.AccuVerifiers 18 = [1, 2, 9, 3, 4] ∧
    (EndBlock exEnvSettlement 0 100 stVotingAccu).2.VotingList = [17, 18] ∧
    (EndBlock exEnvSettlement 0 100 stVotingAccu).2.TallyResults = [] ∧
    EndBlock exEnvSettlement 0 100 emptyState = (.ok (), emptyState) := by
  obtain ⟨acc, hrun, _, _, hvl, _, _, htr⟩ :=
    (C20_EndBlock_settlement exEnvSettlement 0 100 stVotingAccu rfl).1 (by decide) rfl rfl rfl
  exact ⟨by rw [hrun], rfl, hvl, htr,
    (C20_EndBlock_settlement exEnvSettlement 0 100 emptyState rfl).2 rfl⟩

/-! ## Frames: what the operations leave unchanged; claims about write failures, the return value of `tallyCancel` and the version history -/

theorem tallyCancel_run_failed (env : Env) (cp : CancelProposal) (bh : Hash) (bn : Nat)
    (s : State) (hf : ∀ op, env.fails op = false) (hN : accuCount s cp.ProposalID ≠ 0)
    (hfailed : tallyStatus env .Cancel
      (tallyVoteRate (countVotes (votesOf s cp.ProposalID)) (accuCount s cp.ProposalID))
      (tallySupportRate (countVotes (votesOf s cp.ProposalID)) (accuCount s cp.ProposalID))
        ≠ .Pass) :
    tallyCancel env cp bh bn s = (.ok true, (tally env .Cancel cp.ProposalID bh bn s).2) := by
  have hb : (tallyStatus env .Cancel
      (tallyVoteRate (countVotes (votesOf s cp.ProposalID)) (accuCount s cp.ProposalID))
      (tallySupportRate (countVotes (votesOf s cp.ProposalID)) (accuCount s cp.ProposalID))
        == Status.Pass) = false := by
    simpa using hfailed
  simp only [tallyCancel, bind_run, tally_run env .Cancel cp.ProposalID bh bn s hf hN, hb]
  rfl

/-- C27 (the code departs from the claim): cancel proposal 19 has five Yes votes of eight
accumulated verifiers, `tally` stores Status = Failed for it and returns `false`; `tallyCancel`
then falls through to its final `return true, nil` and returns pass = true with no error, where
the claim requires pass = false. -/
theorem C27_tallyCancel_returns_true_when_failed :
    (tally exEnv .Cancel 19 0 100 stBoundary).1 = .ok false ∧
    (findTallyResult 19 (tallyCancel exEnv cp19 0 100 stBoundary).2).map (fun t => t.Status) =
      some .Failed ∧
    (tallyCancel exEnv cp19 0 100 stBoundary).1 = .ok true := by
  have hN : accuCount stBoundary 19 = 8 := by decide
  have hc : countVotes (votesOf stBoundary 19) = { yeas := 5, nays := 0, abstentions := 0 } := by
    decide
  have hst : tallyStatus exEnv .Cancel (tallyVoteRate ⟨5, 0, 0⟩ 8) (tallySupportRate ⟨5, 0, 0⟩ 8)
      = .Failed := by
    norm_num [tallyStatus, tallyVoteRate, tallySupportRate, exEnv]
  have ht := tally_run exEnv .Cancel 19 0 100 stBoundary exEnv_fails (by rw [hN]; decide)
  rw [hc, hN, hst] at ht
  have hrun := tallyCancel_run_failed exEnv cp19 0 100 stBoundary exEnv_fails (by decide)
    (by rw [show cp19.ProposalID = 19 from rfl, hc, hN, hst]; decide)
  rw [hrun, show cp19.ProposalID = 19 from rfl, ht]
  exact ⟨rfl, by decide, rfl⟩

/-- C22 (the code departs from the claim): version proposal 18 is pre-active with ActiveBlock
250 and every current validator is an active node; at block 500, with the gateway write
`SetProposal` failing, `BeginBlock` logs the failure of re-persisting the proposal and goes on:
it returns no error, the stored proposal keeps ActiveBlock 250, and the later writes happen (the
PreActive slot is emptied, 18 is appended to the EndList, ActiveNodes(18) is cleared and the
record (66048, 500) is prepended to the version history). -/
theorem C22_BeginBlock_ignores_SetProposal_failure :
    exEnvSetProposalFails.fails .SetProposal = true ∧
    (SetProposal exEnvSetProposalFails (.version { vp18 with ActiveBlock := 500 })
      stPreActive).1 = .error (.store .SetProposal) ∧
    (BeginBlock exEnvSetProposalFails 0 500 stPreActive).1 = .ok () ∧
    findProposal 18 (BeginBlock exEnvSetProposalFails 0 500 stPreActive).2 =
      some (.version vp18) ∧
    (BeginBlock exEnvSetProposalFails 0 500 stPreActive).2.PreActive = ZeroHash ∧
    (BeginBlock exEnvSetProposalFails 0 500 stPreActive).2.EndList = [18] ∧
    (BeginBlock exEnvSetProposalFails 0 500 stPreActive).2.ActiveNodes 18 = [] ∧
    (BeginBlock exEnvSetProposalFails 0 500 stPreActive).2.ActiveVersions =
      [⟨66048, 500⟩, ⟨65792, 0⟩] :=
  ⟨rfl, rfl, rfl, rfl, rfl, rfl, rfl, rfl⟩

theorem keeps_pure {α β : Type} (g : State → β) (a : α) : Gov.Keeps g (pure a : Gov α) :=
  fun _ => rfl

theorem keeps_fail {α β : Type} (g : State → β) (e : Err) : Gov.Keeps g (Gov.fail e : Gov α) :=
  fun _ => rfl

theorem keeps_bind {α γ β : Type} (g : State → β) (m : Gov α) (f : α → Gov γ)
    (hm : Gov.Keeps g m) (hf : ∀ a, Gov.Keeps g (f a)) : Gov.Keeps g (m >>= f) := by
  intro s
  rw [bind_run]
  cases h : m s with
  | mk r s1 =>
    have h1 : g s1 = g s := by have := hm s; rw [h] at this; exact this
    cases r with
    | ok a => simp only; rw [hf a s1, h1]
    | error e => exact h1

theorem keeps_gwRead {α β : Type} (g : State → β) (env : Env) (op : GovOp) (f : State → α) :
    Gov.Keeps g (gwRead env op f) := by
  intro s; unfold gwRead; split <;> rfl

theorem keeps_gwWrite {β : Type} (g : State → β) (env : Env) (op : GovOp) (f : State → State)
    (h : ∀ s, g (f s) = g s) : Gov.Keeps g (gwWrite env op f) := by
  intro s; unfold gwWrite; split
  · rfl
  · exact h s

theorem keeps_stkRead {α β : Type} (g : State → β) (env : Env) (op : StkOp) (a : α) :
    Gov.Keeps g (stkRead env op a) := by
  intro s; unfold stkRead; split <;> rfl

theorem keeps_stkNotify {β : Type} (g : State → β) (env : Env) (op : StkOp) (n : StkNote)
    (h : ∀ s, g { s with Notified := s.Notified ++ [n] } = g s) :
    Gov.Keeps g (stkNotify env op n) := by
  intro s; unfold stkNotify; split
  · rfl
  · exact h s

theorem keeps_get {α β : Type} (g : State → β) (f : State → α) :
    Gov.Keeps g (fun s => (.ok (f s), s) : Gov α) := fun _ => rfl

theorem keeps_logOnly {β : Type} (g : State → β) (m : Gov Unit) (h : Gov.Keeps g m) :
    Gov.Keeps g (Gov.logOnly m) := fun s => h s

theorem keeps_replaceErr {α β : Type} (g : State → β) (m : Gov α) (e : Err)
    (h : Gov.Keeps g m) : Gov.Keeps g (Gov.replaceErr m e) := by
  intro s
  unfold Gov.replaceErr
  have := h s
  cases hm : m s with
  | mk r s1 =>
    rw [hm] at this
    cases r <;> exact this

theorem keeps_ite {α β : Type} (g : State → β) (c : Prop) [Decidable c] (m1 m2 : Gov α)
    (h1 : Gov.Keeps g m1) (h2 : Gov.Keeps g m2) : Gov.Keeps g (if c then m1 else m2) := by
  split
  · exact h1
  · exact h2

theorem keeps_GetExistProposal {β : Type} (g : State → β) (env : Env) (id : Hash) :
    Gov.Keeps g (GetExistProposal env id) := by
  intro s
  unfold GetExistProposal
  split
  · rfl
  · split <;> rfl

theorem keeps_checkVerifier_loop {β : Type} (g : State → β) (env : Env) (caller : Address)
    (nodeID : NodeID) (bh : Hash) (l : List (Option Verifier)) :
    Gov.Keeps g (checkVerifier_loop env caller nodeID bh l) := by
  intro s
  rcases checkVerifier_loop_cases env caller nodeID bh l s with h | ⟨msg, h⟩ <;> rw [h]

theorem keeps_checkVerifier {β : Type} (g : State → β) (env : Env) (caller : Address)
    (nodeID : NodeID) (bh : Hash) (bn : Nat) :
    Gov.Keeps g (checkVerifier env caller nodeID bh bn) := by
  unfold checkVerifier
  exact keeps_bind _ _ _ (keeps_stkRead _ _ _ _) (fun _ => keeps_checkVerifier_loop _ _ _ _ _ _)

theorem keeps_checkCandidate {β : Type} (g : State → β) (env : Env) (caller : Address)
    (nodeID : NodeID) (bh : Hash) (bn : Nat) :
    Gov.Keeps g (checkCandidate env caller nodeID bh bn) := by
  unfold checkCandidate
  refine keeps_bind _ _ _ (keeps_stkRead _ _ _ _) (fun l => ?_)
  intro s
  rcases checkCandidate_loop_cases caller nodeID l s with h | ⟨msg, h⟩ <;> rw [h]

theorem keeps_Vote_versionChecks {β : Type} (g : State → β) (env : Env) (p : Proposal)
    (vote : GovVote) (pv sign : Nat) : Gov.Keeps g (Vote_versionChecks env p vote pv sign) := by
  intro s
  rcases Vote_versionChecks_cases env p vote pv sign s with h | ⟨msg, h⟩ <;> rw [h]

theorem tally_keeps_history (env : Env) (ty : ProposalType) (id bh : Hash) (bn : Nat) :
    Gov.Keeps history (tally env ty id bh bn) := by
  simp only [tally, AccuVerifiersLength, ListVoteValue, MoveVotingProposalIDToEnd, SetTallyResult]
  repeat' first
    | exact keeps_pure _ _
    | exact keeps_fail _ _
    | exact keeps_gwRead _ _ _ _
    | exact keeps_gwWrite _ _ _ _ (fun _ => rfl)
    | apply keeps_bind
    | apply keeps_ite
    | intro _

theorem tallyVersion_keeps_history (env : Env) (p : VersionProposal) (bh : Hash) (bn : Nat) :
    Gov.Keeps history (tallyVersion env p bh bn) := by
  simp only [tallyVersion, AccuVerifiersLength, ListVoteValue, MoveVotingProposalIDToEnd,
    SetTallyResult, MoveVotingProposalIDToPreActive, SetPreActiveVersion, GetActiveNodeList]
  repeat' first
    | exact keeps_pure _ _
    | exact keeps_fail _ _
    | exact keeps_gwRead _ _ _ _
    | exact keeps_gwWrite _ _ _ _ (fun _ => rfl)
    | exact keeps_stkNotify _ _ _ _ (fun _ => rfl)
    | apply keeps_bind
    | apply keeps_ite
    | intro _

theorem tallyCancel_keeps_history (env : Env) (cp : CancelProposal) (bh : Hash) (bn : Nat) :
    Gov.Keeps history (tallyCancel env cp bh bn) := by
  simp only [tallyCancel, listVotingProposalID, ListVotingProposal, GovPlugin_GetTallyResult,
    GetTallyResult, SetTallyResult, ClearActiveNodes, MoveVotingProposalIDToEnd]
  repeat' first
    | exact keeps_pure _ _
    | exact keeps_fail _ _
    | exact keeps_gwRead _ _ _ _
    | exact keeps_gwWrite _ _ _ _ (fun _ => rfl)
    | exact keeps_GetExistProposal _ _ _
    | exact tally_keeps_history _ _ _ _ _
    | apply keeps_bind
    | apply keeps_ite
    | split
    | intro _

theorem AddActiveNode_keeps_history (env : Env) (id : Hash) (n : NodeID) :
    Gov.Keeps history (AddActiveNode env id n) := by
  intro s
  unfold AddActiveNode gwWrite
  dsimp only
  split
  · rfl
  · split <;> rfl

theorem Vote_keeps_history (env : Env) (caller : Address) (vote : GovVote) (bh : Hash)
    (bn : Nat) (pv sign : Nat) : Gov.Keeps history (Vote env caller vote bh bn pv sign) := by
  simp only [Vote, GetProposal, listVotingProposalID, ListVotingProposal, ListVotedVerifier,
    SetVote]
  repeat' first
    | exact keeps_pure _ _
    | exact keeps_fail _ _
    | exact keeps_gwRead _ _ _ _
    | exact keeps_gwWrite _ _ _ _ (fun _ => rfl)
    | exact AddActiveNode_keeps_history _ _ _
    | exact keeps_checkVerifier _ _ _ _ _ _
    | exact keeps_Vote_versionChecks _ _ _ _ _ _
    | apply keeps_bind
    | apply keeps_ite
    | split
    | intro _

theorem DeclareVersion_keeps_history (env : Env) (caller : Address) (node : NodeID)
    (d sign : Nat) (bh : Hash) (bn : Nat) :
    Gov.Keeps history (DeclareVersion env caller node d sign bh bn) := by
  simp only [DeclareVersion, FindVotingVersionProposal, ListVotedVerifier]
  repeat' first
    | exact keeps_pure _ _
    | exact keeps_fail _ _
    | exact keeps_gwRead _ _ _ _
    | exact keeps_get _ _
    | exact keeps_gwWrite _ _ _ _ (fun _ => rfl)
    | exact AddActiveNode_keeps_history _ _ _
    | exact keeps_stkNotify _ _ _ _ (fun _ => rfl)
    | exact keeps_checkCandidate _ _ _ _ _ _
    | apply keeps_replaceErr
    | apply keeps_bind
    | apply keeps_ite
    | split
    | intro _

theorem Submit_keeps_history (env : Env) (caller : Address) (p : Proposal) (bh : Hash)
    (bn : Nat) : Gov.Keeps history (Submit env caller p bh bn) := by
  simp only [Submit, SetProposal, AddVotingProposalID]
  repeat' first
    | exact keeps_pure _ _
    | exact keeps_fail _ _
    | exact keeps_get _ _
    | exact keeps_gwWrite _ _ _ _ (fun _ => rfl)
    | exact keeps_checkVerifier _ _ _ _ _ _
    | apply keeps_bind
    | split
    | intro _

theorem EndBlock_dispatch_keeps_history (env : Env) (p : Proposal) (bh : Hash) (bn : Nat) :
    Gov.Keeps history (EndBlock_dispatch env p bh bn) := by
  simp only [EndBlock_dispatch, tallyText]
  repeat' first
    | exact keeps_pure _ _
    | exact keeps_fail _ _
    | exact tally_keeps_history _ _ _ _ _
    | exact tallyVersion_keeps_history _ _ _ _
    | exact tallyCancel_keeps_history _ _ _ _
    | apply keeps_bind
    | apply keeps_ite
    | split
    | intro _

theorem EndBlock_keeps_history (env : Env) (bh : Hash) (bn : Nat) :
    Gov.Keeps history (EndBlock env bh bn) := by
  have hsettle : ∀ vl ids, Gov.Keeps history (EndBlock_settlement env vl ids) := by
    intro vl ids
    induction ids with
    | nil => exact keeps_pure _ _
    | cons id rest ih =>
      unfold EndBlock_settlement
      exact keeps_bind _ _ _ (keeps_gwWrite _ _ _ _ (fun _ => rfl)) (fun _ => ih)
  have hloop : ∀ vl ids, Gov.Keeps history (EndBlock_loop env vl bh bn ids) := by
    intro vl ids
    induction ids with
    | nil => exact keeps_pure _ _
    | cons id rest ih =>
      unfold EndBlock_loop
      refine keeps_bind _ _ _ (keeps_GetExistProposal _ _ _) (fun p => ?_)
      refine keeps_ite _ _ _ _ ?_ ih
      refine keeps_bind _ _ _ (keeps_gwWrite _ _ _ _ (fun _ => rfl)) (fun _ => ?_)
      exact keeps_bind _ _ _ (EndBlock_dispatch_keeps_history _ _ _ _) (fun _ => ih)
  unfold EndBlock
  refine keeps_bind _ _ _ (keeps_gwRead _ _ _ _) (fun ids => ?_)
  refine keeps_ite _ _ _ _ (keeps_pure _ _) ?_
  refine keeps_bind _ _ _ (keeps_stkRead _ _ _ _) (fun vl => ?_)
  exact keeps_ite _ _ _ _ (hsettle _ _) (hloop _ _)

theorem addsAtMostOne_of_keeps {α : Type} (bn : Nat) (m : Gov α) (h : Gov.Keeps history m) :
    Gov.AddsAtMostOne bn m := fun s => Or.inl (h s)

theorem addsAtMostOne_bind {α γ : Type} (bn : Nat) (m : Gov α) (f : α → Gov γ)
    (hm : Gov.Keeps history m) (hf : ∀ a, Gov.AddsAtMostOne bn (f a)) :
    Gov.AddsAtMostOne bn (m >>= f) := by
  intro s
  rw [bind_run]
  cases h : m s with
  | mk r s1 =>
    have h1 : history s1 = history s := by have := hm s; rw [h] at this; exact this
    cases r with
    | ok a => simp only; rw [← h1]; exact hf a s1
    | error e => exact Or.inl h1

theorem addsAtMostOne_ite {α : Type} (bn : Nat) (c : Prop) [Decidable c] (m1 m2 : Gov α)
    (h1 : Gov.AddsAtMostOne bn m1) (h2 : Gov.AddsAtMostOne bn m2) :
    Gov.AddsAtMostOne bn (if c then m1 else m2) := by
  split
  · exact h1
  · exact h2

theorem AddActiveVersion_addsAtMostOne (env : Env) (v bn : Nat) :
    Gov.AddsAtMostOne bn (AddActiveVersion env v bn) := by
  intro s
  unfold AddActiveVersion gwWrite
  split
  · exact Or.inl rfl
  · exact Or.inr ⟨v, rfl⟩

theorem BeginBlock_addsAtMostOne (env : Env) (bh : Hash) (bn : Nat) :
    Gov.AddsAtMostOne bn (BeginBlock env bh bn) := by
  simp only [BeginBlock, GetPreActiveProposalID, GetActiveNodeList, GetTallyResult,
    SetTallyResult, SetProposal, MovePreActiveProposalIDToEnd, ClearActiveNodes]
  repeat' first
    | exact AddActiveVersion_addsAtMostOne _ _ _
    | exact addsAtMostOne_of_keeps _ _ (keeps_pure _ _)
    | exact addsAtMostOne_of_keeps _ _ (keeps_fail _ _)
    | exact keeps_gwRead _ _ _ _
    | exact keeps_stkRead _ _ _ _
    | exact keeps_GetExistProposal _ _ _
    | exact keeps_gwWrite _ _ _ _ (fun _ => rfl)
    | exact keeps_pure _ _
    | exact keeps_logOnly _ _ (keeps_gwWrite _ _ _ _ (fun _ => rfl))
    | apply keeps_ite
    | apply addsAtMostOne_bind
    | apply addsAtMostOne_ite
    | split
    | intro _

/-- C25: (1) if the active-version history is strictly decreasing in ActiveBlock and every record
of it has ActiveBlock < blockNumber, the history after `BeginBlock` at blockNumber is strictly
decreasing; (2) after `BeginBlock` the history is the previous one or the previous one with
one record for blockNumber in front; (3) `Submit`, `Vote`, `DeclareVersion`, `EndBlock`,
`tally`, `tallyVersion` and `tallyCancel` leave the history unchanged, whatever they return and
whichever gateway or staking call fails. -/
theorem C25_history_strictly_decreasing (env : Env) (bh : Hash) (bn : Nat) (s : State) :
    (strictlyDecreasing s.ActiveVersions → (∀ r ∈ s.ActiveVersions, r.ActiveBlock < bn) →
      strictlyDecreasing (BeginBlock env bh bn s).2.ActiveVersions) ∧
    ((BeginBlock env bh bn s).2.ActiveVersions = s.ActiveVersions ∨
      ∃ v, (BeginBlock env bh bn s).2.ActiveVersions =
        { ActiveVersion := v, ActiveBlock := bn } :: s.ActiveVersions) ∧
    (∀ caller p, (Submit env caller p bh bn s).2.ActiveVersions = s.ActiveVersions) ∧
    (∀ caller vote pv sign,
      (Vote env caller vote bh bn pv sign s).2.ActiveVersions = s.ActiveVersions) ∧
    (∀ caller node d sign,
      (DeclareVersion env caller node d sign bh bn s).2.ActiveVersions = s.ActiveVersions) ∧
    (EndBlock env bh bn s).2.ActiveVersions = s.ActiveVersions ∧
    (∀ ty id, (tally env ty id bh bn s).2.ActiveVersions = s.ActiveVersions) ∧
    (∀ p, (tallyVersion env p bh bn s).2.ActiveVersions = s.ActiveVersions) ∧
    (∀ cp, (tallyCancel env cp bh bn s).2.ActiveVersions = s.ActiveVersions) := by
  have hB := BeginBlock_addsAtMostOne env bh bn s
  refine ⟨?_, hB, fun caller p => Submit_keeps_history env caller p bh bn s,
    fun caller vote pv sign => Vote_keeps_history env caller vote bh bn pv sign s,
    fun caller node d sign => DeclareVersion_keeps_history env caller node d sign bh bn s,
    EndBlock_keeps_history env bh bn s, fun ty id => tally_keeps_history env ty id bh bn s,
    fun p => tallyVersion_keeps_history env p bh bn s,
    fun cp => tallyCancel_keeps_history env cp bh bn s⟩
  intro hdec hlt
  rcases hB with h | ⟨v, h⟩
  · unfold history at h
    rw [h]; exact hdec
  · unfold history at h
    rw [h]
    unfold strictlyDecreasing
    rw [List.pairwise_cons]
    exact ⟨fun r hr => hlt r hr, hdec⟩

theorem C25_history_strictly_decreasing_witness :
    (BeginBlock exEnv 0 500 stPreActive).2.ActiveVersions = [⟨66048, 500⟩, ⟨65792, 0⟩] ∧
    strictlyDecreasing (BeginBlock exEnv 0 500 stPreActive).2.ActiveVersions :=
  ⟨rfl, (C25_history_strictly_decreasing exEnv 0 500 stPreActive).1
    (by unfold strictlyDecreasing; decide) (by decide)⟩

/-! ## Claims about `Submit`; generic frames of the tallies -/

theorem checkVerifier_loop_ok_imp (env : Env) (caller : Address) (nodeID : NodeID) (bh : Hash)
    (l : List (Option Verifier)) (s : State)
    (h : (checkVerifier_loop env caller nodeID bh l s).1 = .ok ()) :
    ∃ v, some v ∈ l ∧ v.NodeId = nodeID ∧ v.StakingAddress = caller ∧
      env.stkFails .GetCandidateInfo = false ∧
      env.Is_Invalid (env.GetCandidateInfo bh (env.NodeId2Addr v.NodeId)).Status = false := by
  induction l with
  | nil => cases h
  | cons x rest ih =>
    cases x with
    | none =>
      unfold checkVerifier_loop at h
      obtain ⟨v, hv, hrest⟩ := ih h
      exact ⟨v, List.mem_cons_of_mem _ hv, hrest⟩
    | some verifier =>
      unfold checkVerifier_loop at h
      by_cases hn : verifier.NodeId = nodeID
      · rw [if_pos hn] at h
        by_cases ha : verifier.StakingAddress = caller
        · rw [if_pos ha] at h
          by_cases hc : env.stkFails .GetCandidateInfo = true
          · rw [if_pos hc] at h; cases h
          · rw [if_neg hc] at h
            by_cases hi : env.Is_Invalid
                (env.GetCandidateInfo bh (env.NodeId2Addr verifier.NodeId)).Status = true
            · rw [if_pos hi] at h; cases h
            · exact ⟨verifier, List.mem_cons_self _ _, hn, ha, by simpa using hc,
                by simpa using hi⟩
        · rw [if_neg ha] at h; cases h
      · rw [if_neg hn] at h
        obtain ⟨v, hv, hrest⟩ := ih h
        exact ⟨v, List.mem_cons_of_mem _ hv, hrest⟩

theorem checkVerifier_loop_ok_of (env : Env) (caller : Address) (nodeID : NodeID) (bh : Hash)
    (l : List (Option Verifier)) (s : State)
    (hall : ∀ w, some w ∈ l → w.NodeId = nodeID → w.StakingAddress = caller)
    (hex : ∃ v, some v ∈ l ∧ v.NodeId = nodeID)
    (hc : env.stkFails .GetCandidateInfo = false)
    (hi : env.Is_Invalid (env.GetCandidateInfo bh (env.NodeId2Addr nodeID)).Status = false) :
    checkVerifier_loop env caller nodeID bh l s = (.ok (), s) := by
  induction l with
  | nil =>
    obtain ⟨v, hv, _⟩ := hex
    cases hv
  | cons x rest ih =>
    have hall2 : ∀ w, some w ∈ rest → w.NodeId = nodeID → w.StakingAddress = caller :=
      fun w hw => hall w (List.mem_cons_of_mem _ hw)
    cases x with
    | none =>
      unfold checkVerifier_loop
      apply ih hall2
      obtain ⟨v, hv, hn⟩ := hex
      rcases List.mem_cons.1 hv with h | h
      · cases h
      · exact ⟨v, h, hn⟩
    | some verifier =>
      unfold checkVerifier_loop
      by_cases hn : verifier.NodeId = nodeID
      · have ha := hall verifier (List.mem_cons_self _ _) hn
        rw [if_pos hn, if_pos ha, hn, hc, hi]
        rfl
      · rw [if_neg hn]
        apply ih hall2
        obtain ⟨v, hv, hvn⟩ := hex
        rcases List.mem_cons.1 hv with h | h
        · exact absurd (by rw [Option.some.inj h] at hvn; exact hvn) hn
        · exact ⟨v, h, hvn⟩

theorem checkVerifier_ok_iff (env : Env) (caller : Address) (nodeID : NodeID) (bh : Hash)
    (bn : Nat) (s : State) (huniq : oneStakingAddress (env.GetVerifierList bh bn) nodeID) :
    checkVerifier env caller nodeID bh bn s = (.ok (), s) ↔
      verifierOwnedBy env caller nodeID bh bn := by
  constructor
  · intro h
    by_cases hstk : env.stkFails .GetVerifierList = true
    · exfalso
      simp [checkVerifier, bind_run, stkRead, hstk] at h
    · have hstk' : env.stkFails .GetVerifierList = false := by simpa using hstk
      have hloop : checkVerifier env caller nodeID bh bn s =
          checkVerifier_loop env caller nodeID bh (env.GetVerifierList bh bn) s := by
        simp [checkVerifier, bind_run, stkRead_run, hstk']
      rw [hloop] at h
      exact ⟨hstk', checkVerifier_loop_ok_imp env caller nodeID bh _ s (by rw [h])⟩
  · rintro ⟨hstk, v, hv, hn, ha, hc, hi⟩
    have hloop : checkVerifier env caller nodeID bh bn s =
        checkVerifier_loop env caller nodeID bh (env.GetVerifierList bh bn) s := by
      simp [checkVerifier, bind_run, stkRead_run, hstk]
    rw [hloop]
    apply checkVerifier_loop_ok_of env caller nodeID bh _ s
    · intro w hw hwn
      rw [huniq w v hw hv hwn hn]; exact ha
    · exact ⟨v, hv, hn⟩
    · exact hc
    · rw [← hn]; exact hi

theorem checkVerifier_result (env : Env) (caller : Address) (nodeID : NodeID) (bh : Hash)
    (bn : Nat) (s : State) :
    checkVerifier env caller nodeID bh bn s = (.ok (), s) ∨
    ∃ e, checkVerifier env caller nodeID bh bn s = (.error e, s) := by
  by_cases hstk : env.stkFails .GetVerifierList = true
  · right
    exact ⟨.stk .GetVerifierList, by simp [checkVerifier, bind_run, stkRead, hstk]⟩
  · have hstk' : env.stkFails .GetVerifierList = false := by simpa using hstk
    rcases checkVerifier_cases env caller nodeID bh bn s hstk' with h | ⟨msg, h⟩
    · exact Or.inl h
    · exact Or.inr ⟨_, h⟩

theorem findProposal_head (s : State) (p : Proposal) (rest : List Proposal) :
    findProposal p.GetProposalID { s with Proposals := p :: rest } = some p := by
  simp [findProposal]

/-- C23: (1) when the proposal's `Verify` succeeds, the proposer node is in the verifier list
with the caller as staking address and a valid candidate status, and both gateway writes
succeed, `Submit` returns no error, the proposal is persisted, its ID is appended to the
VotingList and nothing else changes; (2) when `Verify` fails or that verifier condition fails,
`Submit` returns an error and leaves the whole state unchanged; (3) a `Verify` failure is the
business error carrying `Verify`'s message; (4) with both writes succeeding, `Submit` returns
no error exactly when (1)'s conditions hold; (5) if the write `SetProposal` fails the state is
unchanged, and if only `AddVotingProposalID` fails `Submit` returns that error with the
VotingList unchanged. The entries of the verifier list for the proposer are taken to have one
staking address. -/
theorem C23_Submit_persists_iff_verified (env : Env) (caller : Address) (proposal : Proposal)
    (bh : Hash) (bn : Nat) (s : State)
    (huniq : oneStakingAddress (env.GetVerifierList bh proposal.GetSubmitBlock)
      proposal.GetProposer) :
    (env.Verify proposal bn bh s = none →
      verifierOwnedBy env caller proposal.GetProposer bh proposal.GetSubmitBlock →
      env.fails .SetProposal = false → env.fails .AddVotingProposalID = false →
      (Submit env caller proposal bh bn s).1 = .ok () ∧
      findProposal proposal.GetProposalID (Submit env caller proposal bh bn s).2 =
        some proposal ∧
      (Submit env caller proposal bh bn s).2.VotingList =
        s.VotingList ++ [proposal.GetProposalID] ∧
      (Submit env caller proposal bh bn s).2 =
        { s with
          Proposals := proposal ::
            s.Proposals.filter (fun p => p.GetProposalID != proposal.GetProposalID),
          VotingList := s.VotingList ++ [proposal.GetProposalID] }) ∧
    (¬ (env.Verify proposal bn bh s = none ∧
        verifierOwnedBy env caller proposal.GetProposer bh proposal.GetSubmitBlock) →
      ∃ e, Submit env caller proposal bh bn s = (.error e, s)) ∧
    (∀ msg, env.Verify proposal bn bh s = some msg →
      Submit env caller proposal bh bn s = (.error (.biz msg), s)) ∧
    (env.fails .SetProposal = false → env.fails .AddVotingProposalID = false →
      ((Submit env caller proposal bh bn s).1 = .ok () ↔
        (env.Verify proposal bn bh s = none ∧
          verifierOwnedBy env caller proposal.GetProposer bh proposal.GetSubmitBlock))) ∧
    (env.fails .SetProposal = true →
      ∃ e, Submit env caller proposal bh bn s = (.error e, s)) ∧
    (env.fails .AddVotingProposalID = true →
      (∃ e, (Submit env caller proposal bh bn s).1 = .error e) ∧
      (Submit env caller proposal bh bn s).2.VotingList = s.VotingList) := by
  have hiff := checkVerifier_ok_iff env caller proposal.GetProposer bh proposal.GetSubmitBlock s
    huniq
  have hverr : ∀ msg, env.Verify proposal bn bh s = some msg →
      Submit env caller proposal bh bn s = (.error (.biz msg), s) := by
    intro msg hmsg
    simp only [Submit, bind_run, hmsg]
    rfl
  have hcverr : env.Verify proposal bn bh s = none →
      ¬ verifierOwnedBy env caller proposal.GetProposer bh proposal.GetSubmitBlock →
      ∃ e, Submit env caller proposal bh bn s = (.error e, s) := by
    intro hv hno
    rcases checkVerifier_result env caller proposal.GetProposer bh proposal.GetSubmitBlock s
      with hok | ⟨e, herr⟩
    · exact absurd (hiff.1 hok) hno
    · refine ⟨e, ?_⟩
      simp only [Submit, bind_run, hv, herr]
  have hnot : ¬ (env.Verify proposal bn bh s = none ∧
        verifierOwnedBy env caller proposal.GetProposer bh proposal.GetSubmitBlock) →
      ∃ e, Submit env caller proposal bh bn s = (.error e, s) := by
    intro hno
    cases hv : env.Verify proposal bn bh s with
    | some msg => exact ⟨_, hverr msg hv⟩
    | none => exact hcverr hv (fun h => hno ⟨hv, h⟩)
  have hok : env.Verify proposal bn bh s = none →
      verifierOwnedBy env caller proposal.GetProposer bh proposal.GetSubmitBlock →
      env.fails .SetProposal = false → env.fails .AddVotingProposalID = false →
      Submit env caller proposal bh bn s =
        (.ok (), { s with
          Proposals := proposal ::
            s.Proposals.filter (fun p => p.GetProposalID != proposal.GetProposalID),
          VotingList := s.VotingList ++ [proposal.GetProposalID] }) := by
    intro hv hown h1 h2
    simp only [Submit, bind_run, hv, hiff.2 hown, SetProposal, AddVotingProposalID, gwWrite_run,
      h1, h2]
  refine ⟨?_, hnot, hverr, ?_, ?_, ?_⟩
  · intro hv hown h1 h2
    rw [hok hv hown h1 h2]
    exact ⟨rfl, by simp [findProposal], rfl, rfl⟩
  · intro h1 h2
    constructor
    · intro hres
      by_contra hno
      obtain ⟨e, he⟩ := hnot hno
      rw [he] at hres
      cases hres
    · rintro ⟨hv, hown⟩
      rw [hok hv hown h1 h2]
  · intro h1
    by_cases hc : env.Verify proposal bn bh s = none ∧
        verifierOwnedBy env caller proposal.GetProposer bh proposal.GetSubmitBlock
    · refine ⟨.store .SetProposal, ?_⟩
      simp only [Submit, bind_run, hc.1, hiff.2 hc.2, SetProposal, gwWrite, h1, if_true]
    · exact hnot hc
  · intro h2
    by_cases hc : env.Verify proposal bn bh s = none ∧
        verifierOwnedBy env caller proposal.GetProposer bh proposal.GetSubmitBlock
    · by_cases h1 : env.fails .SetProposal = true
      · have : Submit env caller proposal bh bn s = (.error (.store .SetProposal), s) := by
          simp only [Submit, bind_run, hc.1, hiff.2 hc.2, SetProposal, gwWrite, h1, if_true]
        rw [this]
        exact ⟨⟨_, rfl⟩, rfl⟩
      · have h1' : env.fails .SetProposal = false := by simpa using h1
        have : Submit env caller proposal bh bn s =
            (.error (.store .AddVotingProposalID),
              { s with Proposals := proposal ::
                  s.Proposals.filter (fun p => p.GetProposalID != proposal.GetProposalID) }) := by
          simp only [Submit, bind_run, hc.1, hiff.2 hc.2, SetProposal, h1',
            AddVotingProposalID, gwWrite, h2, if_true, Bool.false_eq_true, if_false]
        rw [this]
        exact ⟨⟨_, rfl⟩, rfl⟩
    · obtain ⟨e, he⟩ := hnot hc
      rw [he]
      exact ⟨⟨_, rfl⟩, rfl⟩

theorem C23_Submit_persists_iff_verified_witness :
    ((Submit exEnv 101 (.text ⟨7, .Text, 1, 10, 100⟩) 0 10 emptyState).1 = .ok () ∧
      findProposal 7 (Submit exEnv 101 (.text ⟨7, .Text, 1, 10, 100⟩) 0 10 emptyState).2 =
        some (.text ⟨7, .Text, 1, 10, 100⟩) ∧
      (Submit exEnv 101 (.text ⟨7, .Text, 1, 10, 100⟩) 0 10 emptyState).2.VotingList = [7]) ∧
    (∃ e, Submit exEnv 999 (.text ⟨7, .Text, 1, 10, 100⟩) 0 10 emptyState =
      (.error e, emptyState)) ∧
    Submit exEnvVerifyFails 101 (.text ⟨7, .Text, 1, 10, 100⟩) 0 10 emptyState =
      (.error (.biz "proposal is invalid"), emptyState) := by
  have huniq : ∀ env : Env, env.GetVerifierList = exEnv.GetVerifierList →
      oneStakingAddress (env.GetVerifierList 0 10) 1 := by
    intro env he v w hv hw hvn hwn
    rw [he] at hv hw
    simp only [exEnv, List.mem_cons, Option.some.injEq, List.mem_singleton,
      List.not_mem_nil, or_false] at hv hw
    rcases hv with rfl | rfl | rfl | rfl <;> rcases hw with rfl | rfl | rfl | rfl <;>
      first | rfl | (exfalso; revert hvn hwn; decide)
  have h1 := (C23_Submit_persists_iff_verified exEnv 101 (.text ⟨7, .Text, 1, 10, 100⟩) 0 10
    emptyState (huniq exEnv rfl)).1 rfl
    ⟨rfl, ⟨1, 101⟩, by decide, rfl, rfl, rfl, rfl⟩ rfl rfl
  have h2 := (C23_Submit_persists_iff_verified exEnv 999 (.text ⟨7, .Text, 1, 10, 100⟩) 0 10
    emptyState (huniq exEnv rfl)).2.1
    (by
      rintro ⟨_, _, v, hv, hn, ha, _⟩
      simp only [exEnv, List.mem_cons, Option.some.injEq, List.mem_singleton,
        List.not_mem_nil, or_false] at hv
      rcases hv with rfl | rfl | rfl | rfl <;> simp at ha)
  have h3 := (C23_Submit_persists_iff_verified exEnvVerifyFails 101
    (.text ⟨7, .Text, 1, 10, 100⟩) 0 10 emptyState (huniq exEnvVerifyFails rfl)).2.2.1
    "proposal is invalid" rfl
  exact ⟨⟨h1.1, h1.2.1, h1.2.2.1⟩, h2, h3⟩

theorem tally_keeps {β : Type} (g : State → β) (hg : IgnoresTallyWrites g) (env : Env)
    (ty : ProposalType) (id bh : Hash) (bn : Nat) : Gov.Keeps g (tally env ty id bh bn) := by
  simp only [tally, AccuVerifiersLength, ListVoteValue, MoveVotingProposalIDToEnd, SetTallyResult]
  repeat' first
    | exact keeps_pure _ _
    | exact keeps_fail _ _
    | exact keeps_gwRead _ _ _ _
    | exact keeps_gwWrite _ _ _ _ (fun s => hg s _ _ _ _ _ _ _)
    | apply keeps_bind
    | apply keeps_ite
    | intro _

theorem tallyVersion_keeps {β : Type} (g : State → β) (hg : IgnoresTallyWrites g) (env : Env)
    (p : VersionProposal) (bh : Hash) (bn : Nat) : Gov.Keeps g (tallyVersion env p bh bn) := by
  simp only [tallyVersion, AccuVerifiersLength, ListVoteValue, MoveVotingProposalIDToEnd,
    SetTallyResult, MoveVotingProposalIDToPreActive, SetPreActiveVersion, GetActiveNodeList]
  repeat' first
    | exact keeps_pure _ _
    | exact keeps_fail _ _
    | exact keeps_gwRead _ _ _ _
    | exact keeps_gwWrite _ _ _ _ (fun s => hg s _ _ _ _ _ _ _)
    | exact keeps_stkNotify _ _ _ _ (fun s => hg s _ _ _ _ _ _ _)
    | apply keeps_bind
    | apply keeps_ite
    | intro _

theorem tallyCancel_keeps {β : Type} (g : State → β) (hg : IgnoresTallyWrites g) (env : Env)
    (cp : CancelProposal) (bh : Hash) (bn : Nat) : Gov.Keeps g (tallyCancel env cp bh bn) := by
  simp only [tallyCancel, listVotingProposalID, ListVotingProposal, GovPlugin_GetTallyResult,
    GetTallyResult, SetTallyResult, ClearActiveNodes, MoveVotingProposalIDToEnd]
  repeat' first
    | exact keeps_pure _ _
    | exact keeps_fail _ _
    | exact keeps_gwRead _ _ _ _
    | exact keeps_gwWrite _ _ _ _ (fun s => hg s _ _ _ _ _ _ _)
    | exact keeps_GetExistProposal _ _ _
    | exact tally_keeps _ hg _ _ _ _ _
    | apply keeps_bind
    | apply keeps_ite
    | split
    | intro _

theorem EndBlock_dispatch_keeps {β : Type} (g : State → β) (hg : IgnoresTallyWrites g)
    (env : Env) (p : Proposal) (bh : Hash) (bn : Nat) :
    Gov.Keeps g (EndBlock_dispatch env p bh bn) := by
  simp only [EndBlock_dispatch, tallyText]
  repeat' first
    | exact keeps_pure _ _
    | exact keeps_fail _ _
    | exact tally_keeps _ hg _ _ _ _ _
    | exact tallyVersion_keeps _ hg _ _ _ _
    | exact tallyCancel_keeps _ hg _ _ _ _
    | apply keeps_bind
    | apply keeps_ite
    | split
    | intro _

theorem ignoresTallyWrites_proposals : IgnoresTallyWrites (fun s => s.Proposals) :=
  fun _ _ _ _ _ _ _ _ => rfl

theorem ignoresTallyWrites_accu (id : Hash) :
    IgnoresTallyWrites (fun s => s.AccuVerifiers id) :=
  fun _ _ _ _ _ _ _ _ => rfl

/-! ## Claims about the tally dispatch of `EndBlock` -/

theorem EndBlock_run_loop (env : Env) (bh : Hash) (bn : Nat) (s : State)
    (hlist : env.fails .ListVotingProposal = false)
    (hstk : env.stkFails .ListVerifierNodeID = false)
    (hset : env.IsSettlementPeriod bn = false) :
    EndBlock env bh bn s =
      EndBlock_loop env (env.ListVerifierNodeID bh bn) bh bn s.VotingList s := by
  unfold EndBlock
  simp only [bind_run, ListVotingProposal, gwRead_run, hlist]
  by_cases hlen : s.VotingList.length = 0
  · rw [if_pos hlen, List.length_eq_zero.1 hlen]
    rfl
  · rw [if_neg hlen]
    simp only [bind_run, stkRead_run, hstk, hset]
    rfl

theorem EndBlock_loop_cons (env : Env) (vl : List NodeID) (bh : Hash) (bn : Nat) (id : Hash)
    (rest : List Hash) :
    EndBlock_loop env vl bh bn (id :: rest) = (do
      let votingProposal ← GetExistProposal env id
      if votingProposal.GetEndVotingBlock = bn then do
        AccuVerifiers env id vl
        EndBlock_dispatch env votingProposal bh bn
        EndBlock_loop env vl bh bn rest
      else EndBlock_loop env vl bh bn rest) := rfl

theorem EndBlock_loop_append (env : Env) (vl : List NodeID) (bh : Hash) (bn : Nat)
    (pre post : List Hash) (s : State) :
    EndBlock_loop env vl bh bn (pre ++ post) s =
      (do EndBlock_loop env vl bh bn pre
          EndBlock_loop env vl bh bn post) s := by
  induction pre generalizing s with
  | nil => rfl
  | cons id rest ih =>
    rw [List.cons_append, EndBlock_loop_cons, EndBlock_loop_cons]
    simp only [bind_run]
    cases hg : GetExistProposal env id s with
    | mk r s1 =>
      cases r with
      | error e => rfl
      | ok p =>
        dsimp only
        by_cases hend : p.GetEndVotingBlock = bn
        · rw [if_pos hend, if_pos hend]
          simp only [bind_run]
          cases ha : AccuVerifiers env id vl s1 with
          | mk r2 s2 =>
            cases r2 with
            | error e => rfl
            | ok u =>
              dsimp only
              cases hd : EndBlock_dispatch env p bh bn s2 with
              | mk r3 s3 =>
                cases r3 with
                | error e => rfl
                | ok u3 =>
                  dsimp only
                  rw [ih]
                  rfl
        · rw [if_neg hend, if_neg hend, ih]
          rfl

theorem EndBlock_loop_skip (env : Env) (vl : List NodeID) (bh : Hash) (bn : Nat) (id : Hash)
    (rest : List Hash) (t : State) (p : Proposal)
    (hget : env.fails .GetExistProposal = false) (hp : findProposal id t = some p)
    (hend : p.GetEndVotingBlock ≠ bn) :
    EndBlock_loop env vl bh bn (id :: rest) t = EndBlock_loop env vl bh bn rest t := by
  rw [EndBlock_loop_cons]
  simp only [bind_run, GetExistProposal_run env id t p hget hp]
  rw [if_neg hend]

theorem EndBlock_loop_step (env : Env) (vl : List NodeID) (bh : Hash) (bn : Nat) (id : Hash)
    (rest : List Hash) (t : State) (p : Proposal)
    (hget : env.fails .GetExistProposal = false) (hacc : env.fails .AccuVerifiers = false)
    (hp : findProposal id t = some p) (hend : p.GetEndVotingBlock = bn) :
    EndBlock_loop env vl bh bn (id :: rest) t =
      (do EndBlock_dispatch env p bh bn
          EndBlock_loop env vl bh bn rest) (accumulated t id vl) := by
  rw [EndBlock_loop_cons]
  simp only [bind_run, GetExistProposal_run env id t p hget hp]
  rw [if_pos hend]
  simp only [bind_run, AccuVerifiers, gwWrite_run, hacc]
  rfl

theorem GetExistProposal_cases (env : Env) (id : Hash) (s : State) :
    (∃ p, findProposal id s = some p ∧ GetExistProposal env id s = (.ok p, s)) ∨
    (∃ e, GetExistProposal env id s = (.error e, s)) := by
  unfold GetExistProposal
  by_cases hf : env.fails .GetExistProposal = true
  · rw [if_pos hf]
    exact Or.inr ⟨_, rfl⟩
  · rw [if_neg hf]
    cases h : findProposal id s with
    | none => exact Or.inr ⟨_, rfl⟩
    | some p => exact Or.inl ⟨p, rfl, rfl⟩

theorem findProposal_congr (id : Hash) (s t : State) (h : t.Proposals = s.Proposals) :
    findProposal id t = findProposal id s := by
  unfold findProposal
  rw [h]

theorem EndBlock_loop_keeps_proposals (env : Env) (vl : List NodeID) (bh : Hash) (bn : Nat)
    (ids : List Hash) :
    Gov.Keeps (fun s => s.Proposals) (EndBlock_loop env vl bh bn ids) := by
  induction ids with
  | nil => exact keeps_pure _ _
  | cons id rest ih =>
    rw [EndBlock_loop_cons]
    refine keeps_bind _ _ _ (keeps_GetExistProposal _ _ _) (fun p => ?_)
    refine keeps_ite _ _ _ _ ?_ ih
    refine keeps_bind _ _ _ (keeps_gwWrite _ _ _ _ (fun _ => rfl)) (fun _ => ?_)
    exact keeps_bind _ _ _
      (EndBlock_dispatch_keeps _ ignoresTallyWrites_proposals _ _ _ _) (fun _ => ih)

theorem EndBlock_dispatch_text (env : Env) (p : Proposal) (bh : Hash) (bn : Nat)
    (hty : p.GetProposalType = .Text) :
    EndBlock_dispatch env p bh bn = (do
      let _ ← tally env .Text p.GetProposalID bh bn
      pure ()) := by
  unfold EndBlock_dispatch
  rw [if_pos hty]
  rfl

theorem EndBlock_dispatch_version (env : Env) (vp : VersionProposal) (bh : Hash) (bn : Nat)
    (hty : vp.ProposalType = .Version) :
    EndBlock_dispatch env (.version vp) bh bn = tallyVersion env vp bh bn := by
  have h1 : (Proposal.version vp).GetProposalType ≠ .Text := by
    show vp.ProposalType ≠ .Text
    rw [hty]; decide
  have h2 : (Proposal.version vp).GetProposalType = .Version := hty
  unfold EndBlock_dispatch
  rw [if_neg h1, if_pos h2]

theorem EndBlock_dispatch_cancel (env : Env) (cp : CancelProposal) (bh : Hash) (bn : Nat)
    (hty : cp.ProposalType = .Cancel) :
    EndBlock_dispatch env (.cancel cp) bh bn = (do
      let _ ← tallyCancel env cp bh bn
      pure ()) := by
  have h1 : (Proposal.cancel cp).GetProposalType ≠ .Text := by
    show cp.ProposalType ≠ .Text
    rw [hty]; decide
  have h2 : (Proposal.cancel cp).GetProposalType ≠ .Version := by
    show cp.ProposalType ≠ .Version
    rw [hty]; decide
  have h3 : (Proposal.cancel cp).GetProposalType = .Cancel := hty
  unfold EndBlock_dispatch
  rw [if_neg h1, if_neg h2, if_pos h3]

theorem EndBlock_dispatch_invalid (env : Env) (p : Proposal) (bh : Hash) (bn : Nat)
    (hty : p.GetProposalType = .Invalid) :
    EndBlock_dispatch env p bh bn = Gov.fail (.other "invalid proposal type") := by
  have h1 : p.GetProposalType ≠ .Text := by rw [hty]; decide
  have h2 : p.GetProposalType ≠ .Version := by rw [hty]; decide
  have h3 : p.GetProposalType ≠ .Cancel := by rw [hty]; decide
  unfold EndBlock_dispatch
  rw [if_neg h1, if_neg h2, if_neg h3]

theorem AccuVerifiers_cases (env : Env) (id : Hash) (vl : List NodeID) (s : State) :
    AccuVerifiers env id vl s = (.ok (), accumulated s id vl) ∨
    (∃ e, AccuVerifiers env id vl s = (.error e, s)) := by
  unfold AccuVerifiers gwWrite
  by_cases hf : env.fails .AccuVerifiers = true
  · rw [if_pos hf]
    exact Or.inr ⟨_, rfl⟩
  · rw [if_neg hf]
    exact Or.inl rfl

theorem EndBlock_loop_accu_frame (env : Env) (vl : List NodeID) (bh : Hash) (bn : Nat)
    (id : Hash) (ids : List Hash) (s : State)
    (hp : ∀ p, findProposal id s = some p → p.GetEndVotingBlock ≠ bn) :
    (EndBlock_loop env vl bh bn ids s).2.AccuVerifiers id = s.AccuVerifiers id := by
  induction ids generalizing s with
  | nil => rfl
  | cons x rest ih =>
    rw [EndBlock_loop_cons, bind_run]
    rcases GetExistProposal_cases env x s with ⟨p, hfind, hrun⟩ | ⟨e, hrun⟩
    · rw [hrun]
      dsimp only
      by_cases hend : p.GetEndVotingBlock = bn
      · rw [if_pos hend]
        have hne : id ≠ x := by
          intro h
          subst h
          exact hp p hfind hend
        rw [bind_run]
        rcases AccuVerifiers_cases env x vl s with ha | ⟨e, ha⟩
        · rw [ha]
          dsimp only
          rw [bind_run]
          have hk1 := EndBlock_dispatch_keeps _ (ignoresTallyWrites_accu id) env p bh bn
            (accumulated s x vl)
          have hk2 := EndBlock_dispatch_keeps _ ignoresTallyWrites_proposals env p bh bn
            (accumulated s x vl)
          have hacc : (accumulated s x vl).AccuVerifiers id = s.AccuVerifiers id := by
            simp [accumulated, setAt, hne]
          cases hd : EndBlock_dispatch env p bh bn (accumulated s x vl) with
          | mk r s2 =>
            rw [hd] at hk1 hk2
            cases r with
            | error e => exact hk1.trans hacc
            | ok u =>
              dsimp only
              rw [ih s2 (fun q hq => hp q (by rw [← hq]; exact (findProposal_congr id s s2 hk2).symm))]
              exact hk1.trans hacc
        · rw [ha]
      · rw [if_neg hend]
        exact ih s hp
    · rw [hrun]

theorem bind_assoc_run {α β γ : Type} (m : Gov α) (f : α → Gov β) (g : β → Gov γ) (s : State) :
    ((m >>= f) >>= g) s = (m >>= fun a => f a >>= g) s := by
  simp only [bind_run]
  cases m s with
  | mk r s1 => cases r <;> rfl

theorem EndBlock_loop_accu_merged (env : Env) (vl : List NodeID) (bh : Hash) (bn : Nat)
    (id : Hash) (p : Proposal) (hend : p.GetEndVotingBlock = bn) (ids : List Hash) (s : State)
    (hp : findProposal id s = some p)
    (hok : (EndBlock_loop env vl bh bn ids s).1 = .ok ()) (v : NodeID) :
    v ∈ (EndBlock_loop env vl bh bn ids s).2.AccuVerifiers id ↔
      v ∈ s.AccuVerifiers id ∨ (id ∈ ids ∧ v ∈ vl) := by
  induction ids generalizing s with
  | nil =>
    show v ∈ s.AccuVerifiers id ↔ _
    simp
  | cons x rest ih =>
    rw [EndBlock_loop_cons, bind_run] at hok ⊢
    rcases GetExistProposal_cases env x s with ⟨q, hfind, hrun⟩ | ⟨e, hrun⟩
    · rw [hrun] at hok ⊢
      dsimp only at hok ⊢
      by_cases hq : q.GetEndVotingBlock = bn
      · rw [if_pos hq] at hok ⊢
        rw [bind_run] at hok ⊢
        rcases AccuVerifiers_cases env x vl s with ha | ⟨e, ha⟩
        · rw [ha] at hok ⊢
          dsimp only at hok ⊢
          rw [bind_run] at hok ⊢
          have hk1 := EndBlock_dispatch_keeps _ (ignoresTallyWrites_accu id) env q bh bn
            (accumulated s x vl)
          have hk2 := EndBlock_dispatch_keeps _ ignoresTallyWrites_proposals env q bh bn
            (accumulated s x vl)
          cases hd : EndBlock_dispatch env q bh bn (accumulated s x vl) with
          | mk r s2 =>
            rw [hd] at hk1 hk2 hok
            cases r with
            | error e => exact absurd hok (by simp)
            | ok u =>
              dsimp only at hok ⊢
              have hp2 : findProposal id s2 = some p := by
                rw [findProposal_congr id s s2 hk2]; exact hp
              rw [ih s2 hp2 hok]
              have hacc : s2.AccuVerifiers id = (accumulated s x vl).AccuVerifiers id := hk1
              rw [hacc]
              by_cases hx : id = x
              · subst hx
                simp only [accumulated, setAt, if_true, mem_mergeNodes, List.mem_cons, true_or,
                  true_and]
                tauto
              · have h1 : (accumulated s x vl).AccuVerifiers id = s.AccuVerifiers id := by
                  simp [accumulated, setAt, hx]
                rw [h1]
                simp [hx]
        · rw [ha] at hok
          exact absurd hok (by simp)
      · rw [if_neg hq] at hok ⊢
        have hx : id ≠ x := by
          intro h
          subst h
          rw [hp] at hfind
          exact hq (by rw [← Option.some.inj hfind]; exact hend)
        rw [ih s hp hok]
        simp [hx]
    · rw [hrun] at hok
      exact absurd hok (by simp)

/-- C21: on a non-settlement block, with the listing of the VotingList, the listing of the
verifiers, the lookup of a stored proposal and the accumulation write not failing. (1) `EndBlock`
is the loop over the VotingList read at its start, with the current verifier list `vl`, and
(2) the loop over `pre ++ post` is the loop over `pre` followed by the loop over `post`. (3) At
any state `t` the loop reaches, for a voting proposal `id` stored as `p`: if
`p.EndVotingBlock ≠ blockNumber` the step does nothing (neither accumulation nor tally); if
`p.EndVotingBlock = blockNumber` the step first merges `vl` into AccuVerifiers(`id`) and then runs
`tally` for type Text, `tallyVersion` for a version proposal of type Version, `tallyCancel` for a
cancel proposal of type Cancel, and for any other type returns the error "invalid proposal type".
(4) `EndBlock` leaves the stored proposals unchanged, (5) it leaves AccuVerifiers(`id`) unchanged
for every stored proposal with another end-voting block, and (6) when it returns no error,
AccuVerifiers(`id`) of every voting proposal with this end-voting block has exactly the members
of the old set and of `vl`. -/
theorem C21_EndBlock_end_voting_dispatch (env : Env) (bh : Hash) (bn : Nat) (s : State)
    (hlist : env.fails .ListVotingProposal = false)
    (hstk : env.stkFails .ListVerifierNodeID = false)
    (hget : env.fails .GetExistProposal = false)
    (hacc : env.fails .AccuVerifiers = false)
    (hset : env.IsSettlementPeriod bn = false) :
    EndBlock env bh bn s =
      EndBlock_loop env (env.ListVerifierNodeID bh bn) bh bn s.VotingList s ∧
    (∀ (pre post : List Hash) (t : State),
      EndBlock_loop env (env.ListVerifierNodeID bh bn) bh bn (pre ++ post) t =
        (do EndBlock_loop env (env.ListVerifierNodeID bh bn) bh bn pre
            EndBlock_loop env (env.ListVerifierNodeID bh bn) bh bn post) t) ∧
    (∀ (id : Hash) (rest : List Hash) (t : State) (p : Proposal), findProposal id t = some p →
      (p.GetEndVotingBlock ≠ bn →
        EndBlock_loop env (env.ListVerifierNodeID bh bn) bh bn (id :: rest) t =
          EndBlock_loop env (env.ListVerifierNodeID bh bn) bh bn rest t) ∧
      (p.GetEndVotingBlock = bn →
        (p.GetProposalType = .Text →
          EndBlock_loop env (env.ListVerifierNodeID bh bn) bh bn (id :: rest) t =
            (do let _ ← tally env .Text id bh bn
                EndBlock_loop env (env.ListVerifierNodeID bh bn) bh bn rest)
              (accumulated t id (env.ListVerifierNodeID bh bn))) ∧
        (∀ vp : VersionProposal, p = .version vp → vp.ProposalType = .Version →
          EndBlock_loop env (env.ListVerifierNodeID bh bn) bh bn (id :: rest) t =
            (do tallyVersion env vp bh bn
                EndBlock_loop env (env.ListVerifierNodeID bh bn) bh bn rest)
              (accumulated t id (env.ListVerifierNodeID bh bn))) ∧
        (∀ cp : CancelProposal, p = .cancel cp → cp.ProposalType = .Cancel →
          EndBlock_loop env (env.ListVerifierNodeID bh bn) bh bn (id :: rest) t =
            (do let _ ← tallyCancel env cp bh bn
                EndBlock_loop env (env.ListVerifierNodeID bh bn) bh bn rest)
              (accumulated t id (env.ListVerifierNodeID bh bn))) ∧
        (p.GetProposalType = .Invalid →
          EndBlock_loop env (env.ListVerifierNodeID bh bn) bh bn (id :: rest) t =
            (.error (.other "invalid proposal type"),
              accumulated t id (env.ListVerifierNodeID bh bn))))) ∧
    (EndBlock env bh bn s).2.Proposals = s.Proposals ∧
    (∀ (id : Hash) (p : Proposal), findProposal id s = some p → p.GetEndVotingBlock ≠ bn →
      (EndBlock env bh bn s).2.AccuVerifiers id = s.AccuVerifiers id) ∧
    ((EndBlock env bh bn s).1 = .ok () →
      ∀ id ∈ s.VotingList, ∀ p : Proposal, findProposal id s = some p →
        p.GetEndVotingBlock = bn →
        ∀ v, v ∈ (EndBlock env bh bn s).2.AccuVerifiers id ↔
          v ∈ s.AccuVerifiers id ∨ v ∈ env.ListVerifierNodeID bh bn) := by
  have hrun := EndBlock_run_loop env bh bn s hlist hstk hset
  refine ⟨hrun, fun pre post t => EndBlock_loop_append env _ bh bn pre post t, ?_, ?_, ?_, ?_⟩
  · intro id rest t p hp
    refine ⟨fun hend => EndBlock_loop_skip env _ bh bn id rest t p hget hp hend, fun hend => ?_⟩
    have hstep := EndBlock_loop_step env (env.ListVerifierNodeID bh bn) bh bn id rest t p hget
      hacc hp hend
    have hid := findProposal_id id t p hp
    refine ⟨fun hty => ?_, fun vp hv hty => ?_, fun cp hc hty => ?_, fun hty => ?_⟩
    · rw [hstep, EndBlock_dispatch_text env p bh bn hty, hid, bind_assoc_run]
      rfl
    · subst hv
      rw [hstep, EndBlock_dispatch_version env vp bh bn hty]
    · subst hc
      rw [hstep, EndBlock_dispatch_cancel env cp bh bn hty, bind_assoc_run]
      rfl
    · rw [hstep, EndBlock_dispatch_invalid env p bh bn hty]
      rfl
  · rw [hrun]
    exact EndBlock_loop_keeps_proposals env _ bh bn _ s
  · intro id p hp hend
    rw [hrun]
    exact EndBlock_loop_accu_frame env _ bh bn id _ s
      (fun q hq => by rw [hp] at hq; rw [← Option.some.inj hq]; exact hend)
  · intro hok id hid p hp hend v
    rw [hrun] at hok ⊢
    rw [EndBlock_loop_accu_merged env _ bh bn id p hend _ s hp hok v]
    simp [hid]

theorem C21_EndBlock_end_voting_dispatch_witness :
    (exEnv.fails .ListVotingProposal = false ∧ exEnv.stkFails .ListVerifierNodeID = false ∧
      exEnv.fails .GetExistProposal = false ∧ exEnv.fails .AccuVerifiers = false ∧
      exEnv.IsSettlementPeriod 250 = false) ∧
    EndBlock exEnv 0 250 stCancel = EndBlock_loop exEnv [1, 2, 3, 4] 0 250 [2, 3] stCancel ∧
    EndBlock_loop exEnv [1, 2, 3, 4] 0 250 [2, 3] stCancel =
      EndBlock_loop exEnv [1, 2, 3, 4] 0 250 [3] stCancel ∧
    EndBlock_loop exEnv [1, 2, 3, 4] 0 250 [3] stCancel =
      (do let _ ← tallyCancel exEnv cp3 0 250
          EndBlock_loop exEnv [1, 2, 3, 4] 0 250 []) (accumulated stCancel 3 [1, 2, 3, 4]) ∧
    (EndBlock exEnv 0 250 stCancel).2.AccuVerifiers 2 = [1, 2, 3, 4] :=
  ⟨⟨rfl, rfl, rfl, rfl, rfl⟩,
    (C21_EndBlock_end_voting_dispatch exEnv 0 250 stCancel rfl rfl rfl rfl rfl).1,
    ((C21_EndBlock_end_voting_dispatch exEnv 0 250 stCancel rfl rfl rfl rfl rfl).2.2.1 2 [3]
      stCancel (.version vp2) rfl).1 (by decide),
    (((C21_EndBlock_end_voting_dispatch exEnv 0 250 stCancel rfl rfl rfl rfl rfl).2.2.1 3 []
      stCancel (.cancel cp3) rfl).2 rfl).2.2.1 cp3 rfl rfl,
    (C21_EndBlock_end_voting_dispatch exEnv 0 250 stCancel rfl rfl rfl rfl rfl).2.2.2.2.1 2
      (.version vp2) rfl (by decide)⟩

/-! ## Claims about the divisor of `tally` -/

theorem neverPanics_pure {α : Type} (a : α) : Gov.NeverPanics (pure a : Gov α) := by
  intro s msg h
  cases h

theorem neverPanics_fail_biz {α : Type} (m : String) :
    Gov.NeverPanics (Gov.fail (.biz m) : Gov α) := by
  intro s msg h
  cases h

theorem neverPanics_bind {α β : Type} (m : Gov α) (f : α → Gov β) (hm : Gov.NeverPanics m)
    (hf : ∀ a, Gov.NeverPanics (f a)) : Gov.NeverPanics (m >>= f) := by
  intro s msg
  rw [bind_run]
  have h1 := hm s msg
  cases h : m s with
  | mk r s1 =>
    rw [h] at h1
    cases r with
    | error e =>
      dsimp only at h1 ⊢
      intro h2
      cases h2
      exact h1 rfl
    | ok a => dsimp only; exact hf a s1 msg

theorem neverPanics_ite {α : Type} (c : Prop) [Decidable c] (m1 m2 : Gov α)
    (h1 : Gov.NeverPanics m1) (h2 : Gov.NeverPanics m2) :
    Gov.NeverPanics (if c then m1 else m2) := by
  split
  · exact h1
  · exact h2

theorem neverPanics_gwRead {α : Type} (env : Env) (op : GovOp) (f : State → α) :
    Gov.NeverPanics (gwRead env op f) := by
  intro s msg
  unfold gwRead
  split <;> intro h <;> cases h

theorem neverPanics_gwWrite (env : Env) (op : GovOp) (f : State → State) :
    Gov.NeverPanics (gwWrite env op f) := by
  intro s msg
  unfold gwWrite
  split <;> intro h <;> cases h

theorem neverPanics_GetExistProposal (env : Env) (id : Hash) :
    Gov.NeverPanics (GetExistProposal env id) := by
  intro s msg
  rcases GetExistProposal_cases env id s with ⟨p, _, h⟩ | ⟨e, h⟩
  · rw [h]; intro h2; cases h2
  · unfold GetExistProposal
    split
    · intro h2; cases h2
    · split <;> intro h2 <;> cases h2

theorem accuCount_accumulated_pos (t : State) (id : Hash) (vl : List NodeID) (hne : vl ≠ [])
    (hfit : (mergeNodes (t.AccuVerifiers id) vl).length < 65536) :
    1 ≤ accuCount (accumulated t id vl) id := by
  have hacc : (accumulated t id vl).AccuVerifiers id = mergeNodes (t.AccuVerifiers id) vl := by
    simp [accumulated, setAt]
  unfold accuCount
  rw [hacc, Nat.mod_eq_of_lt hfit]
  obtain ⟨v, hv⟩ := List.exists_mem_of_ne_nil vl hne
  exact List.length_pos_of_mem ((mem_mergeNodes _ _ v).2 (Or.inr hv))

theorem tally_no_panic (env : Env) (ty : ProposalType) (id bh : Hash) (bn : Nat) (s : State)
    (hN : 1 ≤ accuCount s id) (msg : String) :
    (tally env ty id bh bn s).1 ≠ .error (.panic msg) := by
  have hN0 : ¬ accuCount s id = 0 := by omega
  unfold tally
  simp only [bind_run, AccuVerifiersLength, ListVoteValue, gwRead]
  by_cases h1 : env.fails .AccuVerifiersLength = true
  · rw [if_pos h1]
    intro h; cases h
  · rw [if_neg h1]
    dsimp only
    by_cases h2 : env.fails .ListVoteValue = true
    · rw [if_pos h2]
      intro h; cases h
    · rw [if_neg h2]
      dsimp only
      rw [if_neg hN0]
      refine (?_ : Gov.NeverPanics _) s msg
      simp only [MoveVotingProposalIDToEnd, SetTallyResult]
      repeat' first
        | exact neverPanics_pure _
        | exact neverPanics_gwWrite _ _ _
        | apply neverPanics_bind
        | intro _

theorem tallyCancel_no_panic (env : Env) (cp : CancelProposal) (bh : Hash) (bn : Nat)
    (s : State) (hN : 1 ≤ accuCount s cp.ProposalID) (msg : String) :
    (tallyCancel env cp bh bn s).1 ≠ .error (.panic msg) := by
  have ht := tally_no_panic env .Cancel cp.ProposalID bh bn s hN msg
  unfold tallyCancel
  rw [bind_run]
  cases h : tally env .Cancel cp.ProposalID bh bn s with
  | mk r s1 =>
    rw [h] at ht
    cases r with
    | error e => exact ht
    | ok pass =>
      dsimp only
      refine (?_ : Gov.NeverPanics _) s1 msg
      simp only [listVotingProposalID, ListVotingProposal, GovPlugin_GetTallyResult,
        GetTallyResult, SetTallyResult, ClearActiveNodes, MoveVotingProposalIDToEnd]
      repeat' first
        | exact neverPanics_pure _
        | exact neverPanics_fail_biz _
        | exact neverPanics_gwRead _ _ _
        | exact neverPanics_gwWrite _ _ _
        | exact neverPanics_GetExistProposal _ _
        | apply neverPanics_bind
        | apply neverPanics_ite
        | split
        | intro _

/-- C26: at a state `t` the loop of `EndBlock` reaches, for a voting proposal `id` stored as `p`
with `p.EndVotingBlock = blockNumber` (the lookup and the accumulation write not failing): if the
current verifier list `vl` is not empty and the accumulated set fits the `uint16` count, then
after the merge the accumulated verifier count N of `id` is at least 1, and (1) for type Text the
step runs `tally` at that state and `tally` does not panic, (2) for a cancel proposal of type
Cancel the step runs `tallyCancel` at that state and neither its `tally` nor `tallyCancel`
panics. (3) Whenever N ≥ 1, for every proposal type and every state (so every vote list) `tally`
does not panic, and it returns a result when no gateway operation fails. -/
theorem C26_EndBlock_tally_divisor_positive (env : Env) (vl : List NodeID) (bh : Hash) (bn : Nat)
    (id : Hash) (rest : List Hash) (t : State) (p : Proposal)
    (hget : env.fails .GetExistProposal = false) (hacc : env.fails .AccuVerifiers = false)
    (hp : findProposal id t = some p) (hend : p.GetEndVotingBlock = bn)
    (hne : vl ≠ []) (hfit : (mergeNodes (t.AccuVerifiers id) vl).length < 65536) :
    1 ≤ accuCount (accumulated t id vl) id ∧
    (p.GetProposalType = .Text →
      EndBlock_loop env vl bh bn (id :: rest) t =
        (do let _ ← tally env .Text id bh bn
            EndBlock_loop env vl bh bn rest) (accumulated t id vl) ∧
      ∀ msg, (tally env .Text id bh bn (accumulated t id vl)).1 ≠ .error (.panic msg)) ∧
    (∀ cp : CancelProposal, p = .cancel cp → cp.ProposalType = .Cancel →
      EndBlock_loop env vl bh bn (id :: rest) t =
        (do let _ ← tallyCancel env cp bh bn
            EndBlock_loop env vl bh bn rest) (accumulated t id vl) ∧
      (∀ msg, (tally env .Cancel id bh bn (accumulated t id vl)).1 ≠ .error (.panic msg)) ∧
      ∀ msg, (tallyCancel env cp bh bn (accumulated t id vl)).1 ≠ .error (.panic msg)) ∧
    (∀ (ty : ProposalType) (s : State), 1 ≤ accuCount s id →
      (∀ msg, (tally env ty id bh bn s).1 ≠ .error (.panic msg)) ∧
      ((∀ op, env.fails op = false) → ∃ b s1, tally env ty id bh bn s = (.ok b, s1))) := by
  have hN := accuCount_accumulated_pos t id vl hne hfit
  have hstep := EndBlock_loop_step env vl bh bn id rest t p hget hacc hp hend
  have hid := findProposal_id id t p hp
  refine ⟨hN, fun hty => ⟨?_, fun msg => tally_no_panic env .Text id bh bn _ hN msg⟩,
    fun cp hc hty => ⟨?_, fun msg => tally_no_panic env .Cancel id bh bn _ hN msg, ?_⟩,
    fun ty s hs => ⟨fun msg => tally_no_panic env ty id bh bn s hs msg, fun hf => ?_⟩⟩
  · rw [hstep, EndBlock_dispatch_text env p bh bn hty, hid, bind_assoc_run]
    rfl
  · subst hc
    rw [hstep, EndBlock_dispatch_cancel env cp bh bn hty, bind_assoc_run]
    rfl
  · subst hc
    intro msg
    have hcp : cp.ProposalID = id := hid
    exact tallyCancel_no_panic env cp bh bn _ (by rw [hcp]; exact hN) msg
  · have hs0 : accuCount s id ≠ 0 := by omega
    exact ⟨_, _, tally_run env ty id bh bn s hf hs0⟩

theorem C26_EndBlock_tally_divisor_positive_witness :
    (exEnv.fails .GetExistProposal = false ∧ exEnv.fails .AccuVerifiers = false ∧
      findProposal 17 stBoundary = some (.text ⟨17, .Text, 1, 10, 100⟩) ∧
      ([1, 2, 3, 4] : List NodeID) ≠ [] ∧
      (mergeNodes (stBoundary.AccuVerifiers 17) [1, 2, 3, 4]).length < 65536) ∧
    1 ≤ accuCount (accumulated stBoundary 17 [1, 2, 3, 4]) 17 ∧
    EndBlock_loop exEnv [1, 2, 3, 4] 0 100 [17, 18, 19] stBoundary =
      (do let _ ← tally exEnv .Text 17 0 100
          EndBlock_loop exEnv [1, 2, 3, 4] 0 100 [18, 19])
        (accumulated stBoundary 17 [1, 2, 3, 4]) ∧
    (∀ msg, (tally exEnv .Text 17 0 100 (accumulated stBoundary 17 [1, 2, 3, 4])).1 ≠
      .error (.panic msg)) :=
  ⟨⟨rfl, rfl, rfl, by decide, by decide⟩,
    (C26_EndBlock_tally_divisor_positive exEnv [1, 2, 3, 4] 0 100 17 [18, 19] stBoundary
      (.text ⟨17, .Text, 1, 10, 100⟩) rfl rfl rfl rfl (by decide) (by decide)).1,
    ((C26_EndBlock_tally_divisor_positive exEnv [1, 2, 3, 4] 0 100 17 [18, 19] stBoundary
      (.text ⟨17, .Text, 1, 10, 100⟩) rfl rfl rfl rfl (by decide) (by decide)).2.1 rfl).1,
    ((C26_EndBlock_tally_divisor_positive exEnv [1, 2, 3, 4] 0 100 17 [18, 19] stBoundary
      (.text ⟨17, .Text, 1, 10, 100⟩) rfl rfl rfl rfl (by decide) (by decide)).2.1 rfl).2⟩

/-! ## The invariant on the ID lists -/

theorem moves_keeps {α : Type} (A B : IdLists → Prop) (m : Gov α)
    (hk : Gov.Keeps idLists m) (hAB : ∀ l, A l → B l) : Gov.Moves A B m := by
  intro s hA
  rw [hk s]
  exact hAB _ hA

theorem moves_bind {α β : Type} (A B C : IdLists → Prop) (m : Gov α) (f : α → Gov β)
    (hm : Gov.Moves A B m) (hBC : ∀ l, B l → C l) (hf : ∀ a, Gov.Moves B C (f a)) :
    Gov.Moves A C (m >>= f) := by
  intro s hA
  rw [bind_run]
  have h1 := hm s hA
  cases h : m s with
  | mk r s1 =>
    rw [h] at h1
    cases r with
    | error e => exact hBC _ h1
    | ok a => exact hf a s1 h1

theorem moves_bind_left {α β : Type} (A B : IdLists → Prop) (m : Gov α) (f : α → Gov β)
    (hk : Gov.Keeps idLists m) (hAB : ∀ l, A l → B l) (hf : ∀ a, Gov.Moves A B (f a)) :
    Gov.Moves A B (m >>= f) :=
  moves_bind A A B m f (moves_keeps A A m hk (fun _ h => h)) hAB hf

theorem moves_bind_right {α β : Type} (A B : IdLists → Prop) (m : Gov α) (f : α → Gov β)
    (hm : Gov.Moves A B m) (hf : ∀ a, Gov.Keeps idLists (f a)) :
    Gov.Moves A B (m >>= f) :=
  moves_bind A B B m f hm (fun _ h => h) (fun a => moves_keeps B B (f a) (hf a) (fun _ h => h))

theorem moves_ite {α : Type} (A B : IdLists → Prop) (c : Prop) [Decidable c] (m1 m2 : Gov α)
    (h1 : Gov.Moves A B m1) (h2 : Gov.Moves A B m2) : Gov.Moves A B (if c then m1 else m2) := by
  split
  · exact h1
  · exact h2

theorem moves_gwWrite (A B : IdLists → Prop) (env : Env) (op : GovOp) (f : State → State)
    (hf : ∀ s, A (idLists s) → B (idLists (f s))) (hAB : ∀ l, A l → B l) :
    Gov.Moves A B (gwWrite env op f) := by
  intro s hA
  unfold gwWrite
  split
  · exact hAB _ hA
  · exact hf s hA

theorem moves_bind_gwRead {α β : Type} (A B : IdLists → Prop) (env : Env) (op : GovOp)
    (f : State → β) (k : β → Gov α) (hAB : ∀ l, A l → B l)
    (hk : ∀ s, A (idLists s) → B (idLists (k (f s) s).2)) :
    Gov.Moves A B (gwRead env op f >>= k) := by
  intro s hA
  rw [bind_run]
  by_cases hf : env.fails op = true
  · have hr : gwRead env op f s = (.error (.store op), s) := by
      unfold gwRead
      rw [if_pos hf]
    rw [hr]
    exact hAB _ hA
  · have hr : gwRead env op f s = (.ok (f s), s) := by
      unfold gwRead
      rw [if_neg hf]
    rw [hr]
    exact hk s hA

theorem moves_weaken {α : Type} (A A1 B B1 : IdLists → Prop) (m : Gov α)
    (hm : Gov.Moves A1 B1 m) (hA : ∀ l, A l → A1 l) (hB : ∀ l, B1 l → B l) :
    Gov.Moves A B m := fun s h => hB _ (hm s (hA _ h))

theorem mem_filter_ne_iff (l : List Hash) (id x : Hash) :
    x ∈ l.filter (fun h => h != id) ↔ x ∈ l ∧ x ≠ id := by
  simp [List.mem_filter]

theorem partitioned_toEnd (l : IdLists) (id : Hash) (h : l.partitioned)
    (hid : id ∈ l.VotingList) : (l.toEnd id).partitioned := by
  intro p hp
  have hp0 := h p hp
  unfold IdLists.inExactlyOne IdLists.inPreActive at hp0 ⊢
  unfold IdLists.toEnd
  simp only [mem_filter_ne_iff, List.mem_append, List.mem_singleton]
  by_cases hx : p.GetProposalID = id
  · rw [hx] at hp0 ⊢
    tauto
  · tauto

theorem partitioned_toPreActive (l : IdLists) (id : Hash) (h : l.partitioned)
    (hid : id ∈ l.VotingList) (hz : id ≠ ZeroHash) (hslot : l.PreActive = ZeroHash) :
    (l.toPreActive id).partitioned := by
  intro p hp
  have hp0 := h p hp
  unfold IdLists.inExactlyOne IdLists.inPreActive at hp0 ⊢
  unfold IdLists.toPreActive
  simp only [mem_filter_ne_iff]
  rw [hslot] at hp0
  by_cases hx : p.GetProposalID = id
  · rw [hx] at hp0 ⊢
    tauto
  · have hx2 : ¬ id = p.GetProposalID := fun e => hx e.symm
    tauto

theorem tally_moves (env : Env) (ty : ProposalType) (id bh : Hash) (bn : Nat) (l0 : IdLists) :
    Gov.Moves (fun l => l = l0) (fun l => l = l0 ∨ l = l0.toEnd id)
      (tally env ty id bh bn) := by
  unfold tally
  refine moves_bind_left _ _ _ _ (keeps_gwRead _ _ _ _) (fun _ h => Or.inl h) (fun n => ?_)
  refine moves_bind_left _ _ _ _ (keeps_gwRead _ _ _ _) (fun _ h => Or.inl h) (fun votes => ?_)
  refine moves_ite _ _ _ _ _ (moves_keeps _ _ _ (keeps_fail _ _) (fun _ h => Or.inl h)) ?_
  refine moves_bind_right _ _ _ _ ?_ (fun _ => ?_)
  · refine moves_gwWrite _ _ _ _ _ (fun s h => Or.inr ?_) (fun _ h => Or.inl h)
    rw [← h]
    rfl
  · exact keeps_bind _ _ _ (keeps_gwWrite _ _ _ _ (fun _ => rfl)) (fun _ => keeps_pure _ _)

theorem tallyVersion_moves (env : Env) (vp : VersionProposal) (bh : Hash) (bn : Nat)
    (l0 : IdLists) :
    Gov.Moves (fun l => l = l0)
      (fun l => l = l0 ∨ l = l0.toEnd vp.ProposalID ∨ l = l0.toPreActive vp.ProposalID)
      (tallyVersion env vp bh bn) := by
  unfold tallyVersion
  refine moves_bind_left _ _ _ _ (keeps_gwRead _ _ _ _) (fun _ h => Or.inl h) (fun n => ?_)
  refine moves_bind_left _ _ _ _ (keeps_gwRead _ _ _ _) (fun _ h => Or.inl h) (fun votes => ?_)
  dsimp only
  refine moves_ite _ _ _ _ _ ?_ ?_
  · refine moves_bind_right _ _ _ _ ?_ (fun _ => ?_)
    · refine moves_gwWrite _ _ _ _ _ (fun s h => Or.inr (Or.inr ?_)) (fun _ h => Or.inl h)
      rw [← h]
      rfl
    · simp only [SetPreActiveVersion, GetActiveNodeList, SetTallyResult]
      repeat' first
        | exact keeps_pure _ _
        | exact keeps_gwRead _ _ _ _
        | exact keeps_gwWrite _ _ _ _ (fun _ => rfl)
        | exact keeps_stkNotify _ _ _ _ (fun _ => rfl)
        | apply keeps_bind
        | intro _
  · refine moves_bind_right _ _ _ _ ?_ (fun _ => ?_)
    · refine moves_gwWrite _ _ _ _ _ (fun s h => Or.inr (Or.inl ?_)) (fun _ h => Or.inl h)
      rw [← h]
      rfl
    · exact keeps_gwWrite _ _ _ _ (fun _ => rfl)

theorem tallyCancel_moves (env : Env) (cp : CancelProposal) (bh : Hash) (bn : Nat)
    (l0 : IdLists) :
    Gov.Moves (fun l => l = l0)
      (fun l => ∃ l1, (l1 = l0 ∨ l1 = l0.toEnd cp.ProposalID) ∧
        (l = l1 ∨ (cp.TobeCanceled ∈ l1.VotingList ∧ l = l1.toEnd cp.TobeCanceled)))
      (tallyCancel env cp bh bn) := by
  unfold tallyCancel
  refine moves_bind _ _ _ _ _ (tally_moves env .Cancel cp.ProposalID bh bn l0)
    (fun l h => ⟨l, h, Or.inl rfl⟩) (fun pass => ?_)
  refine moves_ite _ _ _ _ _ ?_ (moves_keeps _ _ _ (keeps_pure _ _) (fun l h => ⟨l, h, Or.inl rfl⟩))
  refine moves_bind_left _ _ _ _ (keeps_GetExistProposal _ _ _) (fun l h => ⟨l, h, Or.inl rfl⟩)
    (fun p => ?_)
  refine moves_ite _ _ _ _ _
    (moves_keeps _ _ _ (keeps_fail _ _) (fun l h => ⟨l, h, Or.inl rfl⟩)) ?_
  unfold listVotingProposalID ListVotingProposal
  refine moves_bind_gwRead _ _ _ _ _ _ (fun l h => ⟨l, h, Or.inl rfl⟩) (fun s h => ?_)
  by_cases hin : InHashList cp.TobeCanceled s.VotingList = true
  · have hmem : cp.TobeCanceled ∈ (idLists s).VotingList := by
      unfold InHashList at hin
      rw [List.any_eq_true] at hin
      obtain ⟨x, hx, hxe⟩ := hin
      have : x = cp.TobeCanceled := by simpa using hxe
      rw [← this]
      exact hx
    have hnot : ¬ ((!InHashList cp.TobeCanceled s.VotingList) = true) := by
      rw [hin]; decide
    rw [if_neg hnot]
    have hrest : Gov.Moves (fun l => l = idLists s)
        (fun l => l = idLists s ∨ l = (idLists s).toEnd cp.TobeCanceled)
        (do
          let tallyResult ← GovPlugin_GetTallyResult env cp.TobeCanceled
          let tallyResult := { tallyResult with Status := .Canceled, CanceledBy := cp.ProposalID }
          SetTallyResult env tallyResult
          ClearActiveNodes env cp.TobeCanceled
          MoveVotingProposalIDToEnd env cp.TobeCanceled
          pure true) := by
      have hk : Gov.Keeps idLists (GovPlugin_GetTallyResult env cp.TobeCanceled) := by
        unfold GovPlugin_GetTallyResult
        refine keeps_bind _ _ _ (keeps_gwRead _ _ _ _) (fun r => ?_)
        cases r with
        | none => exact keeps_fail _ _
        | some t => exact keeps_pure _ _
      refine moves_bind_left _ _ _ _ hk (fun _ h => Or.inl h) (fun tr => ?_)
      refine moves_bind_left _ _ _ _ (keeps_gwWrite _ _ _ _ (fun _ => rfl))
        (fun _ h => Or.inl h) (fun _ => ?_)
      refine moves_bind_left _ _ _ _ (keeps_gwWrite _ _ _ _ (fun _ => rfl))
        (fun _ h => Or.inl h) (fun _ => ?_)
      refine moves_bind_right _ _ _ _ ?_ (fun _ => keeps_pure _ _)
      refine moves_gwWrite _ _ _ _ _ (fun s1 h1 => Or.inr ?_) (fun _ h => Or.inl h)
      rw [← h1]
      rfl
    rcases hrest s rfl with h1 | h1
    · exact ⟨idLists s, h, Or.inl h1⟩
    · exact ⟨idLists s, h, Or.inr ⟨hmem, h1⟩⟩
  · have hyes : (!InHashList cp.TobeCanceled s.VotingList) = true := by
      simpa using hin
    rw [if_pos hyes]
    exact ⟨idLists s, h, Or.inl rfl⟩

theorem EndBlock_dispatch_moves (env : Env) (p : Proposal) (bh : Hash) (bn : Nat)
    (l0 : IdLists) :
    Gov.Moves (fun l => l = l0)
      (fun l => l = l0 ∨ l = l0.toEnd p.GetProposalID ∨
        (p.GetProposalType = .Version ∧ l = l0.toPreActive p.GetProposalID) ∨
        (∃ cp, p = .cancel cp ∧ ∃ l1, (l1 = l0 ∨ l1 = l0.toEnd p.GetProposalID) ∧
          cp.TobeCanceled ∈ l1.VotingList ∧ l = l1.toEnd cp.TobeCanceled))
      (EndBlock_dispatch env p bh bn) := by
  unfold EndBlock_dispatch
  by_cases h1 : p.GetProposalType = .Text
  · rw [if_pos h1]
    refine moves_bind_right _ _ _ _ ?_ (fun _ => keeps_pure _ _)
    refine moves_weaken _ _ _ _ _ (tally_moves env .Text p.GetProposalID bh bn l0)
      (fun _ h => h) (fun l h => ?_)
    rcases h with h | h
    · exact Or.inl h
    · exact Or.inr (Or.inl h)
  · rw [if_neg h1]
    by_cases h2 : p.GetProposalType = .Version
    · rw [if_pos h2]
      cases p with
      | version vp =>
        refine moves_weaken _ _ _ _ _ (tallyVersion_moves env vp bh bn l0)
          (fun _ h => h) (fun l h => ?_)
        rcases h with h | h | h
        · exact Or.inl h
        · exact Or.inr (Or.inl h)
        · exact Or.inr (Or.inr (Or.inl ⟨h2, h⟩))
      | text tp => exact moves_keeps _ _ _ (keeps_fail _ _) (fun _ h => Or.inl h)
      | cancel cp => exact moves_keeps _ _ _ (keeps_fail _ _) (fun _ h => Or.inl h)
    · rw [if_neg h2]
      by_cases h3 : p.GetProposalType = .Cancel
      · rw [if_pos h3]
        cases p with
        | cancel cp =>
          refine moves_bind_right _ _ _ _ ?_ (fun _ => keeps_pure _ _)
          refine moves_weaken _ _ _ _ _ (tallyCancel_moves env cp bh bn l0)
            (fun _ h => h) (fun l h => ?_)
          obtain ⟨l1, hl1, h⟩ := h
          rcases h with h | ⟨hmem, h⟩
          · rw [h]
            rcases hl1 with hl1 | hl1
            · exact Or.inl hl1
            · exact Or.inr (Or.inl hl1)
          · exact Or.inr (Or.inr (Or.inr ⟨cp, rfl, l1, hl1, hmem, h⟩))
        | text tp => exact moves_keeps _ _ _ (keeps_fail _ _) (fun _ h => Or.inl h)
        | version vp => exact moves_keeps _ _ _ (keeps_fail _ _) (fun _ h => Or.inl h)
      · rw [if_neg h3]
        exact moves_keeps _ _ _ (keeps_fail _ _) (fun _ h => Or.inl h)

theorem EndBlock_loop_partitioned (env : Env) (vl : List NodeID) (bh : Hash) (bn : Nat)
    (look : Hash → Option Proposal) (ids : List Hash) (s : State)
    (hlook : ∀ id, findProposal id s = look id)
    (hinv : listsPartition s) (hnodup : ids.Nodup) (hzero : ZeroHash ∉ ids)
    (hvl : ∀ id ∈ ids, ∀ p, look id = some p → p.GetEndVotingBlock = bn → id ∈ s.VotingList)
    (hslot : ∀ id ∈ ids, ∀ p, look id = some p → p.GetProposalType = .Version →
      p.GetEndVotingBlock = bn → s.PreActive = ZeroHash)
    (huniq : ∀ id ∈ ids, ∀ id2 ∈ ids, ∀ p p2, look id = some p → look id2 = some p2 →
      p.GetProposalType = .Version → p2.GetProposalType = .Version →
      p.GetEndVotingBlock = bn → p2.GetEndVotingBlock = bn → id = id2)
    (hcancel : ∀ id ∈ ids, ∀ cp, look id = some (.cancel cp) → cp.EndVotingBlock = bn →
      ∀ q, look cp.TobeCanceled = some q → q.GetEndVotingBlock ≠ bn) :
    listsPartition (EndBlock_loop env vl bh bn ids s).2 := by
  induction ids generalizing s with
  | nil => exact hinv
  | cons x rest ih =>
    have hxr : x ∉ rest := (List.nodup_cons.1 hnodup).1
    have hrn : rest.Nodup := (List.nodup_cons.1 hnodup).2
    have hzr : ZeroHash ∉ rest := fun h => hzero (List.mem_cons_of_mem _ h)
    have hxz : x ≠ ZeroHash := fun h => hzero (h ▸ List.mem_cons_self _ _)
    have huniq2 : ∀ id ∈ rest, ∀ id2 ∈ rest, ∀ p p2, look id = some p → look id2 = some p2 →
        p.GetProposalType = .Version → p2.GetProposalType = .Version →
        p.GetEndVotingBlock = bn → p2.GetEndVotingBlock = bn → id = id2 :=
      fun id hid id2 hid2 =>
        huniq id (List.mem_cons_of_mem _ hid) id2 (List.mem_cons_of_mem _ hid2)
    have hcancel2 : ∀ id ∈ rest, ∀ cp, look id = some (.cancel cp) → cp.EndVotingBlock = bn →
        ∀ q, look cp.TobeCanceled = some q → q.GetEndVotingBlock ≠ bn :=
      fun id hid => hcancel id (List.mem_cons_of_mem _ hid)
    rw [EndBlock_loop_cons, bind_run]
    rcases GetExistProposal_cases env x s with ⟨p, hfind, hrun⟩ | ⟨e, hrun⟩
    · rw [hrun]
      dsimp only
      have hlx : look x = some p := by rw [← hlook]; exact hfind
      have hpid : p.GetProposalID = x := findProposal_id x s p hfind
      by_cases hend : p.GetEndVotingBlock = bn
      · rw [if_pos hend, bind_run]
        have hxin : x ∈ s.VotingList := hvl x (List.mem_cons_self _ _) p hlx hend
        rcases AccuVerifiers_cases env x vl s with ha | ⟨e, ha⟩
        · rw [ha]
          dsimp only
          rw [bind_run]
          have hsh := EndBlock_dispatch_moves env p bh bn (idLists s) (accumulated s x vl) rfl
          rw [hpid] at hsh
          have hk2 := EndBlock_dispatch_keeps _ ignoresTallyWrites_proposals env p bh bn
            (accumulated s x vl)
          cases hd : EndBlock_dispatch env p bh bn (accumulated s x vl) with
          | mk r s2 =>
            rw [hd] at hsh hk2
            have hprop : s2.Proposals = s.Proposals := hk2
            have hlook2 : ∀ id, findProposal id s2 = look id := fun id => by
              rw [findProposal_congr id s s2 hprop]; exact hlook id
            have hinv2 : listsPartition s2 := by
              unfold listsPartition
              rcases hsh with h | h | ⟨hty, h⟩ | ⟨cp, hcp, l1, hl1, hmem, h⟩
              · rw [h]; exact hinv
              · rw [h]; exact partitioned_toEnd _ _ hinv hxin
              · rw [h]
                exact partitioned_toPreActive _ _ hinv hxin hxz
                  (hslot x (List.mem_cons_self _ _) p hlx hty hend)
              · rw [h]
                have hl1p : l1.partitioned := by
                  rcases hl1 with hl1 | hl1
                  · rw [hl1]; exact hinv
                  · rw [hl1]; exact partitioned_toEnd _ _ hinv hxin
                exact partitioned_toEnd _ _ hl1p hmem
            have hvl2 : ∀ id ∈ rest, ∀ q, look id = some q → q.GetEndVotingBlock = bn →
                id ∈ s2.VotingList := by
              intro id hid q hq hqe
              have h0 : id ∈ s.VotingList := hvl id (List.mem_cons_of_mem _ hid) q hq hqe
              have hne : id ≠ x := fun e => hxr (e ▸ hid)
              have hf1 : id ∈ ((idLists s).toEnd x).VotingList :=
                (mem_filter_ne_iff _ _ _).2 ⟨h0, hne⟩
              have hf2 : id ∈ ((idLists s).toPreActive x).VotingList :=
                (mem_filter_ne_iff _ _ _).2 ⟨h0, hne⟩
              show id ∈ (idLists s2).VotingList
              rcases hsh with h | h | ⟨hty, h⟩ | ⟨cp, hcp, l1, hl1, hmem, h⟩
              · rw [h]; exact h0
              · rw [h]; exact hf1
              · rw [h]; exact hf2
              · rw [h]
                have hl1m : id ∈ l1.VotingList := by
                  rcases hl1 with hl1 | hl1
                  · rw [hl1]; exact h0
                  · rw [hl1]; exact hf1
                have hnt : id ≠ cp.TobeCanceled := by
                  intro e
                  rw [hcp] at hlx
                  have hcend : cp.EndVotingBlock = bn := by rw [hcp] at hend; exact hend
                  exact hcancel x (List.mem_cons_self _ _) cp hlx hcend q (e ▸ hq) hqe
                exact (mem_filter_ne_iff _ _ _).2 ⟨hl1m, hnt⟩
            have hslot2 : ∀ id ∈ rest, ∀ q, look id = some q → q.GetProposalType = .Version →
                q.GetEndVotingBlock = bn → s2.PreActive = ZeroHash := by
              intro id hid q hq hqt hqe
              have h0 : s.PreActive = ZeroHash :=
                hslot id (List.mem_cons_of_mem _ hid) q hq hqt hqe
              show (idLists s2).PreActive = ZeroHash
              rcases hsh with h | h | ⟨hty, h⟩ | ⟨cp, hcp, l1, hl1, hmem, h⟩
              · rw [h]; exact h0
              · rw [h]; exact h0
              · exfalso
                have := huniq x (List.mem_cons_self _ _) id (List.mem_cons_of_mem _ hid) p q
                  hlx hq hty hqt hend hqe
                exact hxr (this ▸ hid)
              · rw [h]
                rcases hl1 with hl1 | hl1
                · rw [hl1]; exact h0
                · rw [hl1]; exact h0
            cases r with
            | error e => exact hinv2
            | ok u => exact ih s2 hlook2 hinv2 hrn hzr hvl2 hslot2 huniq2 hcancel2
        · rw [ha]
          exact hinv
      · rw [if_neg hend]
        exact ih s hlook hinv hrn hzr
          (fun id hid => hvl id (List.mem_cons_of_mem _ hid))
          (fun id hid => hslot id (List.mem_cons_of_mem _ hid)) huniq2 hcancel2
    · rw [hrun]
      exact hinv

theorem EndBlock_settlement_keeps_idLists (env : Env) (vl : List NodeID) (ids : List Hash) :
    Gov.Keeps idLists (EndBlock_settlement env vl ids) := by
  induction ids with
  | nil => exact keeps_pure _ _
  | cons id rest ih =>
    unfold EndBlock_settlement
    exact keeps_bind _ _ _ (keeps_gwWrite _ _ _ _ (fun _ => rfl)) (fun _ => ih)

theorem EndBlock_partitioned (env : Env) (bh : Hash) (bn : Nat) (s : State)
    (hinv : listsPartition s) (hnodup : s.VotingList.Nodup) (hzero : ZeroHash ∉ s.VotingList)
    (hslot : ∀ id ∈ s.VotingList, ∀ p, findProposal id s = some p →
      p.GetProposalType = .Version → p.GetEndVotingBlock = bn → s.PreActive = ZeroHash)
    (huniq : ∀ id ∈ s.VotingList, ∀ id2 ∈ s.VotingList, ∀ p p2, findProposal id s = some p →
      findProposal id2 s = some p2 → p.GetProposalType = .Version →
      p2.GetProposalType = .Version → p.GetEndVotingBlock = bn → p2.GetEndVotingBlock = bn →
      id = id2)
    (hcancel : ∀ id ∈ s.VotingList, ∀ cp, findProposal id s = some (.cancel cp) →
      cp.EndVotingBlock = bn →
      ∀ q, findProposal cp.TobeCanceled s = some q → q.GetEndVotingBlock ≠ bn) :
    listsPartition (EndBlock env bh bn s).2 := by
  unfold EndBlock ListVotingProposal
  refine moves_bind_gwRead (fun l => l = idLists s) IdLists.partitioned _ _ _ _
    (fun l h => h ▸ hinv) (fun t ht => ?_) s rfl
  have hvt : t.VotingList = s.VotingList := congrArg IdLists.VotingList ht
  have hpt : t.Proposals = s.Proposals := congrArg IdLists.Proposals ht
  have hat : t.PreActive = s.PreActive := congrArg IdLists.PreActive ht
  have hinvt : listsPartition t := by
    unfold listsPartition
    rw [ht]
    exact hinv
  by_cases hlen : t.VotingList.length = 0
  · rw [if_pos hlen]
    exact hinvt
  · rw [if_neg hlen, bind_run]
    by_cases hf : env.stkFails .ListVerifierNodeID = true
    · have hr : stkRead env .ListVerifierNodeID (env.ListVerifierNodeID bh bn) t =
          (.error (.stk .ListVerifierNodeID), t) := by
        unfold stkRead
        rw [if_pos hf]
      rw [hr]
      exact hinvt
    · have hr : stkRead env .ListVerifierNodeID (env.ListVerifierNodeID bh bn) t =
          (.ok (env.ListVerifierNodeID bh bn), t) := by
        unfold stkRead
        rw [if_neg hf]
      rw [hr]
      dsimp only
      by_cases hset : env.IsSettlementPeriod bn = true
      · rw [if_pos hset]
        show (idLists _).partitioned
        rw [EndBlock_settlement_keeps_idLists env _ _ t]
        exact hinvt
      · rw [if_neg hset, hvt]
        refine EndBlock_loop_partitioned env _ bh bn (fun id => findProposal id s) _ t
          (fun id => findProposal_congr id s t hpt) hinvt hnodup hzero ?_ ?_ huniq hcancel
        · intro id hid p _ _
          rw [hvt]
          exact hid
        · intro id hid p hp hty hend
          rw [hat]
          exact hslot id hid p hp hty hend

theorem partitioned_of_same_lists (l0 l : IdLists) (h0 : l0.partitioned)
    (hv : l.VotingList = l0.VotingList) (hp : l.PreActive = l0.PreActive)
    (he : l.EndList = l0.EndList)
    (hids : ∀ p ∈ l.Proposals, ∃ q ∈ l0.Proposals, q.GetProposalID = p.GetProposalID) :
    l.partitioned := by
  intro p hpm
  obtain ⟨q, hq, hqid⟩ := hids p hpm
  have := h0 q hq
  unfold IdLists.inExactlyOne IdLists.inPreActive at this ⊢
  rw [hv, hp, he, ← hqid]
  exact this

theorem partitioned_preActive_toEnd (l0 l : IdLists) (h0 : l0.partitioned)
    (hz : l0.PreActive ≠ ZeroHash)
    (hv : l.VotingList = l0.VotingList) (hp : l.PreActive = ZeroHash)
    (he : l.EndList = l0.EndList ++ [l0.PreActive])
    (hids : ∀ p ∈ l.Proposals, ∃ q ∈ l0.Proposals, q.GetProposalID = p.GetProposalID) :
    l.partitioned := by
  intro p hpm
  obtain ⟨q, hq, hqid⟩ := hids p hpm
  have := h0 q hq
  unfold IdLists.inExactlyOne IdLists.inPreActive at this ⊢
  rw [hv, hp, he, ← hqid]
  simp only [List.mem_append, List.mem_singleton]
  by_cases hx : q.GetProposalID = l0.PreActive
  · rw [hx] at this ⊢
    have hz2 : ¬ ZeroHash = l0.PreActive := fun e => hz e.symm
    tauto
  · have hx2 : ¬ l0.PreActive = q.GetProposalID := fun e => hx e.symm
    have hx3 : q.GetProposalID = ZeroHash → ¬ ZeroHash = q.GetProposalID → False :=
      fun a b => b a.symm
    tauto

theorem moves_logOnly (A B : IdLists → Prop) (m : Gov Unit) (h : Gov.Moves A B m) :
    Gov.Moves A B (Gov.logOnly m) := fun s hs => h s hs

theorem BeginBlock_moves (env : Env) (bh : Hash) (bn : Nat) (l0 : IdLists)
    (h0 : l0.partitioned) :
    Gov.Moves (fun l => l = l0) IdLists.partitioned (BeginBlock env bh bn) := by
  have hAB : ∀ l, l = l0 → l.partitioned := fun l h => h ▸ h0
  unfold BeginBlock GetPreActiveProposalID
  refine moves_bind_gwRead _ _ _ _ _ _ hAB (fun s hs => ?_)
  have hinv : (idLists s).partitioned := hAB _ hs
  by_cases hz : s.PreActive = ZeroHash
  · rw [if_pos hz]
    exact hinv
  · rw [if_neg hz, bind_run]
    rcases GetExistProposal_cases env s.PreActive s with ⟨p, hfind, hrun⟩ | ⟨e, hrun⟩
    · rw [hrun]
      dsimp only
      cases p with
      | text tp => exact hinv
      | cancel cp => exact hinv
      | version vp =>
        dsimp only
        have hmem : Proposal.version vp ∈ l0.Proposals := by
          rw [← hs]
          exact List.mem_of_find?_eq_some hfind
        have hvid : vp.ProposalID = l0.PreActive := by
          rw [← hs]
          exact findProposal_id _ s _ hfind
        have hz0 : l0.PreActive ≠ ZeroHash := by
          rw [← hs]
          exact hz
        have hpre : s.PreActive = l0.PreActive := congrArg IdLists.PreActive hs
        rw [hpre]
        refine (?_ : Gov.Moves (fun l => l = l0) IdLists.partitioned _) s hs
        refine moves_ite _ _ _ _ _ ?_ (moves_keeps _ _ _ (keeps_pure _ _) hAB)
        refine moves_ite _ _ _ _ _ (moves_keeps _ _ _ (keeps_fail _ _) hAB) ?_
        refine moves_ite _ _ _ _ _ ?_ (moves_keeps _ _ _ (keeps_pure _ _) hAB)
        refine moves_bind_left _ _ _ _ (keeps_stkRead _ _ _ _) hAB (fun cv => ?_)
        refine moves_bind_left _ _ _ _ (keeps_gwRead _ _ _ _) hAB (fun al => ?_)
        refine moves_ite _ _ _ _ _ ?_ (moves_keeps _ _ _ (keeps_pure _ _) hAB)
        refine moves_bind_left _ _ _ _ (keeps_gwRead _ _ _ _) hAB (fun tr => ?_)
        cases tr with
        | none => exact moves_keeps _ _ _ (keeps_fail _ _) hAB
        | some tr =>
          dsimp only
          refine moves_bind_left _ _ _ _ (keeps_gwWrite _ _ _ _ (fun _ => rfl)) hAB
            (fun _ => ?_)
          have hBC : ∀ l : IdLists, (l.VotingList = l0.VotingList ∧ l.PreActive = l0.PreActive ∧
              l.EndList = l0.EndList ∧
              ∀ p ∈ l.Proposals, ∃ q ∈ l0.Proposals, q.GetProposalID = p.GetProposalID) →
              l.partitioned :=
            fun l h => partitioned_of_same_lists l0 l h0 h.1 h.2.1 h.2.2.1 h.2.2.2
          have hsame : ∀ l : IdLists, l = l0 → l.VotingList = l0.VotingList ∧
              l.PreActive = l0.PreActive ∧ l.EndList = l0.EndList ∧
              ∀ p ∈ l.Proposals, ∃ q ∈ l0.Proposals, q.GetProposalID = p.GetProposalID := by
            intro l h
            rw [h]
            exact ⟨rfl, rfl, rfl, fun p hp => ⟨p, hp, rfl⟩⟩
          have htail : Gov.Moves
              (fun l => l.VotingList = l0.VotingList ∧ l.PreActive = l0.PreActive ∧
                l.EndList = l0.EndList ∧
                ∀ p ∈ l.Proposals, ∃ q ∈ l0.Proposals, q.GetProposalID = p.GetProposalID)
              IdLists.partitioned
              (do
                MovePreActiveProposalIDToEnd env l0.PreActive
                ClearActiveNodes env l0.PreActive
                AddActiveVersion env vp.NewVersion bn) := by
            refine moves_bind_right _ _ _ _ ?_ (fun _ => ?_)
            · refine moves_gwWrite _ _ _ _ _ (fun t ht => ?_) hBC
              refine partitioned_preActive_toEnd l0 _ h0 hz0 ht.1 rfl ?_ ht.2.2.2
              show t.EndList ++ [l0.PreActive] = l0.EndList ++ [l0.PreActive]
              rw [show t.EndList = l0.EndList from ht.2.2.1]
            · exact keeps_bind _ _ _ (keeps_gwWrite _ _ _ _ (fun _ => rfl))
                (fun _ => keeps_gwWrite _ _ _ _ (fun _ => rfl))
          refine moves_ite _ _ _ _ _ ?_ ?_
          · refine moves_bind _ _ _ _ _ ?_ hBC (fun _ => htail)
            refine moves_logOnly _ _ _ ?_
            refine moves_gwWrite _ _ _ _ _ (fun t ht => ?_) hsame
            have htv : t.VotingList = l0.VotingList := congrArg IdLists.VotingList ht
            have htp : t.PreActive = l0.PreActive := congrArg IdLists.PreActive ht
            have hte : t.EndList = l0.EndList := congrArg IdLists.EndList ht
            have htq : t.Proposals = l0.Proposals := congrArg IdLists.Proposals ht
            refine ⟨htv, htp, hte, ?_⟩
            intro p hp
            rcases List.mem_cons.1 hp with hp | hp
            · exact ⟨.version vp, hmem, by rw [hp]; rfl⟩
            · exact ⟨p, htq ▸ (List.mem_filter.1 hp).1, rfl⟩
          · exact moves_bind _ _ _ _ _ (moves_keeps _ _ _ (keeps_pure _ _) hsame) hBC
              (fun _ => htail)
    · rw [hrun]
      exact hinv

theorem Submit_partitioned (env : Env) (caller : Address) (proposal : Proposal) (bh : Hash)
    (bn : Nat) (s : State) (hinv : listsPartition s)
    (hv : proposal.GetProposalID ∉ s.VotingList)
    (hp : ¬ (idLists s).inPreActive proposal.GetProposalID)
    (he : proposal.GetProposalID ∉ s.EndList) :
    listsPartition (Submit env caller proposal bh bn s).2 ∨
      (Submit env caller proposal bh bn s).1 = .error (.store .AddVotingProposalID) := by
  unfold Submit
  rw [bind_run]
  dsimp only
  cases hver : env.Verify proposal bn bh s with
  | some msg => exact Or.inl hinv
  | none =>
    dsimp only
    rw [bind_run]
    have hk := keeps_checkVerifier (fun s => s) env caller proposal.GetProposer bh
      proposal.GetSubmitBlock s
    cases hc : checkVerifier env caller proposal.GetProposer bh proposal.GetSubmitBlock s with
    | mk r s1 =>
      rw [hc] at hk
      have hs1 : s1 = s := hk
      subst hs1
      cases r with
      | error e => exact Or.inl hinv
      | ok u =>
        dsimp only
        rw [bind_run]
        unfold SetProposal AddVotingProposalID
        by_cases h1 : env.fails .SetProposal = true
        · have hr : ∀ f, gwWrite env .SetProposal f s1 = (.error (.store .SetProposal), s1) := by
            intro f
            unfold gwWrite
            rw [if_pos h1]
          rw [hr]
          exact Or.inl hinv
        · have hr : ∀ f, gwWrite env .SetProposal f s1 = (.ok (), f s1) := by
            intro f
            unfold gwWrite
            rw [if_neg h1]
          rw [hr]
          dsimp only
          by_cases h2 : env.fails .AddVotingProposalID = true
          · right
            unfold gwWrite
            rw [if_pos h2]
          · left
            unfold gwWrite
            rw [if_neg h2]
            intro p hpm
            have hpm2 : p = proposal ∨
                (p ∈ s1.Proposals ∧ p.GetProposalID ≠ proposal.GetProposalID) := by
              rcases List.mem_cons.1 hpm with h | h
              · exact Or.inl h
              · have := List.mem_filter.1 h
                exact Or.inr ⟨this.1, by simpa using this.2⟩
            unfold IdLists.inPreActive at hp
            unfold IdLists.inExactlyOne IdLists.inPreActive
            show (p.GetProposalID ∈ s1.VotingList ++ [proposal.GetProposalID] ∧
                ¬ (p.GetProposalID ≠ ZeroHash ∧ s1.PreActive = p.GetProposalID) ∧
                p.GetProposalID ∉ s1.EndList) ∨
              (p.GetProposalID ∉ s1.VotingList ++ [proposal.GetProposalID] ∧
                (p.GetProposalID ≠ ZeroHash ∧ s1.PreActive = p.GetProposalID) ∧
                p.GetProposalID ∉ s1.EndList) ∨
              (p.GetProposalID ∉ s1.VotingList ++ [proposal.GetProposalID] ∧
                ¬ (p.GetProposalID ≠ ZeroHash ∧ s1.PreActive = p.GetProposalID) ∧
                p.GetProposalID ∈ s1.EndList)
            simp only [List.mem_append, List.mem_singleton]
            rcases hpm2 with h | ⟨hold, hne⟩
            · rw [h]
              have hp2 : ¬ (proposal.GetProposalID ≠ ZeroHash ∧
                  s1.PreActive = proposal.GetProposalID) := hp
              tauto
            · have := hinv p hold
              unfold IdLists.inExactlyOne IdLists.inPreActive at this
              have h3 : (p.GetProposalID ∈ s1.VotingList ∧
                  ¬ (p.GetProposalID ≠ ZeroHash ∧ s1.PreActive = p.GetProposalID) ∧
                  p.GetProposalID ∉ s1.EndList) ∨
                (p.GetProposalID ∉ s1.VotingList ∧
                  (p.GetProposalID ≠ ZeroHash ∧ s1.PreActive = p.GetProposalID) ∧
                  p.GetProposalID ∉ s1.EndList) ∨
                (p.GetProposalID ∉ s1.VotingList ∧
                  ¬ (p.GetProposalID ≠ ZeroHash ∧ s1.PreActive = p.GetProposalID) ∧
                  p.GetProposalID ∈ s1.EndList) := this
              simp only [or_iff_left hne]
              exact h3

/-- C24 as amended: the predicate 'every stored proposal ID is in exactly one of the VotingList,
the PreActive slot and the EndList' (`listsPartition`), when it holds before, holds after each
operation under the stated condition, whether the operation returns an error or not: (1) `Submit` of a new ID (one in none
of the three lists), unless `Submit` returns the gateway error of its last write
`AddVotingProposalID`; (2) `tally` of an ID in the VotingList; (3) `tallyVersion` of a non-zero
ID in the VotingList while the PreActive slot is empty; (4) `tallyCancel` of a cancel proposal in
the VotingList, for the cancel proposal and the proposal it cancels; (5) `EndBlock`, when the
VotingList has no duplicate and not the zero hash, a version proposal ends its voting at this
block only while the PreActive slot is empty, at most one does, and no cancel proposal ending at
this block targets a proposal that ends at this block too; (6) `BeginBlock`. -/
theorem C24_lists_partition_preserved (env : Env) (bh : Hash) (bn : Nat) (s : State)
    (hinv : listsPartition s) :
    (∀ (caller : Address) (proposal : Proposal),
      proposal.GetProposalID ∉ s.VotingList →
      ¬ (idLists s).inPreActive proposal.GetProposalID →
      proposal.GetProposalID ∉ s.EndList →
      listsPartition (Submit env caller proposal bh bn s).2 ∨
        (Submit env caller proposal bh bn s).1 = .error (.store .AddVotingProposalID)) ∧
    (∀ (ty : ProposalType) (id : Hash), id ∈ s.VotingList →
      listsPartition (tally env ty id bh bn s).2) ∧
    (∀ vp : VersionProposal, vp.ProposalID ∈ s.VotingList → vp.ProposalID ≠ ZeroHash →
      s.PreActive = ZeroHash → listsPartition (tallyVersion env vp bh bn s).2) ∧
    (∀ cp : CancelProposal, cp.ProposalID ∈ s.VotingList →
      listsPartition (tallyCancel env cp bh bn s).2) ∧
    (s.VotingList.Nodup → ZeroHash ∉ s.VotingList →
      (∀ id ∈ s.VotingList, ∀ p, findProposal id s = some p →
        p.GetProposalType = .Version → p.GetEndVotingBlock = bn → s.PreActive = ZeroHash) →
      (∀ id ∈ s.VotingList, ∀ id2 ∈ s.VotingList, ∀ p p2, findProposal id s = some p →
        findProposal id2 s = some p2 → p.GetProposalType = .Version →
        p2.GetProposalType = .Version → p.GetEndVotingBlock = bn →
        p2.GetEndVotingBlock = bn → id = id2) →
      (∀ id ∈ s.VotingList, ∀ cp, findProposal id s = some (.cancel cp) →
        cp.EndVotingBlock = bn →
        ∀ q, findProposal cp.TobeCanceled s = some q → q.GetEndVotingBlock ≠ bn) →
      listsPartition (EndBlock env bh bn s).2) ∧
    listsPartition (BeginBlock env bh bn s).2 := by
  refine ⟨fun caller proposal hv hp he =>
      Submit_partitioned env caller proposal bh bn s hinv hv hp he,
    fun ty id hid => ?_, fun vp hid hz hslot => ?_, fun cp hid => ?_,
    fun hnodup hzero hslot huniq hcancel =>
      EndBlock_partitioned env bh bn s hinv hnodup hzero hslot huniq hcancel,
    BeginBlock_moves env bh bn (idLists s) hinv s rfl⟩
  · unfold listsPartition
    rcases tally_moves env ty id bh bn (idLists s) s rfl with h | h
    · rw [h]; exact hinv
    · rw [h]; exact partitioned_toEnd _ _ hinv hid
  · unfold listsPartition
    rcases tallyVersion_moves env vp bh bn (idLists s) s rfl with h | h | h
    · rw [h]; exact hinv
    · rw [h]; exact partitioned_toEnd _ _ hinv hid
    · rw [h]; exact partitioned_toPreActive _ _ hinv hid hz hslot
  · unfold listsPartition
    obtain ⟨l1, hl1, h⟩ := tallyCancel_moves env cp bh bn (idLists s) s rfl
    have hl1p : l1.partitioned := by
      rcases hl1 with hl1 | hl1
      · rw [hl1]; exact hinv
      · rw [hl1]; exact partitioned_toEnd _ _ hinv hid
    rcases h with h | ⟨hmem, h⟩
    · rw [h]; exact hl1p
    · rw [h]; exact partitioned_toEnd _ _ hl1p hmem

theorem C24_lists_partition_preserved_witness :
    (listsPartition stCancel ∧ listsPartition stPreActive ∧ listsPartition stBoundary) ∧
    listsPartition (EndBlock exEnv 0 250 stCancel).2 ∧
    listsPartition (tallyCancel exEnv cp3 0 250 stCancel).2 ∧
    listsPartition (tallyVersion exEnv vp18 0 100 stBoundary).2 ∧
    listsPartition (BeginBlock exEnv 0 500 stPreActive).2 := by
  have hid : ∀ id ∈ stCancel.VotingList, id = 2 ∨ id = 3 := by
    intro id h
    simpa [stCancel] using h
  have h2 : findProposal 2 stCancel = some (.version vp2) := rfl
  have h3 : findProposal 3 stCancel = some (.cancel cp3) := rfl
  refine ⟨⟨by decide, by decide, by decide⟩,
    (C24_lists_partition_preserved exEnv 0 250 stCancel (by decide)).2.2.2.2.1 (by decide)
      (by decide) (fun _ _ _ _ _ _ => rfl) ?_ ?_,
    (C24_lists_partition_preserved exEnv 0 250 stCancel (by decide)).2.2.2.1 cp3 (by decide),
    (C24_lists_partition_preserved exEnv 0 100 stBoundary (by decide)).2.2.1 vp18 (by decide)
      (by decide) rfl,
    (C24_lists_partition_preserved exEnv 0 500 stPreActive (by decide)).2.2.2.2.2⟩
  · intro id hi id2 hi2 p p2 hp hp2 ht ht2 he he2
    rcases hid id hi with rfl | rfl
    · rw [h2] at hp
      cases hp
      exact absurd he (by decide)
    · rw [h3] at hp
      cases hp
      exact absurd ht (by decide)
  · intro id hi cp hp he q hq
    rcases hid id hi with rfl | rfl
    · rw [h2] at hp
      cases hp
    · rw [h3] at hp
      cases hp
      have hq2 : findProposal 2 stCancel = some q := hq
      rw [h2] at hq2
      cases hq2
      decide

/-! ## Inputs on which the claims about `tallyVersion`, `DeclareVersion` and the ID lists fail as stated -/

theorem f64Round_tenth :
    f64Round (1 / 10) = 3602879701896397 / 36028797018963968 := by
  have h : Int.log 2 ((1 : ℚ) / 10) = -4 :=
    log_two_eq _ _ (by norm_num) (by norm_num) (by norm_num)
  have hfl : ⌊((36028797018963968 : ℚ) / 5)⌋ = 7205759403792793 := by
    rw [Int.floor_eq_iff]
    constructor <;> norm_num
  have hm : (1 : ℚ) / 10 * (2 : ℚ) ^ ((52 : ℤ) - (-4)) = 36028797018963968 / 5 := by
    norm_num
  have hr : roundHalfEven ((36028797018963968 : ℚ) / 5) = 7205759403792794 := by
    unfold roundHalfEven
    rw [hfl]
    norm_num
  unfold f64Round
  rw [if_neg (by norm_num), h, hm, hr]
  norm_num

theorem f64Round_tenth_threshold :
    f64Round (3602879701896397 / 36028797018963968) = 3602879701896397 / 36028797018963968 := by
  have h : Int.log 2 ((3602879701896397 : ℚ) / 36028797018963968) = -4 :=
    log_two_eq _ _ (by norm_num) (by norm_num) (by norm_num)
  have hm : (3602879701896397 : ℚ) / 36028797018963968 * (2 : ℚ) ^ ((52 : ℤ) - (-4)) =
      ((7205759403792794 : ℤ) : ℚ) := by
    norm_num
  unfold f64Round
  rw [if_neg (by norm_num), h, hm, roundHalfEven_intCast]
  norm_num

/-- C2 fails as stated: version proposal 48 has one vote and ten accumulated verifiers, and the
threshold is the `float64` value of `0.1`, which is greater than 1/10; the exact ratio c/N = 1/10
is below the threshold, yet `tallyVersion` stores Status = PreActive, because the `float64`
quotient `float64(1) / float64(10)` rounds up to the threshold. -/
theorem C2_counterexample_rounded_quotient :
    (votesOf stOneOfTen vp48.ProposalID).length % 65536 = 1 ∧
    accuCount stOneOfTen vp48.ProposalID = 10 ∧
    f64Round exEnvTenth.VersionProposal_SupportRate = exEnvTenth.VersionProposal_SupportRate ∧
    ¬ (exEnvTenth.VersionProposal_SupportRate ≤ ((1 : ℕ) : ℚ) / ((10 : ℕ) : ℚ)) ∧
    (tallyVersion exEnvTenth vp48 0 100 stOneOfTen).1 = .ok () ∧
    findTallyResult 48 (tallyVersion exEnvTenth vp48 0 100 stOneOfTen).2 =
      some { ProposalID := 48, Yeas := 1, Nays := 0, Abstentions := 0, AccuVerifiers := 10,
             Status := .PreActive, CanceledBy := ZeroHash } := by
  have hc : (votesOf stOneOfTen vp48.ProposalID).length % 65536 = 1 := by decide
  have hn : accuCount stOneOfTen vp48.ProposalID = 10 := by decide
  have hthr : exEnvTenth.VersionProposal_SupportRate =
      3602879701896397 / 36028797018963968 := rfl
  have hrate : supportRateReached ((votesOf stOneOfTen vp48.ProposalID).length % 65536)
      (accuCount stOneOfTen vp48.ProposalID) exEnvTenth.VersionProposal_SupportRate = true := by
    rw [hc, hn, supportRateReached_iff _ _ _ (by norm_num), hthr]
    have hq : ((1 : ℕ) : ℚ) / ((10 : ℕ) : ℚ) = 1 / 10 := by norm_num
    rw [hq, f64Round_tenth]
  have hrun := tallyVersion_run_pass exEnvTenth vp48 0 100 stOneOfTen (fun _ => rfl) rfl hrate
  refine ⟨hc, hn, ?_, ?_, ?_, ?_⟩
  · rw [hthr]
    exact f64Round_tenth_threshold
  · rw [hthr]
    norm_num
  · rw [hrun]
  · rw [hrun, hc, hn]
    rfl

/-- C19 fails as stated: (1) no version proposal is voting, the pre-active version P = 0x010200
is non-zero and node 2 declares d = P exactly, with a valid signature and its staking address
102 as caller, but no version is active (A = 0): `DeclareVersion` returns the business error
"wrong current active version." and staking is not notified; (2) no version proposal is voting
and node 2 declares 0x010101, which matches the active version 0x010100 on its high 24 bits, but
the signature is not the node's: `DeclareVersion` returns the business error "version sign
error." and staking is not notified. -/
theorem C19_counterexample_unchecked_declaration :
    (firstVersionProposal stNoActive stNoActive.VotingList = none ∧
      GetPreActiveVersion stNoActive ≠ 0 ∧ 66048 = GetPreActiveVersion stNoActive ∧
      exEnv.IsSignedByNodeID 66048 2 2 = true ∧
      checkCandidate exEnv 102 2 0 150 stNoActive = (.ok (), stNoActive) ∧
      exEnv.stkFails .DeclarePromoteNotify = false ∧
      DeclareVersion exEnv 102 2 66048 2 0 150 stNoActive =
        (.error (.biz "wrong current active version."), stNoActive) ∧
      stNoActive.Notified = []) ∧
    (firstVersionProposal stPreActive stPreActive.VotingList = none ∧
      65793 / 256 = GetCurrentActiveVersion stPreActive / 256 ∧
      exEnv.IsSignedByNodeID 65793 3 2 = false ∧
      exEnv.stkFails .DeclarePromoteNotify = false ∧
      DeclareVersion exEnv 102 2 65793 3 0 150 stPreActive =
        (.error (.biz "version sign error."), stPreActive) ∧
      stPreActive.Notified = []) :=
  ⟨⟨rfl, by decide, rfl, rfl, rfl, rfl, rfl, rfl⟩, ⟨rfl, by decide, rfl, rfl, rfl, rfl⟩⟩

theorem f64Round_one : f64Round 1 = 1 := by
  have h : Int.log 2 (1 : ℚ) = 0 := log_two_eq _ _ (by norm_num) (by norm_num) (by norm_num)
  have hm : (1 : ℚ) * (2 : ℚ) ^ ((52 : ℤ) - 0) = ((4503599627370496 : ℤ) : ℚ) := by norm_num
  unfold f64Round
  rw [if_neg (by norm_num), h, hm, roundHalfEven_intCast]
  norm_num

theorem supportRateReached_four_of_four : supportRateReached 4 4 (5 / 8) = true := by
  rw [supportRateReached_iff _ _ _ (by norm_num)]
  have : ((4 : ℕ) : ℚ) / ((4 : ℕ) : ℚ) = 1 := by norm_num
  rw [this, f64Round_one]
  norm_num

theorem tallyVersion_pass_idLists (env : Env) (p : VersionProposal) (bh : Hash) (bn : Nat)
    (s : State) (hf : ∀ op, env.fails op = false)
    (hs : env.stkFails .ProposalPassedNotify = false)
    (h : supportRateReached ((votesOf s p.ProposalID).length % 65536)
          (accuCount s p.ProposalID) env.VersionProposal_SupportRate = true) :
    (tallyVersion env p bh bn s).1 = .ok () ∧
    idLists (tallyVersion env p bh bn s).2 = (idLists s).toPreActive p.ProposalID := by
  rw [tallyVersion_run_pass env p bh bn s hf hs h]
  exact ⟨rfl, rfl⟩

theorem EndBlock_loop_version_pass (env : Env) (vl : List NodeID) (bh : Hash) (bn : Nat)
    (id : Hash) (rest : List Hash) (t : State) (vp : VersionProposal)
    (hf : ∀ op, env.fails op = false) (hs : env.stkFails .ProposalPassedNotify = false)
    (hp : findProposal id t = some (.version vp)) (hty : vp.ProposalType = .Version)
    (hend : vp.EndVotingBlock = bn)
    (h : supportRateReached ((votesOf (accumulated t id vl) vp.ProposalID).length % 65536)
          (accuCount (accumulated t id vl) vp.ProposalID) env.VersionProposal_SupportRate =
            true) :
    EndBlock_loop env vl bh bn (id :: rest) t =
      EndBlock_loop env vl bh bn rest (tallyVersion env vp bh bn (accumulated t id vl)).2 := by
  rw [EndBlock_loop_step env vl bh bn id rest t (.version vp) (hf _) (hf _) hp hend,
    EndBlock_dispatch_version env vp bh bn hty, bind_run,
    tallyVersion_run_pass env vp bh bn (accumulated t id vl) hf hs h]

theorem ignoresTallyWrites_votes : IgnoresTallyWrites (fun s => s.Votes) :=
  fun _ _ _ _ _ _ _ _ => rfl

/-- C24 fails as stated. (1) From the empty state, `Submit` of the version proposals 18 and 28
(both ending their voting at block 100) and a Yes vote of each of the four verifiers on both
return no error and reach a state where every stored proposal ID is in exactly one list (both
in the VotingList). `EndBlock` at block 100 returns no error: proposal 18 passes and fills the
PreActive slot, then proposal 28 passes and takes the slot; afterwards proposal 18 is still
stored but is in none of the VotingList, the PreActive slot and the EndList. (2) `Submit` of the
new text proposal 7 on the empty state, with the gateway write `AddVotingProposalID` failing,
returns that error after the proposal was stored: it is stored and in none of the lists. -/
theorem C24_counterexample_two_version_proposals :
    ((submitAndVoteTwice emptyState).1 = .ok () ∧
      listsPartition stTwoVersions ∧
      (EndBlock exEnv 0 100 stTwoVersions).1 = .ok () ∧
      findProposal 18 (EndBlock exEnv 0 100 stTwoVersions).2 = some (.version vp18) ∧
      (EndBlock exEnv 0 100 stTwoVersions).2.VotingList = [] ∧
      (EndBlock exEnv 0 100 stTwoVersions).2.PreActive = 28 ∧
      (EndBlock exEnv 0 100 stTwoVersions).2.EndList = [] ∧
      ¬ listsPartition (EndBlock exEnv 0 100 stTwoVersions).2) ∧
    (listsPartition emptyState ∧
      (Submit exEnvAddVotingFails 101 (.text ⟨7, .Text, 1, 10, 100⟩) 0 10 emptyState).1 =
        .error (.store .AddVotingProposalID) ∧
      findProposal 7
          (Submit exEnvAddVotingFails 101 (.text ⟨7, .Text, 1, 10, 100⟩) 0 10 emptyState).2 =
        some (.text ⟨7, .Text, 1, 10, 100⟩) ∧
      ¬ listsPartition
        (Submit exEnvAddVotingFails 101 (.text ⟨7, .Text, 1, 10, 100⟩) 0 10 emptyState).2) := by
  have hrate1 : supportRateReached
      ((votesOf (accumulated stTwoVersions 18 [1, 2, 3, 4]) vp18.ProposalID).length % 65536)
      (accuCount (accumulated stTwoVersions 18 [1, 2, 3, 4]) vp18.ProposalID)
      exEnv.VersionProposal_SupportRate = true := by
    have hc : (votesOf (accumulated stTwoVersions 18 [1, 2, 3, 4]) vp18.ProposalID).length
        % 65536 = 4 := by decide
    have hn : accuCount (accumulated stTwoVersions 18 [1, 2, 3, 4]) vp18.ProposalID = 4 := by
      decide
    rw [hc, hn]
    exact supportRateReached_four_of_four
  have hp1 := tallyVersion_pass_idLists exEnv vp18 0 100
    (accumulated stTwoVersions 18 [1, 2, 3, 4]) exEnv_fails rfl hrate1
  have hk1p := tallyVersion_keeps _ ignoresTallyWrites_proposals exEnv vp18 0 100
    (accumulated stTwoVersions 18 [1, 2, 3, 4])
  have hk1v := tallyVersion_keeps _ ignoresTallyWrites_votes exEnv vp18 0 100
    (accumulated stTwoVersions 18 [1, 2, 3, 4])
  have hk1a := tallyVersion_keeps _ (ignoresTallyWrites_accu 28) exEnv vp18 0 100
    (accumulated stTwoVersions 18 [1, 2, 3, 4])
  generalize hT1 : (tallyVersion exEnv vp18 0 100
    (accumulated stTwoVersions 18 [1, 2, 3, 4])).2 = T1 at hp1 hk1p hk1v hk1a
  have hprop1 : T1.Proposals = stTwoVersions.Proposals := hk1p
  have hvotes1 : T1.Votes = stTwoVersions.Votes := hk1v
  have haccu1 : T1.AccuVerifiers 28 = [] := by
    have : T1.AccuVerifiers 28 = (accumulated stTwoVersions 18 [1, 2, 3, 4]).AccuVerifiers 28 :=
      hk1a
    rw [this]
    rfl
  have hfind1 : findProposal 28 T1 = some (.version vp28) := by
    rw [findProposal_congr 28 stTwoVersions T1 hprop1]
    rfl
  have hrate2 : supportRateReached
      ((votesOf (accumulated T1 28 [1, 2, 3, 4]) vp28.ProposalID).length % 65536)
      (accuCount (accumulated T1 28 [1, 2, 3, 4]) vp28.ProposalID)
      exEnv.VersionProposal_SupportRate = true := by
    have hc : (votesOf (accumulated T1 28 [1, 2, 3, 4]) vp28.ProposalID).length % 65536 = 4 := by
      have hv : votesOf (accumulated T1 28 [1, 2, 3, 4]) vp28.ProposalID =
          votesOf stTwoVersions 28 := by
        unfold votesOf
        show (T1.Votes.filter _).map _ = _
        rw [hvotes1]
        rfl
      rw [hv]
      decide
    have hn : accuCount (accumulated T1 28 [1, 2, 3, 4]) vp28.ProposalID = 4 := by
      have ha : (accumulated T1 28 [1, 2, 3, 4]).AccuVerifiers 28 =
          mergeNodes (T1.AccuVerifiers 28) [1, 2, 3, 4] := by
        simp [accumulated, setAt]
      unfold accuCount
      show ((accumulated T1 28 [1, 2, 3, 4]).AccuVerifiers 28).length % 65536 = 4
      rw [ha, haccu1]
      decide
    rw [hc, hn]
    exact supportRateReached_four_of_four
  have hp2 := tallyVersion_pass_idLists exEnv vp28 0 100 (accumulated T1 28 [1, 2, 3, 4])
    exEnv_fails rfl hrate2
  have hrun : EndBlock exEnv 0 100 stTwoVersions =
      (.ok (), (tallyVersion exEnv vp28 0 100 (accumulated T1 28 [1, 2, 3, 4])).2) := by
    rw [EndBlock_run_loop exEnv 0 100 stTwoVersions rfl rfl rfl]
    show EndBlock_loop exEnv [1, 2, 3, 4] 0 100 [18, 28] stTwoVersions = _
    rw [EndBlock_loop_version_pass exEnv [1, 2, 3, 4] 0 100 18 [28] stTwoVersions vp18
      exEnv_fails rfl rfl rfl rfl hrate1, hT1,
      EndBlock_loop_version_pass exEnv [1, 2, 3, 4] 0 100 28 [] T1 vp28
      exEnv_fails rfl hfind1 rfl rfl hrate2]
    rfl
  have hlists : idLists (EndBlock exEnv 0 100 stTwoVersions).2 =
      ((idLists stTwoVersions).toPreActive 18).toPreActive 28 := by
    rw [hrun]
    show idLists (tallyVersion exEnv vp28 0 100 (accumulated T1 28 [1, 2, 3, 4])).2 = _
    rw [hp2.2]
    show (idLists T1).toPreActive 28 = _
    rw [hp1.2]
    rfl
  refine ⟨⟨rfl, by decide, by rw [hrun], ?_, ?_, ?_, ?_, ?_⟩, ⟨by decide, rfl, rfl, by decide⟩⟩
  · have h : (idLists (EndBlock exEnv 0 100 stTwoVersions).2).Proposals =
        stTwoVersions.Proposals := by rw [hlists]; rfl
    rw [findProposal_congr 18 stTwoVersions _ h]
    rfl
  · have h := congrArg IdLists.VotingList hlists
    exact h.trans (by decide)
  · have h := congrArg IdLists.PreActive hlists
    exact h.trans (by decide)
  · have h := congrArg IdLists.EndList hlists
    exact h.trans (by decide)
  · unfold listsPartition
    rw [hlists]
    decide

end PlatON
